import Mathlib

/-!
# meetingmate: the invitation parser (`src/main.go`)

A shallow embedding of `parseMeeting`, `parseAttendee` and `parseMeetingTime`, and of the
renderers `generateMarkdown` and `generatePlainText`.

Modelling conventions.

* A Go `string` that holds valid UTF-8 text is a `List Char` (its code points).
  Go's `len` is the UTF-8 byte count, `len` below.  Substring search, prefix tests and
  splitting on a one-rune separator agree on bytes and on code points for valid UTF-8.
* `time.Time` is the instant it denotes: whole seconds since 0001-01-01T00:00:00 UTC plus
  nanoseconds, always in UTC.  The zero value `time.Time{}` is instant `0`.
* `time.Now().Year()` is the parameter `year`, `time.Now().Format("2006-01-02")` the
  parameter `today`, and the rune map of `strings.ToLower` the parameter `toLower`.
* A `strings.Builder` is the text written to it so far.
* Integers are unbounded; no quantity of the program comes near the 64-bit range.
-/

namespace MeetingMate

/-! ## Go strings -/

/-- A Go string holding valid UTF-8 text, as its sequence of code points. -/
abbrev Str := List Char

/-- Go `len(s)`: the number of bytes of the UTF-8 encoding. -/
def len (s : Str) : Nat := (s.map Char.utf8Size).sum

/-- Go `strings.HasPrefix(s, p)`. -/
def HasPrefix (s p : Str) : Bool := p.isPrefixOf s

/-- Go `strings.Contains(s, sub)`: `sub` occurs in `s` as a contiguous block. -/
def Contains : Str → Str → Bool
  | [], sub => sub.isPrefixOf []
  | c :: t, sub => sub.isPrefixOf (c :: t) || Contains t sub

/-- Go `strings.ContainsAny(s, chars)`. -/
def ContainsAny (s chars : Str) : Bool := s.any (fun c => chars.contains c)

/-- Go `unicode.IsSpace`: the code points with the White_Space property. -/
def isSpace (c : Char) : Bool :=
  c = '\t' || c = '\n' || c = '\x0b' || c = '\x0c' || c = '\r' || c = ' ' ||
  c.toNat = 0x85 || c.toNat = 0xA0 || c.toNat = 0x1680 ||
  (0x2000 ≤ c.toNat && c.toNat ≤ 0x200A) ||
  c.toNat = 0x2028 || c.toNat = 0x2029 || c.toNat = 0x202F ||
  c.toNat = 0x205F || c.toNat = 0x3000

/-- Go `strings.TrimSpace(s)`: leading and trailing white space removed. -/
def TrimSpace (s : Str) : Str := (s.dropWhile isSpace).rdropWhile isSpace

/-- Go `strings.Fields(s)`: the maximal runs of non-space code points. -/
def Fields (s : Str) : List Str := (s.splitOnP isSpace).filter (fun w => w ≠ [])

/-- Go `strings.Split(s, sep)` for a separator of one code point (every separator the
program uses is one: newline, middle dot, en dash, colon). -/
def Split (s : Str) (sep : Char) : List Str := s.splitOn sep

/-- Go `strings.Join(xs, sep)`. -/
def Join (xs : List Str) (sep : Str) : Str := sep.intercalate xs

/-- Go `strings.TrimPrefix(s, p)`. -/
def TrimPrefix (s p : Str) : Str := if HasPrefix s p then s.drop p.length else s

/-- Go `strings.TrimSuffix(s, suf)`. -/
def TrimSuffix (s suf : Str) : Str :=
  if suf.isSuffixOf s then s.take (s.length - suf.length) else s

/-- The middle dot of a schedule line, U+22C5. -/
def middleDot : Char := '⋅'

/-- The en dash of a schedule line, U+2013. -/
def enDash : Char := '–'

/-! ## Go `time` -/

/-- A `time.Time` in UTC: seconds since 0001-01-01T00:00:00 UTC and nanoseconds. -/
structure Time where
  sec : Int := 0
  nsec : Int := 0
  deriving DecidableEq, Repr

/-- The zero value `time.Time{}`. -/
def Time.zero : Time := {}

/-- Go `Time.IsZero`. -/
def Time.IsZero (t : Time) : Bool := t.sec = 0 && t.nsec = 0

/-- Go `norm(hi, lo, base)`: carry `lo` into `hi` so that `0 ≤ lo < base`. -/
def norm (hi lo base : Int) : Int × Int := (hi + lo / base, lo % base)

/-- Go `isLeap`. -/
def isLeap (year : Int) : Bool := year % 4 = 0 && (year % 100 ≠ 0 || year % 400 = 0)

/-- Go `daysBefore[m]`: days of a non-leap year before month `m + 1`. -/
def daysBefore (m : Nat) : Int :=
  [0, 31, 59, 90, 120, 151, 181, 212, 243, 273, 304, 334, 365].getD m 0

/-- Go `daysSinceEpoch`, counted from 1 January of year 1. -/
def daysSinceEpoch (year : Int) : Int :=
  let y := year - 1
  365 * y + y / 4 - y / 100 + y / 400

/-- Go `time.Date(year, month, day, hour, min, sec, nsec, time.UTC)`. -/
def Date (year month day hour min sec nsec : Int) : Time :=
  let m := month - 1
  let (year, m) := norm year m 12
  let month := m + 1
  let (sec, nsec) := norm sec nsec 1000000000
  let (min, sec) := norm min sec 60
  let (hour, min) := norm hour min 60
  let (day, hour) := norm day hour 24
  let d := daysSinceEpoch year
  let d := d + daysBefore (month - 1).toNat
  let d := if isLeap year && month ≥ 3 then d + 1 else d
  let d := d + (day - 1)
  let abs := d * 86400
  let abs := abs + (hour * 3600 + min * 60 + sec)
  { sec := abs, nsec := nsec }

/-- Go `daysIn(m, year)`: the number of days of month `m` of `year`. -/
def daysIn (m : Nat) (year : Int) : Int :=
  if m = 2 && isLeap year then 29 else daysBefore m - daysBefore (m - 1)

/-- The first half of Go `absDate`: the year of the day number `d`, counted from
0001-01-01, and the day within that year, counted from 0. -/
def absYearDay (d : Int) : Int × Int :=
  let n := d / 146097
  let y := 400 * n
  let d := d - 146097 * n
  let n := d / 36524
  let n := n - n / 4
  let y := y + 100 * n
  let d := d - 36524 * n
  let n := d / 1461
  let y := y + 4 * n
  let d := d - 1461 * n
  let n := d / 365
  let n := n - n / 4
  let y := y + n
  let d := d - 365 * n
  (y + 1, d)

/-- The second half of Go `absDate`: the month and the day of the month of day `d`
(counted from 0) of a year that is a leap year or not. -/
def monthDay (leap : Bool) (d : Int) : Int × Int :=
  if leap && d = 31 + 29 - 1 then (2, 29)
  else
    let day := if leap && d > 31 + 29 - 1 then d - 1 else d
    let month := day / 31
    let e := daysBefore (month + 1).toNat
    if day ≥ e then (month + 2, day - e + 1)
    else (month + 1, day - daysBefore month.toNat + 1)

/-- Go `absDate`: year, month and day of the day number `d` counted from 0001-01-01. -/
def absDate (d : Int) : Int × Int × Int :=
  let (year, yday) := absYearDay d
  (year, monthDay (isLeap year) yday)

/-- Go `Time.Year`. -/
def Time.Year (t : Time) : Int := (absDate (t.sec / 86400)).1

/-- Go `Time.Month`. -/
def Time.Month (t : Time) : Int := (absDate (t.sec / 86400)).2.1

/-- Go `Time.Day`. -/
def Time.Day (t : Time) : Int := (absDate (t.sec / 86400)).2.2

/-- Go `Time.Hour`. -/
def Time.Hour (t : Time) : Int := t.sec % 86400 / 3600

/-- Go `Time.Minute`. -/
def Time.Minute (t : Time) : Int := t.sec % 3600 / 60

/-- Go `Time.Second`. -/
def Time.Second (t : Time) : Int := t.sec % 60

/-- Go `getnum(s, fixed)` of package `time`: a one- or two-digit number at the head of
`s` (two digits required when `fixed`) and the rest of `s`. -/
def getnum : Str → Bool → Option (Nat × Str)
  | [], _ => none
  | a :: rest, fixed =>
    if !a.isDigit then none
    else match rest with
      | [] => if fixed then none else some (a.toNat - 48, [])
      | b :: rest2 =>
        if !b.isDigit then (if fixed then none else some (a.toNat - 48, b :: rest2))
        else some ((a.toNat - 48) * 10 + (b.toNat - 48), rest2)

/-- The day read by `time.Parse("2", value)`, `none` when `Parse` returns an error
(no digits, text left over, or a day outside 1..31). -/
def parseDay (value : Str) : Option Nat :=
  match getnum value false with
  | none => none
  | some (day, rest) =>
    if rest ≠ [] then none else if day < 1 || day > 31 then none else some day

/-- The hour read by `time.Parse("15", value)`, `none` when `Parse` returns an error. -/
def parseHour (value : Str) : Option Nat :=
  match getnum value false with
  | none => none
  | some (hour, rest) =>
    if 24 ≤ hour then none else if rest ≠ [] then none else some hour

/-- The minute read by `time.Parse("04", value)`, `none` when `Parse` returns an error. -/
def parseMinute (value : Str) : Option Nat :=
  match getnum value true with
  | none => none
  | some (min, rest) =>
    if 60 ≤ min then none else if rest ≠ [] then none else some min

/-! ## The data model -/

/-- Attendee represents meeting participant information. -/
structure Attendee where
  Name : Str := []
  Status : Str := []
  Location : Str := []
  Notes : Str := []
  deriving DecidableEq, Repr

/-- Meeting represents parsed meeting information. -/
structure Meeting where
  Title : Str := []
  DateTime : Str := []
  MeetingTime : Time := {}
  Duration : Str := []
  Frequency : Str := []
  Location : Str := []
  MeetLink : Str := []
  PhoneInfo : Str := []
  Organizer : Str := []
  Attendees : List Attendee := []
  Description : Str := []
  Links : List Str := []
  deriving DecidableEq, Repr

/-! ## `parseMeetingTime` -/

/-- The entries of the `monthMap` literal of `parseMeetingTime`. -/
def monthTable : List (Str × Nat) :=
  [("January".toList, 1), ("February".toList, 2), ("March".toList, 3), ("April".toList, 4),
   ("May".toList, 5), ("June".toList, 6), ("July".toList, 7), ("August".toList, 8),
   ("September".toList, 9), ("October".toList, 10), ("November".toList, 11),
   ("December".toList, 12)]

/-- The lookup `monthMap[monthStr]` of `parseMeetingTime`, `none` when the key is absent. -/
def monthMap (m : Str) : Option Nat := monthTable.lookup m

/-- `parseMeetingTime(dateTimeStr)`, with `time.Now().Year()` given as `year`. -/
def parseMeetingTime (year : Int) (dateTimeStr : Str) : Time :=
  match Split dateTimeStr middleDot with
  | [p0, p1] =>
    let datePart := TrimSpace p0
    let timePart := TrimSpace p1
    match Split timePart enDash with
    | [] => Time.zero
    | t0 :: _ =>
      let startTime := TrimSpace t0
      match Fields datePart with
      | _ :: d1 :: d2 :: _ =>
        let dayStr := TrimSuffix d1 ",".toList
        let monthStr := d2
        match monthMap monthStr with
        | none => Time.zero
        | some month =>
          let day := (parseDay dayStr).getD 1
          match Split startTime ':' with
          | [h, m] =>
            let hour := (parseHour h).getD 0
            let minute := (parseMinute m).getD 0
            Date year month day hour minute 0 0
          | _ => Time.zero
      | _ => Time.zero
  | _ => Time.zero

/-! ## `parseAttendee` -/

/-- `parseAttendee(line, lines, index)`. -/
def parseAttendee (line : Str) (lines : List Str) (index : Nat) : Attendee :=
  let attendee : Attendee := {}
  if Contains line "guests".toList || Contains line "yes".toList ||
      Contains line "awaiting".toList || Contains line "Edit".toList ||
      Contains line "More joining".toList || Contains line "http".toList ||
      Contains line "@".toList || Contains line "event_busy".toList ||
      Contains line "Out of office".toList || Contains line "bedtime".toList ||
      Contains line "Outside working hours".toList || line = "–".toList ||
      line = "Home".toList || line = "Office".toList || line = "Scotland".toList ||
      Contains line "Declined because".toList || len line < 3 ||
      HasPrefix line "http://".toList || HasPrefix line "https://".toList then
    attendee
  else if len line > 0 && !Contains line "meet.".toList && !Contains line ".com".toList then
    let words := Fields line
    if words.length ≥ 1 && words.length ≤ 4 then
      let hasNumbers := words.any (fun word => ContainsAny word "0123456789@.".toList)
      if !hasNumbers then
        let attendee := { attendee with Name := line }
        match lines[index + 1]? with
        | some next =>
          let nextLine := TrimSpace next
          if Contains nextLine "event_busy".toList ||
              Contains nextLine "Out of office".toList then
            { attendee with Status := "Declined".toList }
          else if Contains nextLine "Optional".toList then
            { attendee with Status := "Optional".toList }
          else if nextLine = "Home".toList || nextLine = "Office".toList ||
              nextLine = "Scotland".toList then
            { attendee with Location := nextLine }
          else attendee
        | none => attendee
      else attendee
    else attendee
  else attendee

/-! ## `parseMeeting` -/

/-- The variables of the scan loop of `parseMeeting`. -/
structure ScanState where
  meeting : Meeting := {}
  currentSection : Str := []
  descriptionLines : List Str := []
  inDescription : Bool := false
  deriving DecidableEq, Repr

/-- The way one iteration of the scan loop ends: the `continue` it takes, in source
order, `attendee` for the call of `parseAttendee` and `unmatched` for falling off the end
of the body without it. -/
inductive Rule where
  | blank | title | schedule | frequency | meetLink | singleURL | phoneMarker
  | phoneEntry | guests | organizerLabel | createdBy | descriptionStart
  | descriptionCont | attendee | unmatched
  deriving DecidableEq, Repr

/-- The condition of the schedule rule: the line has a middle dot and an en dash. -/
def isSchedule (line : Str) : Bool :=
  Contains line [middleDot] && Contains line [enDash]

/-- The condition of the recurrence rule. -/
def isFrequency (line : Str) : Bool :=
  HasPrefix line "Weekly".toList || HasPrefix line "Daily".toList ||
    HasPrefix line "Monthly".toList

/-- The condition of the video-link rule. -/
def isMeetLink (line : Str) : Bool :=
  Contains line "meet.google.com".toList || Contains line "zoom.us".toList ||
    Contains line "teams.microsoft.com".toList

/-- The condition of the URL block: the line mentions `http://` or `https://`. -/
def isURLLine (line : Str) : Bool :=
  Contains line "http://".toList || Contains line "https://".toList

/-- The words of the line that the URL block appends to `Links`. -/
def urlWords (line : Str) : List Str :=
  (Fields line).filter (fun word =>
    HasPrefix word "http://".toList || HasPrefix word "https://".toList)

/-- The condition of the `continue` inside the URL block: the line is one URL. -/
def isSingleURL (line : Str) : Bool :=
  (Fields line).length = 1 &&
    (HasPrefix line "http://".toList || HasPrefix line "https://".toList)

/-- The condition that opens the phone section. -/
def isPhoneMarker (line : Str) : Bool := Contains line "Join by phone".toList

/-- The condition on the text of a phone entry. -/
def isPhoneEntry (line : Str) : Bool :=
  Contains line "+".toList || Contains line "PIN:".toList || Contains line "ID:".toList

/-- The condition of the guest-count rule. -/
def isGuestMarker (line : Str) : Bool :=
  Contains line "guests".toList || Contains line "yes".toList ||
    Contains line "no".toList || Contains line "maybe".toList

/-- The condition of the organizer-label rule. -/
def isOrganizerLabel (line : Str) : Bool :=
  Contains line "Organiser".toList || Contains line "Organizer".toList

/-- The condition of the `Created by:` rule. -/
def isCreatedBy (line : Str) : Bool := HasPrefix line "Created by:".toList

/-- The condition that starts the description. -/
def isDescriptionStart (line : Str) : Bool :=
  Contains line "Hi,".toList || (len line > 50 && Contains line " ".toList)

/-- The guard of the attendee block. -/
def isAttendeeCandidate (title line : Str) : Bool :=
  line ≠ title && !Contains line [middleDot] && !Contains line "meet.".toList

/-- The loop variables after the URL block. -/
def addLinks (line : Str) (st : ScanState) : ScanState :=
  if isURLLine line then
    { st with meeting := { st.meeting with Links := st.meeting.Links ++ urlWords line } }
  else st

/-- The rest of the loop body after the URL block has appended its links, for the
trimmed line `line` at index `i`. -/
def scanTail (lines : List Str) (i : Nat) (line : Str) (st : ScanState) :
    Rule × ScanState :=
  if isURLLine line && isSingleURL line then (.singleURL, st)
  else if isPhoneMarker line then
    (.phoneMarker, { st with currentSection := "phone".toList })
  else if st.currentSection = "phone".toList && isPhoneEntry line then
    (.phoneEntry, { st with meeting := { st.meeting with PhoneInfo :=
      if st.meeting.PhoneInfo = [] then line
      else st.meeting.PhoneInfo ++ "\n".toList ++ line } })
  else if isGuestMarker line then
    (.guests, { st with currentSection := "guests".toList })
  else if isOrganizerLabel line then
    match lines[i + 1]? with
    | some next =>
      (.organizerLabel, { st with meeting := { st.meeting with Organizer := TrimSpace next } })
    | none => (.organizerLabel, st)
  else if isCreatedBy line then
    let createdBy := TrimSpace (TrimPrefix line "Created by:".toList)
    if createdBy ≠ [] then
      (.createdBy, { st with meeting := { st.meeting with Organizer := createdBy } })
    else (.createdBy, st)
  else if isDescriptionStart line then
    (.descriptionStart,
      { st with inDescription := true, descriptionLines := st.descriptionLines ++ [line] })
  else if st.inDescription then
    (.descriptionCont, { st with descriptionLines := st.descriptionLines ++ [line] })
  else if isAttendeeCandidate st.meeting.Title line then
    let attendee := parseAttendee line lines i
    if attendee.Name ≠ [] then
      (.attendee, { st with meeting :=
        { st.meeting with Attendees := st.meeting.Attendees ++ [attendee] } })
    else (.attendee, st)
  else (.unmatched, st)

/-- One iteration of `for i, line := range lines` in `parseMeeting`: how the iteration
ends and the loop variables after it. -/
def scanLine (year : Int) (lines : List Str) (i : Nat) (raw : Str) (st : ScanState) :
    Rule × ScanState :=
  let line := TrimSpace raw
  if line = [] then (.blank, st)
  else if st.meeting.Title = [] && line ≠ [] then
    (.title, { st with meeting := { st.meeting with Title := line } })
  else if isSchedule line then
    (.schedule, { st with meeting :=
      { st.meeting with DateTime := line, MeetingTime := parseMeetingTime year line } })
  else if isFrequency line then
    (.frequency, { st with meeting := { st.meeting with Frequency := line } })
  else if isMeetLink line then
    (.meetLink, { st with meeting :=
      { st.meeting with MeetLink := line, Links := st.meeting.Links ++ [line] } })
  else scanTail lines i line (addLinks line st)

/-- The scan loop of `parseMeeting` over the lines `rest`, the first of them at index `i`. -/
def scanLoop (year : Int) (lines : List Str) : Nat → List Str → ScanState → ScanState
  | _, [], st => st
  | i, raw :: rest, st => scanLoop year lines (i + 1) rest (scanLine year lines i raw st).2

/-- `parseMeeting(input)`: the meeting and the error, which is always `nil`. -/
def parseMeeting (year : Int) (input : Str) : Meeting × Option Str :=
  let lines := Split input '\n'
  let st := scanLoop year lines 0 lines {}
  let meeting :=
    if st.descriptionLines.length > 0 then
      { st.meeting with Description := Join st.descriptionLines "\n".toList }
    else st.meeting
  (meeting, none)

/-! ## Observing the scan -/

/-- The loop variables before the line of index `k` is scanned. -/
def scanBefore (year : Int) (lines : List Str) (k : Nat) : ScanState :=
  scanLoop year lines 0 (lines.take k) {}

/-- The way the iteration for the line of index `k` ends, `blank` past the last line. -/
def ruleAt (year : Int) (lines : List Str) (k : Nat) : Rule :=
  match lines[k]? with
  | some raw => (scanLine year lines k raw (scanBefore year lines k)).1
  | none => .blank

/-- The trimmed line of index `k`, empty past the last line. -/
def lineAt (lines : List Str) (k : Nat) : Str := TrimSpace (lines.getD k [])

/-- The lines after the title line, that is after the first non-blank line. -/
def nonTitleLines (lines : List Str) : List Str :=
  (lines.dropWhile (fun l => TrimSpace l = [])).tail

/-! ## The loop body as a first-match rule list -/

/-- The rule that ends an iteration, read off the conditions of the loop body in source
order: for the trimmed line `line` and the loop variables `st` before the iteration. -/
def ruleOf (st : ScanState) (line : Str) : Rule :=
  if line = [] then .blank
  else if st.meeting.Title = [] then .title
  else if isSchedule line then .schedule
  else if isFrequency line then .frequency
  else if isMeetLink line then .meetLink
  else if isURLLine line && isSingleURL line then .singleURL
  else if isPhoneMarker line then .phoneMarker
  else if st.currentSection = "phone".toList && isPhoneEntry line then .phoneEntry
  else if isGuestMarker line then .guests
  else if isOrganizerLabel line then .organizerLabel
  else if isCreatedBy line then .createdBy
  else if isDescriptionStart line then .descriptionStart
  else if st.inDescription then .descriptionCont
  else if isAttendeeCandidate st.meeting.Title line then .attendee
  else .unmatched

/-- The rules that come after the URL block. -/
def Rule.afterURLBlock : Rule → Bool
  | .blank | .title | .schedule | .frequency | .meetLink => false
  | _ => true

/-- The assignments of the branch that ends with rule `r`. -/
def applyRule (year : Int) (lines : List Str) (i : Nat) (line : Str) :
    Rule → ScanState → ScanState
  | .blank, st => st
  | .title, st => { st with meeting := { st.meeting with Title := line } }
  | .schedule, st => { st with meeting :=
      { st.meeting with DateTime := line, MeetingTime := parseMeetingTime year line } }
  | .frequency, st => { st with meeting := { st.meeting with Frequency := line } }
  | .meetLink, st => { st with meeting :=
      { st.meeting with MeetLink := line, Links := st.meeting.Links ++ [line] } }
  | .singleURL, st => st
  | .phoneMarker, st => { st with currentSection := "phone".toList }
  | .phoneEntry, st => { st with meeting := { st.meeting with PhoneInfo :=
      if st.meeting.PhoneInfo = [] then line
      else st.meeting.PhoneInfo ++ "\n".toList ++ line } }
  | .guests, st => { st with currentSection := "guests".toList }
  | .organizerLabel, st =>
    match lines[i + 1]? with
    | some next => { st with meeting := { st.meeting with Organizer := TrimSpace next } }
    | none => st
  | .createdBy, st =>
    if TrimSpace (TrimPrefix line "Created by:".toList) ≠ [] then
      { st with meeting := { st.meeting with
          Organizer := TrimSpace (TrimPrefix line "Created by:".toList) } }
    else st
  | .descriptionStart, st =>
    { st with inDescription := true, descriptionLines := st.descriptionLines ++ [line] }
  | .descriptionCont, st => { st with descriptionLines := st.descriptionLines ++ [line] }
  | .attendee, st =>
    if (parseAttendee line lines i).Name ≠ [] then
      { st with meeting := { st.meeting with
          Attendees := st.meeting.Attendees ++ [parseAttendee line lines i] } }
    else st
  | .unmatched, st => st

/-- The condition of the branch of rule `r` itself, for the trimmed line `line` and the
loop variables `st` before the iteration. -/
def fires (st : ScanState) (line : Str) : Rule → Prop
  | .blank => line = []
  | .title => st.meeting.Title = []
  | .schedule => isSchedule line = true
  | .frequency => isFrequency line = true
  | .meetLink => isMeetLink line = true
  | .singleURL => isURLLine line = true ∧ isSingleURL line = true
  | .phoneMarker => isPhoneMarker line = true
  | .phoneEntry => st.currentSection = "phone".toList ∧ isPhoneEntry line = true
  | .guests => isGuestMarker line = true
  | .organizerLabel => isOrganizerLabel line = true
  | .createdBy => isCreatedBy line = true
  | .descriptionStart => isDescriptionStart line = true
  | .descriptionCont => st.inDescription = true
  | .attendee => isAttendeeCandidate st.meeting.Title line = true
  | .unmatched => True

/-- The line gets as far as the branch of rule `r`: the condition of every branch before
it in the loop body fails. -/
def reaches (st : ScanState) (line : Str) : Rule → Prop
  | .blank => True
  | .title => ¬ line = []
  | .schedule => ¬ line = [] ∧ ¬ st.meeting.Title = []
  | .frequency => ¬ line = [] ∧ ¬ st.meeting.Title = [] ∧ ¬ isSchedule line = true
  | .meetLink => ¬ line = [] ∧ ¬ st.meeting.Title = [] ∧ ¬ isSchedule line = true ∧
      ¬ isFrequency line = true
  | .singleURL => ¬ line = [] ∧ ¬ st.meeting.Title = [] ∧ ¬ isSchedule line = true ∧
      ¬ isFrequency line = true ∧ ¬ isMeetLink line = true
  | .phoneMarker => ¬ line = [] ∧ ¬ st.meeting.Title = [] ∧ ¬ isSchedule line = true ∧
      ¬ isFrequency line = true ∧ ¬ isMeetLink line = true ∧
      ¬ (isURLLine line = true ∧ isSingleURL line = true)
  | .phoneEntry => ¬ line = [] ∧ ¬ st.meeting.Title = [] ∧ ¬ isSchedule line = true ∧
      ¬ isFrequency line = true ∧ ¬ isMeetLink line = true ∧
      ¬ (isURLLine line = true ∧ isSingleURL line = true) ∧ ¬ isPhoneMarker line = true
  | .guests => ¬ line = [] ∧ ¬ st.meeting.Title = [] ∧ ¬ isSchedule line = true ∧
      ¬ isFrequency line = true ∧ ¬ isMeetLink line = true ∧
      ¬ (isURLLine line = true ∧ isSingleURL line = true) ∧ ¬ isPhoneMarker line = true ∧
      ¬ (st.currentSection = "phone".toList ∧ isPhoneEntry line = true)
  | .organizerLabel => ¬ line = [] ∧ ¬ st.meeting.Title = [] ∧ ¬ isSchedule line = true ∧
      ¬ isFrequency line = true ∧ ¬ isMeetLink line = true ∧
      ¬ (isURLLine line = true ∧ isSingleURL line = true) ∧ ¬ isPhoneMarker line = true ∧
      ¬ (st.currentSection = "phone".toList ∧ isPhoneEntry line = true) ∧
      ¬ isGuestMarker line = true
  | .createdBy => ¬ line = [] ∧ ¬ st.meeting.Title = [] ∧ ¬ isSchedule line = true ∧
      ¬ isFrequency line = true ∧ ¬ isMeetLink line = true ∧
      ¬ (isURLLine line = true ∧ isSingleURL line = true) ∧ ¬ isPhoneMarker line = true ∧
      ¬ (st.currentSection = "phone".toList ∧ isPhoneEntry line = true) ∧
      ¬ isGuestMarker line = true ∧ ¬ isOrganizerLabel line = true
  | .descriptionStart => ¬ line = [] ∧ ¬ st.meeting.Title = [] ∧ ¬ isSchedule line = true ∧
      ¬ isFrequency line = true ∧ ¬ isMeetLink line = true ∧
      ¬ (isURLLine line = true ∧ isSingleURL line = true) ∧ ¬ isPhoneMarker line = true ∧
      ¬ (st.currentSection = "phone".toList ∧ isPhoneEntry line = true) ∧
      ¬ isGuestMarker line = true ∧ ¬ isOrganizerLabel line = true ∧
      ¬ isCreatedBy line = true
  | .descriptionCont => ¬ line = [] ∧ ¬ st.meeting.Title = [] ∧ ¬ isSchedule line = true ∧
      ¬ isFrequency line = true ∧ ¬ isMeetLink line = true ∧
      ¬ (isURLLine line = true ∧ isSingleURL line = true) ∧ ¬ isPhoneMarker line = true ∧
      ¬ (st.currentSection = "phone".toList ∧ isPhoneEntry line = true) ∧
      ¬ isGuestMarker line = true ∧ ¬ isOrganizerLabel line = true ∧
      ¬ isCreatedBy line = true ∧ ¬ isDescriptionStart line = true
  | .attendee => ¬ line = [] ∧ ¬ st.meeting.Title = [] ∧ ¬ isSchedule line = true ∧
      ¬ isFrequency line = true ∧ ¬ isMeetLink line = true ∧
      ¬ (isURLLine line = true ∧ isSingleURL line = true) ∧ ¬ isPhoneMarker line = true ∧
      ¬ (st.currentSection = "phone".toList ∧ isPhoneEntry line = true) ∧
      ¬ isGuestMarker line = true ∧ ¬ isOrganizerLabel line = true ∧
      ¬ isCreatedBy line = true ∧ ¬ isDescriptionStart line = true ∧
      ¬ st.inDescription = true
  | .unmatched => ¬ line = [] ∧ ¬ st.meeting.Title = [] ∧ ¬ isSchedule line = true ∧
      ¬ isFrequency line = true ∧ ¬ isMeetLink line = true ∧
      ¬ (isURLLine line = true ∧ isSingleURL line = true) ∧ ¬ isPhoneMarker line = true ∧
      ¬ (st.currentSection = "phone".toList ∧ isPhoneEntry line = true) ∧
      ¬ isGuestMarker line = true ∧ ¬ isOrganizerLabel line = true ∧
      ¬ isCreatedBy line = true ∧ ¬ isDescriptionStart line = true ∧
      ¬ st.inDescription = true ∧ ¬ isAttendeeCandidate st.meeting.Title line = true

/-! ## Vocabulary of the statements -/

/-- The results of `parseAttendee` on the lines that get to the call of `parseAttendee`,
in the order of the input. -/
def attendeeCalls (year : Int) (lines : List Str) : List Attendee :=
  ((List.range lines.length).filter (fun k => ruleAt year lines k = .attendee)).map
    (fun k => parseAttendee (lineAt lines k) lines k)

/-- The rules whose branches come before the two description branches in the loop body and
end the iteration of a non-title line: schedule, recurrence, video link, single URL, phone
marker, phone entry, guest count, organizer label and `Created by:`. -/
def Rule.beforeDescription : Rule → Bool
  | .schedule | .frequency | .meetLink | .singleURL | .phoneMarker | .phoneEntry
  | .guests | .organizerLabel | .createdBy => true
  | _ => false

/-- The variable `datePart` of `parseMeetingTime`: the trimmed text before the middle
dot. -/
def datePart (s : Str) : Str := TrimSpace ((Split s middleDot).getD 0 [])

/-- The variable `dateFields` of `parseMeetingTime`. -/
def dateFields (s : Str) : List Str := Fields (datePart s)

/-- The variable `startTime` of `parseMeetingTime`: the trimmed text between the middle
dot and the first en dash after it. -/
def startTime (s : Str) : Str :=
  TrimSpace ((Split (TrimSpace ((Split s middleDot).getD 1 [])) enDash).getD 0 [])

/-- The variable `timeParts` of `parseMeetingTime`. -/
def timeParts (s : Str) : List Str := Split (startTime s) ':'

/-- The number written by a string of decimal digits. -/
def numeralValue (s : Str) : Nat := s.foldl (fun n c => 10 * n + (c.toNat - 48)) 0

/-! ## The renderers -/

/-- Go `strings.Repeat(s, count)`. -/
def Repeat (s : Str) (count : Nat) : Str := (List.replicate count s).flatten

/-- Go `strings.ReplaceAll(s, old, new)` for an `old` of one code point. -/
def ReplaceAll (s : Str) (old : Char) (new : Str) : Str :=
  s.flatMap (fun c => if c = old then new else [c])

/-- Go `strings.ToLower(s)`, given the map `unicode.ToLower` on code points. -/
def ToLower (toLower : Char → Char) (s : Str) : Str := s.map toLower

/-- Go `appendInt(b, x, width)` of package `time`: the decimal digits of `x`, padded with
zeros to `width` digits, after a minus sign when `x` is negative. -/
def appendInt (x : Int) (width : Nat) : Str :=
  (if x < 0 then ['-'] else []) ++
    List.replicate (width - (Nat.toDigits 10 x.natAbs).length) '0' ++
    Nat.toDigits 10 x.natAbs

/-- Go `t.Format("2006-01-02T15:04:05Z07:00")` for a time in UTC. -/
def formatRFC3339 (t : Time) : Str :=
  appendInt t.Year 4 ++ ['-'] ++ appendInt t.Month 2 ++ ['-'] ++ appendInt t.Day 2 ++ ['T'] ++
    appendInt t.Hour 2 ++ [':'] ++ appendInt t.Minute 2 ++ [':'] ++ appendInt t.Second 2 ++
    ['Z']

/-- `b.WriteString(s)` on a `strings.Builder` holding `b`. -/
def WriteString (b s : Str) : Str := b ++ s

/-- The front matter of `generateMarkdown` up to the `organiser` line, written to the
builder `md`: the tags, the date stamp `today` (`time.Now().Format("2006-01-02")`), the
meeting time and the organiser. -/
def mdFrontMatter (toLower : Char → Char) (today : Str) (meeting : Meeting) (md : Str) :
    Str :=
  let md := WriteString md "---\n".toList
  let md := WriteString md "tags: [meeting".toList
  let md :=
    if meeting.Organizer ≠ [] then
      let orgTag := ToLower toLower
        (ReplaceAll ((Split meeting.Organizer ' ').getD 0 []) ' ' "-".toList)
      WriteString md (", ".toList ++ orgTag)
    else md
  let md := WriteString md "]\n".toList
  let md := WriteString md ("date: ".toList ++ today ++ "\n".toList)
  let md :=
    if !meeting.MeetingTime.IsZero then
      WriteString md ("meeting: ".toList ++ formatRFC3339 meeting.MeetingTime ++ "\n".toList)
    else md
  let md :=
    if meeting.Organizer ≠ [] then
      WriteString md ("organiser: ".toList ++ meeting.Organizer ++ "\n".toList)
    else md
  md

/-- The participants list of the front matter of `generateMarkdown`, written to `md`. -/
def mdParticipants (meeting : Meeting) (md : Str) : Str :=
  if meeting.Attendees.length > 0 || meeting.Organizer ≠ [] then
    let md := WriteString md "participants:\n".toList
    let md :=
      if meeting.Organizer ≠ [] then
        WriteString md ("  - ".toList ++ meeting.Organizer ++ "\n".toList)
      else md
    meeting.Attendees.foldl (fun md attendee =>
      if attendee.Name ≠ [] && attendee.Name ≠ meeting.Organizer then
        WriteString md ("  - ".toList ++ attendee.Name ++ "\n".toList)
      else md) md
  else md

/-- The "Meeting Details" section of `generateMarkdown`, written to `md`. -/
def mdDetails (meeting : Meeting) (md : Str) : Str :=
  let md := WriteString md "\n## Meeting Details\n".toList
  let md :=
    if meeting.DateTime ≠ [] then
      WriteString md ("**Date & Time:** ".toList ++ meeting.DateTime ++ "\n".toList)
    else md
  let md :=
    if meeting.Frequency ≠ [] then
      WriteString md ("**Frequency:** ".toList ++ meeting.Frequency ++ "\n".toList)
    else md
  let md :=
    if meeting.MeetLink ≠ [] then
      WriteString md ("**Meeting Link:** ".toList ++ meeting.MeetLink ++ "\n".toList)
    else md
  let md :=
    if meeting.PhoneInfo ≠ [] then
      let md := WriteString md "**Phone Information:**\n```\n".toList
      let md := WriteString md meeting.PhoneInfo
      WriteString md "\n```\n".toList
    else md
  let md :=
    if meeting.Organizer ≠ [] then
      WriteString md ("**Organizer:** ".toList ++ meeting.Organizer ++ "\n".toList)
    else md
  md

/-- The "Attendees" section of `generateMarkdown`, written to `md`. -/
def mdAttendees (meeting : Meeting) (md : Str) : Str :=
  let md := WriteString md "\n## Attendees\n".toList
  meeting.Attendees.foldl (fun md attendee =>
    let md := WriteString md ("- **".toList ++ attendee.Name ++ "**".toList)
    let md :=
      if attendee.Status ≠ [] then
        WriteString md (" (".toList ++ attendee.Status ++ ")".toList)
      else md
    let md :=
      if attendee.Location ≠ [] then WriteString md (" - ".toList ++ attendee.Location)
      else md
    WriteString md "\n".toList) md

/-- The writes of `generateMarkdown` after the participants list: the end of the front
matter, the title, and the sections. -/
def mdBody (meeting : Meeting) (includeDetails includeAttendees : Bool) (md : Str) : Str :=
  let md := WriteString md "---\n".toList
  let md := WriteString md ("\n# ".toList ++ meeting.Title ++ "\n".toList)
  let md := if includeDetails then mdDetails meeting md else md
  let md :=
    if includeAttendees && meeting.Attendees.length > 0 then mdAttendees meeting md else md
  let md :=
    if meeting.Description ≠ [] then
      let md := WriteString md "\n## Description\n".toList
      let md := WriteString md meeting.Description
      WriteString md "\n".toList
    else md
  let md := WriteString md "\n## Notes\n".toList
  let md := WriteString md "<!-- Add your meeting notes here -->\n".toList
  let md :=
    if meeting.Links.length > 0 then
      let md := WriteString md "\n## Links\n".toList
      meeting.Links.foldl (fun md link =>
        WriteString md ("- ".toList ++ link ++ "\n".toList)) md
    else md
  let md := WriteString md "\n## Action Items\n".toList
  let md := WriteString md "- [ ] \n".toList
  md

/-- `generateMarkdown(meeting, includeDetails, includeAttendees)`, given `unicode.ToLower`
and the date stamp `today` of the run. -/
def generateMarkdown (toLower : Char → Char) (today : Str) (meeting : Meeting)
    (includeDetails includeAttendees : Bool) : Str :=
  let md : Str := []
  let md := mdFrontMatter toLower today meeting md
  let md := mdParticipants meeting md
  mdBody meeting includeDetails includeAttendees md

/-- The "Meeting Details" section of `generatePlainText`, written to `text`. -/
def textDetails (meeting : Meeting) (text : Str) : Str :=
  let text := WriteString text "\nMeeting Details:\n".toList
  let text :=
    if meeting.DateTime ≠ [] then
      WriteString text ("Date & Time: ".toList ++ meeting.DateTime ++ "\n".toList)
    else text
  let text :=
    if meeting.Frequency ≠ [] then
      WriteString text ("Frequency: ".toList ++ meeting.Frequency ++ "\n".toList)
    else text
  let text :=
    if meeting.MeetLink ≠ [] then
      WriteString text ("Meeting Link: ".toList ++ meeting.MeetLink ++ "\n".toList)
    else text
  let text :=
    if meeting.PhoneInfo ≠ [] then
      let text := WriteString text "Phone Information:\n".toList
      let text := WriteString text meeting.PhoneInfo
      WriteString text "\n".toList
    else text
  let text :=
    if meeting.Organizer ≠ [] then
      WriteString text ("Organizer: ".toList ++ meeting.Organizer ++ "\n".toList)
    else text
  text

/-- The "Attendees" section of `generatePlainText`, written to `text`. -/
def textAttendees (meeting : Meeting) (text : Str) : Str :=
  let text := WriteString text "\nAttendees:\n".toList
  meeting.Attendees.foldl (fun text attendee =>
    let text := WriteString text ("- ".toList ++ attendee.Name)
    let text :=
      if attendee.Status ≠ [] then
        WriteString text (" (".toList ++ attendee.Status ++ ")".toList)
      else text
    let text :=
      if attendee.Location ≠ [] then WriteString text (" - ".toList ++ attendee.Location)
      else text
    WriteString text "\n".toList) text

/-- `generatePlainText(meeting, includeDetails, includeAttendees)`. -/
def generatePlainText (meeting : Meeting) (includeDetails includeAttendees : Bool) : Str :=
  let text : Str := []
  let text := WriteString text (meeting.Title ++ "\n".toList)
  let text := WriteString text (Repeat "=".toList (len meeting.Title) ++ "\n".toList)
  let text := if includeDetails then textDetails meeting text else text
  let text :=
    if includeAttendees && meeting.Attendees.length > 0 then textAttendees meeting text
    else text
  let text :=
    if meeting.Description ≠ [] then
      let text := WriteString text "\nDescription:\n".toList
      let text := WriteString text meeting.Description
      WriteString text "\n".toList
    else text
  let text := WriteString text "\nNotes:\n".toList
  let text := WriteString text "(Add your meeting notes here)\n".toList
  let text :=
    if meeting.Links.length > 0 then
      let text := WriteString text "\nLinks:\n".toList
      meeting.Links.foldl (fun text link =>
        WriteString text ("- ".toList ++ link ++ "\n".toList)) text
    else text
  let text := WriteString text "\nAction Items:\n".toList
  let text := WriteString text "- [ ] \n".toList
  text

/-- The entries of the participants list: the organizer when set, then the name of each
attendee whose name is set and differs from the organizer, in the order of `Attendees`. -/
def participantEntries (meeting : Meeting) : List Str :=
  (if meeting.Organizer ≠ [] then [meeting.Organizer] else []) ++
    (meeting.Attendees.filter
      (fun a => decide (a.Name ≠ [] ∧ a.Name ≠ meeting.Organizer))).map (fun a => a.Name)

/-! ## Index expressions

The definitions above read `lines[i+1]`, `parts[0]`, `dateFields[1]` and the other index
expressions of the source through patterns that have a default branch. The definitions of
this section follow the source statement by statement instead: a length check is an `if`,
an index expression is `indexAt`, and the result is `none` when an index expression is
evaluated out of range, where the Go program stops with a run-time panic. -/

/-- The Go index expression `xs[i]` on a slice: `none` is the run-time panic "index out
of range". -/
def indexAt {α : Type} (xs : List α) (i : Nat) : Option α := xs[i]?

/-- `parseMeetingTime(dateTimeStr)` with its index expressions checked. -/
def parseMeetingTimeChecked (year : Int) (dateTimeStr : Str) : Option Time :=
  let parts := Split dateTimeStr middleDot
  if parts.length ≠ 2 then some Time.zero
  else
    (indexAt parts 0).bind fun p0 =>
    (indexAt parts 1).bind fun p1 =>
    let datePart := TrimSpace p0
    let timePart := TrimSpace p1
    let timeRange := Split timePart enDash
    if timeRange.length = 0 then some Time.zero
    else
      (indexAt timeRange 0).bind fun t0 =>
      let startTime := TrimSpace t0
      let dateFields := Fields datePart
      if dateFields.length < 3 then some Time.zero
      else
        (indexAt dateFields 1).bind fun d1 =>
        (indexAt dateFields 2).bind fun d2 =>
        let dayStr := TrimSuffix d1 ",".toList
        let monthStr := d2
        match monthMap monthStr with
        | none => some Time.zero
        | some month =>
          let day := (parseDay dayStr).getD 1
          let timeParts := Split startTime ':'
          if timeParts.length ≠ 2 then some Time.zero
          else
            (indexAt timeParts 0).bind fun h =>
            (indexAt timeParts 1).bind fun m =>
            let hour := (parseHour h).getD 0
            let minute := (parseMinute m).getD 0
            some (Date year month day hour minute 0 0)

/-- `parseAttendee(line, lines, index)` with its index expression checked. -/
def parseAttendeeChecked (line : Str) (lines : List Str) (index : Nat) : Option Attendee :=
  let attendee : Attendee := {}
  if Contains line "guests".toList || Contains line "yes".toList ||
      Contains line "awaiting".toList || Contains line "Edit".toList ||
      Contains line "More joining".toList || Contains line "http".toList ||
      Contains line "@".toList || Contains line "event_busy".toList ||
      Contains line "Out of office".toList || Contains line "bedtime".toList ||
      Contains line "Outside working hours".toList || line = "–".toList ||
      line = "Home".toList || line = "Office".toList || line = "Scotland".toList ||
      Contains line "Declined because".toList || len line < 3 ||
      HasPrefix line "http://".toList || HasPrefix line "https://".toList then
    some attendee
  else if len line > 0 && !Contains line "meet.".toList && !Contains line ".com".toList then
    let words := Fields line
    if words.length ≥ 1 && words.length ≤ 4 then
      let hasNumbers := words.any (fun word => ContainsAny word "0123456789@.".toList)
      if !hasNumbers then
        let attendee := { attendee with Name := line }
        if index + 1 < lines.length then
          (indexAt lines (index + 1)).bind fun next =>
          let nextLine := TrimSpace next
          if Contains nextLine "event_busy".toList ||
              Contains nextLine "Out of office".toList then
            some { attendee with Status := "Declined".toList }
          else if Contains nextLine "Optional".toList then
            some { attendee with Status := "Optional".toList }
          else if nextLine = "Home".toList || nextLine = "Office".toList ||
              nextLine = "Scotland".toList then
            some { attendee with Location := nextLine }
          else some attendee
        else some attendee
      else some attendee
    else some attendee
  else some attendee

/-- The rest of the loop body of `parseMeeting` after the URL block, with the index
expression of the organizer-label rule checked. -/
def scanTailChecked (lines : List Str) (i : Nat) (line : Str) (st : ScanState) :
    Option (Rule × ScanState) :=
  if isURLLine line && isSingleURL line then some (.singleURL, st)
  else if isPhoneMarker line then
    some (.phoneMarker, { st with currentSection := "phone".toList })
  else if st.currentSection = "phone".toList && isPhoneEntry line then
    some (.phoneEntry, { st with meeting := { st.meeting with PhoneInfo :=
      if st.meeting.PhoneInfo = [] then line
      else st.meeting.PhoneInfo ++ "\n".toList ++ line } })
  else if isGuestMarker line then
    some (.guests, { st with currentSection := "guests".toList })
  else if isOrganizerLabel line then
    if i + 1 < lines.length then
      (indexAt lines (i + 1)).bind fun next =>
      some (.organizerLabel,
        { st with meeting := { st.meeting with Organizer := TrimSpace next } })
    else some (.organizerLabel, st)
  else if isCreatedBy line then
    let createdBy := TrimSpace (TrimPrefix line "Created by:".toList)
    if createdBy ≠ [] then
      some (.createdBy, { st with meeting := { st.meeting with Organizer := createdBy } })
    else some (.createdBy, st)
  else if isDescriptionStart line then
    some (.descriptionStart,
      { st with inDescription := true, descriptionLines := st.descriptionLines ++ [line] })
  else if st.inDescription then
    some (.descriptionCont, { st with descriptionLines := st.descriptionLines ++ [line] })
  else if isAttendeeCandidate st.meeting.Title line then
    (parseAttendeeChecked line lines i).bind fun attendee =>
    if attendee.Name ≠ [] then
      some (.attendee, { st with meeting :=
        { st.meeting with Attendees := st.meeting.Attendees ++ [attendee] } })
    else some (.attendee, st)
  else some (.unmatched, st)

/-- One iteration of the loop of `parseMeeting`, index expressions checked. -/
def scanLineChecked (year : Int) (lines : List Str) (i : Nat) (raw : Str) (st : ScanState) :
    Option (Rule × ScanState) :=
  let line := TrimSpace raw
  if line = [] then some (.blank, st)
  else if st.meeting.Title = [] && line ≠ [] then
    some (.title, { st with meeting := { st.meeting with Title := line } })
  else if isSchedule line then
    (parseMeetingTimeChecked year line).bind fun t =>
    some (.schedule, { st with meeting :=
      { st.meeting with DateTime := line, MeetingTime := t } })
  else if isFrequency line then
    some (.frequency, { st with meeting := { st.meeting with Frequency := line } })
  else if isMeetLink line then
    some (.meetLink, { st with meeting :=
      { st.meeting with MeetLink := line, Links := st.meeting.Links ++ [line] } })
  else scanTailChecked lines i line (addLinks line st)

/-- The scan loop of `parseMeeting`, index expressions checked. -/
def scanLoopChecked (year : Int) (lines : List Str) :
    Nat → List Str → ScanState → Option ScanState
  | _, [], st => some st
  | i, raw :: rest, st =>
    (scanLineChecked year lines i raw st).bind fun r =>
    scanLoopChecked year lines (i + 1) rest r.2

/-- `parseMeeting(input)`, index expressions checked: `none` is a run-time panic, and the
second component of a result is the returned error. -/
def parseMeetingChecked (year : Int) (input : Str) : Option (Meeting × Option Str) :=
  let lines := Split input '\n'
  (scanLoopChecked year lines 0 lines {}).bind fun st =>
  let meeting :=
    if st.descriptionLines.length > 0 then
      { st.meeting with Description := Join st.descriptionLines "\n".toList }
    else st.meeting
  some (meeting, none)

/-- The front matter of `generateMarkdown` up to the `organiser` line, with the index
expression of the organizer tag checked. -/
def mdFrontMatterChecked (toLower : Char → Char) (today : Str) (meeting : Meeting)
    (md : Str) : Option Str :=
  let md := WriteString md "---\n".toList
  let md := WriteString md "tags: [meeting".toList
  (if meeting.Organizer ≠ [] then
    (indexAt (Split meeting.Organizer ' ') 0).bind fun first =>
    let orgTag := ToLower toLower (ReplaceAll first ' ' "-".toList)
    some (WriteString md (", ".toList ++ orgTag))
  else some md).bind fun md =>
  let md := WriteString md "]\n".toList
  let md := WriteString md ("date: ".toList ++ today ++ "\n".toList)
  let md :=
    if !meeting.MeetingTime.IsZero then
      WriteString md ("meeting: ".toList ++ formatRFC3339 meeting.MeetingTime ++ "\n".toList)
    else md
  let md :=
    if meeting.Organizer ≠ [] then
      WriteString md ("organiser: ".toList ++ meeting.Organizer ++ "\n".toList)
    else md
  some md

/-- `generateMarkdown(meeting, includeDetails, includeAttendees)`, index expressions
checked; the participants list and the body take no index. -/
def generateMarkdownChecked (toLower : Char → Char) (today : Str) (meeting : Meeting)
    (includeDetails includeAttendees : Bool) : Option Str :=
  let md : Str := []
  (mdFrontMatterChecked toLower today meeting md).bind fun md =>
  let md := mdParticipants meeting md
  some (mdBody meeting includeDetails includeAttendees md)

/-! ## The loop body, rule by rule -/

theorem addLinks_frame (line : Str) (st : ScanState) :
    (addLinks line st).currentSection = st.currentSection ∧
    (addLinks line st).inDescription = st.inDescription ∧
    (addLinks line st).descriptionLines = st.descriptionLines ∧
    (addLinks line st).meeting.Title = st.meeting.Title ∧
    (addLinks line st).meeting.DateTime = st.meeting.DateTime ∧
    (addLinks line st).meeting.MeetingTime = st.meeting.MeetingTime ∧
    (addLinks line st).meeting.PhoneInfo = st.meeting.PhoneInfo ∧
    (addLinks line st).meeting.Organizer = st.meeting.Organizer ∧
    (addLinks line st).meeting.Attendees = st.meeting.Attendees ∧
    (addLinks line st).meeting.MeetLink = st.meeting.MeetLink ∧
    (addLinks line st).meeting.Frequency = st.meeting.Frequency := by
  unfold addLinks; split <;> simp

theorem ruleOf_congr (st st0 : ScanState) (line : Str)
    (hs : st.currentSection = st0.currentSection) (hd : st.inDescription = st0.inDescription)
    (hT : st.meeting.Title = st0.meeting.Title) : ruleOf st line = ruleOf st0 line := by
  unfold ruleOf; rw [hs, hd, hT]

theorem scanTail_eq (year : Int) (lines : List Str) (i : Nat) (line : Str) (st : ScanState)
    (hne : line ≠ []) (ht : st.meeting.Title ≠ []) (h2 : isSchedule line = false)
    (h3 : isFrequency line = false) (h4 : isMeetLink line = false) :
    scanTail lines i line st = (ruleOf st line, applyRule year lines i line (ruleOf st line) st) := by
  unfold scanTail ruleOf
  rw [if_neg hne, if_neg ht, h2, h3, h4]
  simp only [Bool.false_eq_true, if_false]
  by_cases c1 : (isURLLine line && isSingleURL line) = true
  · rw [if_pos c1, if_pos c1]; rfl
  rw [if_neg c1, if_neg c1]
  by_cases c2 : isPhoneMarker line = true
  · rw [if_pos c2, if_pos c2]; rfl
  rw [if_neg c2, if_neg c2]
  by_cases c3 : (decide (st.currentSection = "phone".toList) && isPhoneEntry line) = true
  · rw [if_pos c3, if_pos c3]; rfl
  rw [if_neg c3, if_neg c3]
  by_cases c4 : isGuestMarker line = true
  · rw [if_pos c4, if_pos c4]; rfl
  rw [if_neg c4, if_neg c4]
  by_cases c5 : isOrganizerLabel line = true
  · rw [if_pos c5, if_pos c5]; unfold applyRule; split <;> rfl
  rw [if_neg c5, if_neg c5]
  by_cases c6 : isCreatedBy line = true
  · rw [if_pos c6, if_pos c6]; unfold applyRule; dsimp only; split <;> rfl
  rw [if_neg c6, if_neg c6]
  by_cases c7 : isDescriptionStart line = true
  · rw [if_pos c7, if_pos c7]; rfl
  rw [if_neg c7, if_neg c7]
  by_cases c8 : st.inDescription = true
  · rw [if_pos c8, if_pos c8]; rfl
  rw [if_neg c8, if_neg c8]
  by_cases c9 : isAttendeeCandidate st.meeting.Title line = true
  · rw [if_pos c9, if_pos c9]; unfold applyRule; dsimp only; split <;> rfl
  rw [if_neg c9, if_neg c9]; rfl

theorem ruleOf_afterURLBlock (st : ScanState) (line : Str) (hne : line ≠ [])
    (ht : st.meeting.Title ≠ []) (h2 : isSchedule line = false)
    (h3 : isFrequency line = false) (h4 : isMeetLink line = false) :
    (ruleOf st line).afterURLBlock = true := by
  unfold ruleOf
  rw [if_neg hne, if_neg ht, h2, h3, h4]
  simp only [Bool.false_eq_true, if_false]
  split_ifs <;> rfl

/-- One iteration of the loop is the rule read off by `ruleOf` and its assignments, after
the URL block when the rule comes after it. -/
theorem scanLine_eq (year : Int) (lines : List Str) (i : Nat) (raw : Str) (st : ScanState) :
    scanLine year lines i raw st =
      (ruleOf st (TrimSpace raw),
        applyRule year lines i (TrimSpace raw) (ruleOf st (TrimSpace raw))
          (if (ruleOf st (TrimSpace raw)).afterURLBlock then addLinks (TrimSpace raw) st
            else st)) := by
  unfold scanLine
  dsimp only
  by_cases c0 : TrimSpace raw = []
  · rw [if_pos c0]; unfold ruleOf; rw [if_pos c0]; rfl
  rw [if_neg c0]
  by_cases c1 : st.meeting.Title = []
  · have : (decide (st.meeting.Title = []) && decide (TrimSpace raw ≠ [])) = true := by
      simp [c0, c1]
    rw [if_pos this]; unfold ruleOf; rw [if_neg c0, if_pos c1]; rfl
  have : ¬ (decide (st.meeting.Title = []) && decide (TrimSpace raw ≠ [])) = true := by
    simp [c1]
  rw [if_neg this]
  by_cases c2 : isSchedule (TrimSpace raw) = true
  · rw [if_pos c2]; unfold ruleOf; rw [if_neg c0, if_neg c1, if_pos c2]; rfl
  rw [if_neg c2]
  by_cases c3 : isFrequency (TrimSpace raw) = true
  · rw [if_pos c3]; unfold ruleOf; rw [if_neg c0, if_neg c1, if_neg c2, if_pos c3]; rfl
  rw [if_neg c3]
  by_cases c4 : isMeetLink (TrimSpace raw) = true
  · rw [if_pos c4]; unfold ruleOf
    rw [if_neg c0, if_neg c1, if_neg c2, if_neg c3, if_pos c4]; rfl
  rw [if_neg c4]
  simp only [Bool.not_eq_true] at c2 c3 c4
  have hf := addLinks_frame (TrimSpace raw) st
  have hr : ruleOf (addLinks (TrimSpace raw) st) (TrimSpace raw) = ruleOf st (TrimSpace raw) :=
    ruleOf_congr _ _ _ hf.1 hf.2.1 hf.2.2.2.1
  rw [scanTail_eq year lines i _ _ c0 (by rw [hf.2.2.2.1]; exact c1) c2 c3 c4, hr,
    ruleOf_afterURLBlock st _ c0 c1 c2 c3 c4]
  rfl

/-- The rule that ends an iteration is the first one, in source order, whose condition
holds. -/
theorem ruleOf_eq_iff (st : ScanState) (line : Str) (r : Rule) :
    ruleOf st line = r ↔ reaches st line r ∧ fires st line r := by
  unfold ruleOf
  by_cases c0 : line = []
  · rw [if_pos c0]
    simp only [Bool.and_eq_true, decide_eq_true_eq] at *
    cases r <;> simp_all [reaches, fires]
  rw [if_neg c0]
  by_cases c1 : st.meeting.Title = []
  · rw [if_pos c1]
    simp only [Bool.and_eq_true, decide_eq_true_eq] at *
    cases r <;> simp_all [reaches, fires]
  rw [if_neg c1]
  by_cases c2 : isSchedule line = true
  · rw [if_pos c2]
    simp only [Bool.and_eq_true, decide_eq_true_eq] at *
    cases r <;> simp_all [reaches, fires]
  rw [if_neg c2]
  by_cases c3 : isFrequency line = true
  · rw [if_pos c3]
    simp only [Bool.and_eq_true, decide_eq_true_eq] at *
    cases r <;> simp_all [reaches, fires]
  rw [if_neg c3]
  by_cases c4 : isMeetLink line = true
  · rw [if_pos c4]
    simp only [Bool.and_eq_true, decide_eq_true_eq] at *
    cases r <;> simp_all [reaches, fires]
  rw [if_neg c4]
  by_cases c5 : (isURLLine line && isSingleURL line) = true
  · rw [if_pos c5]
    simp only [Bool.and_eq_true, decide_eq_true_eq] at *
    cases r <;> simp_all [reaches, fires]
  rw [if_neg c5]
  by_cases c6 : isPhoneMarker line = true
  · rw [if_pos c6]
    simp only [Bool.and_eq_true, decide_eq_true_eq] at *
    cases r <;> simp_all [reaches, fires]
  rw [if_neg c6]
  by_cases c7 : (decide (st.currentSection = "phone".toList) && isPhoneEntry line) = true
  · rw [if_pos c7]
    simp only [Bool.and_eq_true, decide_eq_true_eq] at *
    cases r <;> simp_all [reaches, fires]
  rw [if_neg c7]
  by_cases c8 : isGuestMarker line = true
  · rw [if_pos c8]
    simp only [Bool.and_eq_true, decide_eq_true_eq] at *
    cases r <;> simp_all [reaches, fires]
  rw [if_neg c8]
  by_cases c9 : isOrganizerLabel line = true
  · rw [if_pos c9]
    simp only [Bool.and_eq_true, decide_eq_true_eq] at *
    cases r <;> simp_all [reaches, fires]
  rw [if_neg c9]
  by_cases c10 : isCreatedBy line = true
  · rw [if_pos c10]
    simp only [Bool.and_eq_true, decide_eq_true_eq] at *
    cases r <;> simp_all [reaches, fires]
  rw [if_neg c10]
  by_cases c11 : isDescriptionStart line = true
  · rw [if_pos c11]
    simp only [Bool.and_eq_true, decide_eq_true_eq] at *
    cases r <;> simp_all [reaches, fires]
  rw [if_neg c11]
  by_cases c12 : st.inDescription = true
  · rw [if_pos c12]
    simp only [Bool.and_eq_true, decide_eq_true_eq] at *
    cases r <;> simp_all [reaches, fires]
  rw [if_neg c12]
  by_cases c13 : isAttendeeCandidate st.meeting.Title line = true
  · rw [if_pos c13]
    simp only [Bool.and_eq_true, decide_eq_true_eq] at *
    cases r <;> simp_all [reaches, fires]
  rw [if_neg c13]
  simp only [Bool.and_eq_true, decide_eq_true_eq] at *
  cases r <;> simp_all [reaches, fires]

/-! ## The loop -/

theorem scanLoop_append (year : Int) (lines : List Str) (xs ys : List Str) :
    ∀ (i : Nat) (st : ScanState), scanLoop year lines i (xs ++ ys) st =
      scanLoop year lines (i + xs.length) ys (scanLoop year lines i xs st) := by
  induction xs with
  | nil => intro i st; simp [scanLoop]
  | cons x xs ih =>
    intro i st
    show scanLoop year lines (i + 1) (xs ++ ys) (scanLine year lines i x st).2 =
      scanLoop year lines (i + (xs.length + 1)) ys
        (scanLoop year lines (i + 1) xs (scanLine year lines i x st).2)
    rw [ih]
    congr 1
    omega

theorem scanLine_blank (year : Int) (lines : List Str) (i : Nat) (raw : Str) (st : ScanState)
    (h : TrimSpace raw = []) : scanLine year lines i raw st = (.blank, st) := by
  rw [scanLine_eq]
  have : ruleOf st (TrimSpace raw) = .blank := by unfold ruleOf; rw [if_pos h]
  rw [this]; rfl

theorem scanLoop_blank (year : Int) (lines : List Str) (pre : List Str) :
    ∀ (i : Nat) (st : ScanState), (∀ x ∈ pre, TrimSpace x = []) →
      scanLoop year lines i pre st = st := by
  induction pre with
  | nil => intro i st _; rfl
  | cons x xs ih =>
    intro i st h
    simp only [scanLoop]
    rw [scanLine_blank year lines i x st (h x (List.mem_cons_self _ _))]
    exact ih _ _ (fun y hy => h y (List.mem_cons_of_mem _ hy))

theorem pre_frame (line : Str) (st : ScanState) (b : Bool) :
    let s := if b then addLinks line st else st
    s.currentSection = st.currentSection ∧ s.inDescription = st.inDescription ∧
    s.descriptionLines = st.descriptionLines ∧ s.meeting.Title = st.meeting.Title ∧
    s.meeting.DateTime = st.meeting.DateTime ∧
    s.meeting.MeetingTime = st.meeting.MeetingTime ∧
    s.meeting.PhoneInfo = st.meeting.PhoneInfo ∧
    s.meeting.Organizer = st.meeting.Organizer ∧
    s.meeting.Attendees = st.meeting.Attendees ∧
    s.meeting.MeetLink = st.meeting.MeetLink ∧
    s.meeting.Frequency = st.meeting.Frequency := by
  cases b
  · simp
  · simpa using addLinks_frame line st

theorem applyRule_Title (year : Int) (lines : List Str) (i : Nat) (line : Str) (r : Rule)
    (st : ScanState) :
    (applyRule year lines i line r st).meeting.Title =
      if r = .title then line else st.meeting.Title := by
  cases r <;> simp [applyRule] <;> split <;> rfl

theorem scanLine_fst (year : Int) (lines : List Str) (i : Nat) (raw : Str) (st : ScanState) :
    (scanLine year lines i raw st).1 = ruleOf st (TrimSpace raw) := by
  rw [scanLine_eq]

theorem scanLine_Title (year : Int) (lines : List Str) (i : Nat) (raw : Str) (st : ScanState) :
    (scanLine year lines i raw st).2.meeting.Title =
      if st.meeting.Title = [] then TrimSpace raw else st.meeting.Title := by
  rw [scanLine_eq]
  simp only [applyRule_Title, (pre_frame _ _ _).2.2.2.1]
  by_cases h : ruleOf st (TrimSpace raw) = .title
  · rw [if_pos h]
    rw [ruleOf_eq_iff] at h
    have h2 : st.meeting.Title = [] := h.2
    rw [if_pos h2]
  · rw [if_neg h]
    rw [ruleOf_eq_iff] at h
    simp only [reaches, fires, not_and, not_not] at h
    by_cases h1 : st.meeting.Title = []
    · rw [if_pos h1, h1]
      by_cases h0 : TrimSpace raw = []
      · exact h0.symm
      · exact absurd h1 (h h0)
    · rw [if_neg h1]

theorem scanLoop_Title (year : Int) (lines : List Str) (rest : List Str) :
    ∀ (i : Nat) (st : ScanState), st.meeting.Title ≠ [] →
      (scanLoop year lines i rest st).meeting.Title = st.meeting.Title := by
  induction rest with
  | nil => intro i st _; rfl
  | cons x xs ih =>
    intro i st h
    simp only [scanLoop]
    have h1 : (scanLine year lines i x st).2.meeting.Title = st.meeting.Title := by
      rw [scanLine_Title, if_neg h]
    rw [ih _ _ (by rw [h1]; exact h), h1]

theorem parseMeeting_fields (year : Int) (input : Str) :
    let st := scanLoop year (Split input '\n') 0 (Split input '\n') {}
    let m := (parseMeeting year input).1
    m.Title = st.meeting.Title ∧ m.DateTime = st.meeting.DateTime ∧
    m.MeetingTime = st.meeting.MeetingTime ∧ m.PhoneInfo = st.meeting.PhoneInfo ∧
    m.Attendees = st.meeting.Attendees ∧ m.Organizer = st.meeting.Organizer ∧
    m.Links = st.meeting.Links ∧ m.MeetLink = st.meeting.MeetLink := by
  unfold parseMeeting
  dsimp only
  split <;> simp

theorem scanLoop_first_line (year : Int) (lines pre post : List Str) (l : Str) (i : Nat)
    (hpre : ∀ x ∈ pre, TrimSpace x = []) (hl : TrimSpace l ≠ []) :
    (scanLoop year lines i (pre ++ l :: post) {}).meeting.Title = TrimSpace l := by
  rw [scanLoop_append, scanLoop_blank year _ pre i {} hpre]
  have h2 : (scanLine year lines (i + pre.length) l {}).2.meeting.Title = TrimSpace l := by
    rw [scanLine_Title]; rfl
  show (scanLoop year _ _ post (scanLine year _ (i + pre.length) l {}).2).meeting.Title = _
  rw [scanLoop_Title _ _ _ _ _ (by rw [h2]; exact hl), h2]

/-- C1: when the input has a non-blank line, `Title` is the first non-blank line with its
surrounding white space trimmed, whatever lines follow it. -/
theorem parseMeeting_title (year : Int) (input : Str) (pre post : List Str) (l : Str)
    (hsplit : Split input '\n' = pre ++ l :: post)
    (hpre : ∀ x ∈ pre, TrimSpace x = []) (hl : TrimSpace l ≠ []) :
    (parseMeeting year input).1.Title = TrimSpace l := by
  rw [(parseMeeting_fields year input).1]
  have h := scanLoop_first_line year (Split input '\n') pre post l 0 hpre hl
  rw [← hsplit] at h
  exact h

/-- C1 at a concrete input: a blank first line, then the title with spaces around it. -/
theorem parseMeeting_title_witness :
    (parseMeeting 2025 " \n  Team sync \nBruno Mars\nAnother line".toList).1.Title
      = "Team sync".toList :=
  parseMeeting_title 2025 " \n  Team sync \nBruno Mars\nAnother line".toList
    [" ".toList] ["Bruno Mars".toList, "Another line".toList] "  Team sync ".toList
    (by decide) (by decide) (by decide)

/-! ## The loop variables line by line -/

theorem scanBefore_succ (year : Int) (lines : List Str) (k : Nat) (h : k < lines.length) :
    scanBefore year lines (k + 1) =
      (scanLine year lines k (lines.getD k []) (scanBefore year lines k)).2 := by
  unfold scanBefore
  rw [List.take_succ, scanLoop_append]
  have h1 : lines[k]? = some lines[k] := List.getElem?_eq_getElem h
  have h2 : lines.getD k [] = lines[k] := by
    rw [List.getD_eq_getElem?_getD, h1]; rfl
  rw [h1, h2, List.length_take, Nat.min_eq_left (Nat.le_of_lt h)]
  simp [scanLoop]

theorem scanBefore_length (year : Int) (lines : List Str) :
    scanBefore year lines lines.length = scanLoop year lines 0 lines {} := by
  unfold scanBefore; rw [List.take_length]

theorem ruleAt_eq (year : Int) (lines : List Str) (k : Nat) (h : k < lines.length) :
    ruleAt year lines k = ruleOf (scanBefore year lines k) (lineAt lines k) := by
  unfold ruleAt lineAt
  have h1 : lines[k]? = some lines[k] := List.getElem?_eq_getElem h
  have h2 : lines.getD k [] = lines[k] := by
    rw [List.getD_eq_getElem?_getD, h1]; rfl
  rw [h1, h2]
  exact scanLine_fst _ _ _ _ _

theorem scanBefore_step (year : Int) (lines : List Str) (k : Nat) (h : k < lines.length) :
    scanBefore year lines (k + 1) =
      applyRule year lines k (lineAt lines k) (ruleAt year lines k)
        (if (ruleAt year lines k).afterURLBlock then
          addLinks (lineAt lines k) (scanBefore year lines k)
        else scanBefore year lines k) := by
  rw [scanBefore_succ year lines k h, scanLine_eq, ruleAt_eq year lines k h]
  rfl

theorem ruleAt_iff (year : Int) (lines : List Str) (k : Nat) (h : k < lines.length)
    (r : Rule) :
    ruleAt year lines k = r ↔
      reaches (scanBefore year lines k) (lineAt lines k) r ∧
        fires (scanBefore year lines k) (lineAt lines k) r := by
  rw [ruleAt_eq year lines k h, ruleOf_eq_iff]

theorem applyRule_inDescription (year : Int) (lines : List Str) (i : Nat) (line : Str)
    (r : Rule) (st : ScanState) :
    (applyRule year lines i line r st).inDescription =
      (st.inDescription || decide (r = .descriptionStart)) := by
  cases r <;> simp [applyRule] <;> split <;> rfl

theorem applyRule_descriptionLines (year : Int) (lines : List Str) (i : Nat) (line : Str)
    (r : Rule) (st : ScanState) :
    (applyRule year lines i line r st).descriptionLines =
      st.descriptionLines ++
        (if r = .descriptionStart ∨ r = .descriptionCont then [line] else []) := by
  cases r <;> simp [applyRule] <;> split <;> rfl

theorem applyRule_Attendees (year : Int) (lines : List Str) (i : Nat) (line : Str)
    (r : Rule) (st : ScanState) :
    (applyRule year lines i line r st).meeting.Attendees =
      st.meeting.Attendees ++
        (if r = .attendee ∧ (parseAttendee line lines i).Name ≠ [] then
          [parseAttendee line lines i] else []) := by
  cases r <;> simp [applyRule] <;> split <;> simp_all

theorem applyRule_PhoneInfo (year : Int) (lines : List Str) (i : Nat) (line : Str)
    (r : Rule) (st : ScanState) :
    (applyRule year lines i line r st).meeting.PhoneInfo =
      if r = .phoneEntry then
        (if st.meeting.PhoneInfo = [] then line
          else st.meeting.PhoneInfo ++ "\n".toList ++ line)
      else st.meeting.PhoneInfo := by
  cases r <;> simp [applyRule] <;> split <;> rfl

theorem applyRule_currentSection (year : Int) (lines : List Str) (i : Nat) (line : Str)
    (r : Rule) (st : ScanState) :
    (applyRule year lines i line r st).currentSection =
      if r = .phoneMarker then "phone".toList
      else if r = .guests then "guests".toList else st.currentSection := by
  cases r <;> simp [applyRule] <;> split <;> rfl

theorem applyRule_DateTime (year : Int) (lines : List Str) (i : Nat) (line : Str)
    (r : Rule) (st : ScanState) :
    (applyRule year lines i line r st).meeting.DateTime =
      (if r = .schedule then line else st.meeting.DateTime) ∧
    (applyRule year lines i line r st).meeting.MeetingTime =
      (if r = .schedule then parseMeetingTime year line else st.meeting.MeetingTime) := by
  cases r <;> simp [applyRule] <;> split <;> simp

theorem scanBefore_Attendees_succ (year : Int) (lines : List Str) (k : Nat)
    (h : k < lines.length) :
    (scanBefore year lines (k + 1)).meeting.Attendees =
      (scanBefore year lines k).meeting.Attendees ++
        (if ruleAt year lines k = .attendee ∧
            (parseAttendee (lineAt lines k) lines k).Name ≠ [] then
          [parseAttendee (lineAt lines k) lines k] else []) := by
  rw [scanBefore_step year lines k h, applyRule_Attendees]
  rw [(pre_frame _ _ _).2.2.2.2.2.2.2.2.1]

theorem scanBefore_Attendees (year : Int) (lines : List Str) (k : Nat)
    (h : k ≤ lines.length) :
    (scanBefore year lines k).meeting.Attendees =
      ((((List.range k).filter (fun j => ruleAt year lines j = .attendee)).map
        (fun j => parseAttendee (lineAt lines j) lines j)).filter
          (fun a => a.Name ≠ [])) := by
  induction k with
  | zero => rfl
  | succ k ih =>
    rw [scanBefore_Attendees_succ year lines k h, ih (Nat.le_of_succ_le h), List.range_succ,
      List.filter_append, List.map_append, List.filter_append]
    congr 1
    by_cases h1 : ruleAt year lines k = .attendee
    · by_cases h2 : (parseAttendee (lineAt lines k) lines k).Name = []
      · simp [h1, h2]
      · simp [h1, h2]
    · simp [h1]

theorem reaches_ne_nil (st : ScanState) (line : Str) (r : Rule) (hr : r ≠ .blank)
    (h : reaches st line r) : line ≠ [] := by
  cases r <;> first | exact absurd rfl hr | exact h | exact h.1

theorem parseAttendee_Name (line : Str) (lines : List Str) (index : Nat) :
    (parseAttendee line lines index).Name = [] ∨
      (parseAttendee line lines index).Name = line := by
  unfold parseAttendee
  dsimp only
  split
  · left; rfl
  split
  · split
    · split
      · split
        · split
          · right; rfl
          · split
            · right; rfl
            · split
              · right; rfl
              · right; rfl
        · right; rfl
      · left; rfl
    · left; rfl
  · left; rfl

/-- C4: `Attendees` is the list of the results of `parseAttendee` with a non-empty `Name`
over the lines that get to the attendee rule, in input order; every element carries a
trimmed non-blank input line as its `Name`; two such lines give two elements, in the order
of the lines, also when their names are equal. -/
theorem parseMeeting_attendees (year : Int) (input : Str) :
    (parseMeeting year input).1.Attendees =
      (attendeeCalls year (Split input '\n')).filter (fun a => a.Name ≠ []) ∧
    (∀ a ∈ (parseMeeting year input).1.Attendees, a.Name ≠ [] ∧
      ∃ raw ∈ Split input '\n', TrimSpace raw ≠ [] ∧ a.Name = TrimSpace raw) ∧
    (∀ j k : Nat, j < k → k < (Split input '\n').length →
      ruleAt year (Split input '\n') j = .attendee →
      ruleAt year (Split input '\n') k = .attendee →
      (parseAttendee (lineAt (Split input '\n') j) (Split input '\n') j).Name ≠ [] →
      (parseAttendee (lineAt (Split input '\n') k) (Split input '\n') k).Name ≠ [] →
      List.Sublist
        [parseAttendee (lineAt (Split input '\n') j) (Split input '\n') j,
          parseAttendee (lineAt (Split input '\n') k) (Split input '\n') k]
        (parseMeeting year input).1.Attendees) := by
  have hA : (parseMeeting year input).1.Attendees =
      (attendeeCalls year (Split input '\n')).filter (fun a => a.Name ≠ []) := by
    rw [(parseMeeting_fields year input).2.2.2.2.1, ← scanBefore_length,
      scanBefore_Attendees year _ _ (Nat.le_refl _)]
    rfl
  generalize Split input '\n' = lines at hA ⊢
  refine ⟨hA, ?_, ?_⟩
  · intro a ha
    rw [hA, List.mem_filter] at ha
    obtain ⟨hmem, hname⟩ := ha
    have hname' : a.Name ≠ [] := by simpa using hname
    refine ⟨hname', ?_⟩
    unfold attendeeCalls at hmem
    rw [List.mem_map] at hmem
    obtain ⟨k, hk, rfl⟩ := hmem
    rw [List.mem_filter, List.mem_range] at hk
    obtain ⟨hklt, hrule⟩ := hk
    have hrule' : ruleAt year lines k = .attendee := by simpa using hrule
    refine ⟨lines[k], List.getElem_mem _, ?_⟩
    have hline : lineAt lines k = TrimSpace lines[k] := by
      unfold lineAt
      rw [List.getD_eq_getElem?_getD, List.getElem?_eq_getElem hklt]; rfl
    rw [← hline]
    refine ⟨?_, ?_⟩
    · rw [ruleAt_iff year lines k hklt] at hrule'
      exact reaches_ne_nil _ _ _ (by decide) hrule'.1
    · rcases parseAttendee_Name (lineAt lines k) lines k with h | h
      · exact absurd h hname'
      · exact h
  · intro j k hjk hk hrj hrk hnj hnk
    rw [hA]
    unfold attendeeCalls
    have hsub : List.Sublist [j, k] (List.range lines.length) := by
      apply List.sublist_of_subperm_of_sorted (r := (· < ·))
      · apply List.Nodup.subperm
        · simp; omega
        · intro x hx
          simp at hx
          rw [List.mem_range]; omega
      · simp [hjk]
      · exact List.sorted_lt_range _
    have h1 := (hsub.filter (fun k => decide (ruleAt year lines k = .attendee))).map
      (fun k => parseAttendee (lineAt lines k) lines k)
    have h2 := h1.filter (fun a => decide (a.Name ≠ []))
    simpa [hrj, hrk, hnj, hnk] using h2

/-- C4 at a concrete input: three accepted lines, two of them equal, give three attendees
in input order. -/
theorem parseMeeting_attendees_witness :
    (parseMeeting 2025 "Sync\nAnn Lee\nBob Ray\nAnn Lee".toList).1.Attendees =
      [{ Name := "Ann Lee".toList }, { Name := "Bob Ray".toList },
        { Name := "Ann Lee".toList }] ∧
    List.Sublist
      [parseAttendee (lineAt (Split "Sync\nAnn Lee\nBob Ray\nAnn Lee".toList '\n') 1)
          (Split "Sync\nAnn Lee\nBob Ray\nAnn Lee".toList '\n') 1,
        parseAttendee (lineAt (Split "Sync\nAnn Lee\nBob Ray\nAnn Lee".toList '\n') 3)
          (Split "Sync\nAnn Lee\nBob Ray\nAnn Lee".toList '\n') 3]
      (parseMeeting 2025 "Sync\nAnn Lee\nBob Ray\nAnn Lee".toList).1.Attendees :=
  ⟨(parseMeeting_attendees 2025 "Sync\nAnn Lee\nBob Ray\nAnn Lee".toList).1.trans (by decide),
    (parseMeeting_attendees 2025 "Sync\nAnn Lee\nBob Ray\nAnn Lee".toList).2.2 1 3
      (by decide) (by decide) (by decide) (by decide) (by decide) (by decide)⟩

/-! ## `parseAttendee` -/

/-- C5 (as amended): a line that meets any rejection rule of `parseAttendee` yields the
empty `Attendee` (empty `Name`, `Status` and `Location`), whatever the lines around it,
the rule on the length being "shorter than 3 bytes of UTF-8" (Go's `len`). -/
theorem parseAttendee_rejects (line : Str) (lines : List Str) (index : Nat)
    (h : Contains line "guests".toList = true ∨ Contains line "yes".toList = true ∨
      Contains line "awaiting".toList = true ∨ Contains line "Edit".toList = true ∨
      Contains line "More joining".toList = true ∨ Contains line "http".toList = true ∨
      Contains line "@".toList = true ∨ Contains line "event_busy".toList = true ∨
      Contains line "Out of office".toList = true ∨ Contains line "bedtime".toList = true ∨
      Contains line "Outside working hours".toList = true ∨
      Contains line "Declined because".toList = true ∨
      line = "–".toList ∨ line = "Home".toList ∨ line = "Office".toList ∨
      line = "Scotland".toList ∨ len line < 3 ∨
      HasPrefix line "http://".toList = true ∨ HasPrefix line "https://".toList = true) :
    parseAttendee line lines index = { Name := [], Status := [], Location := [], Notes := [] } := by
  unfold parseAttendee
  dsimp only
  rw [if_pos]
  simp only [Bool.or_eq_true, decide_eq_true_eq]
  tauto

/-- C5 (as amended) at a concrete input: the line "jane@example.com" is rejected. -/
theorem parseAttendee_rejects_witness :
    Contains "jane@example.com".toList "@".toList = true ∧
    parseAttendee "jane@example.com".toList ["jane@example.com".toList, "Optional".toList] 0 =
      { Name := [], Status := [], Location := [], Notes := [] } :=
  ⟨by decide, parseAttendee_rejects _ _ _
    (Or.inr (Or.inr (Or.inr (Or.inr (Or.inr (Or.inr (Or.inl (by decide))))))))⟩

/-- C5 (as stated) fails: the line "李明" has 2 characters, so it is shorter than 3
characters, and it meets no other rejection rule, yet `parseAttendee` accepts it as a
name: its UTF-8 encoding has 6 bytes, and the code compares `len(line)` with 3. -/
theorem parseAttendee_short_line_counterexample :
    "李明".toList.length = 2 ∧ len "李明".toList = 6 ∧
    (parseAttendee "李明".toList ["Sync".toList, "李明".toList] 1).Name = "李明".toList ∧
    (parseMeeting 2025 "Sync\n李明".toList).1.Attendees = [{ Name := "李明".toList }] := by
  refine ⟨by decide, by decide, by decide, by decide⟩

/-- The lookahead of `parseAttendee` on an accepted line, given the following line. -/
theorem parseAttendee_accepted (line : Str) (lines : List Str) (index : Nat)
    (hacc : (parseAttendee line lines index).Name ≠ []) :
    parseAttendee line lines index =
      match lines[index + 1]? with
      | some next =>
        if Contains (TrimSpace next) "event_busy".toList ||
            Contains (TrimSpace next) "Out of office".toList then
          { Name := line, Status := "Declined".toList }
        else if Contains (TrimSpace next) "Optional".toList then
          { Name := line, Status := "Optional".toList }
        else if TrimSpace next = "Home".toList || TrimSpace next = "Office".toList ||
            TrimSpace next = "Scotland".toList then
          { Name := line, Location := TrimSpace next }
        else { Name := line }
      | none => { Name := line } := by
  unfold parseAttendee at hacc ⊢
  dsimp only at hacc ⊢
  split at hacc
  · exact absurd rfl hacc
  split at hacc
  swap
  · exact absurd rfl hacc
  split at hacc
  swap
  · exact absurd rfl hacc
  split at hacc
  swap
  · exact absurd rfl hacc
  rename_i h1 h2 h3 h4
  rw [if_neg h1, if_pos h2, if_pos h3, if_pos h4]

/-- C6: when `parseAttendee` accepts a line, `Name` is the whole line, and with `n` the
trimmed following line: `Status` is "Declined" if `n` mentions "event_busy" or
"Out of office", else "Optional" if `n` mentions "Optional", else unset; `Location` is `n` if
`Status` is unset and `n` is "Home", "Office" or "Scotland", else unset (both unset when
no line follows).  So `Status` is unset, "Declined" or "Optional", and `Status` and
`Location` are never both set. -/
theorem parseAttendee_lookahead (line : Str) (lines : List Str) (index : Nat)
    (hacc : (parseAttendee line lines index).Name ≠ []) :
    (parseAttendee line lines index).Name = line ∧
    (∀ next, lines[index + 1]? = some next →
      (parseAttendee line lines index).Status =
        (if Contains (TrimSpace next) "event_busy".toList = true ∨
            Contains (TrimSpace next) "Out of office".toList = true then "Declined".toList
          else if Contains (TrimSpace next) "Optional".toList = true then "Optional".toList
          else []) ∧
      (parseAttendee line lines index).Location =
        (if (parseAttendee line lines index).Status = [] ∧
            (TrimSpace next = "Home".toList ∨ TrimSpace next = "Office".toList ∨
              TrimSpace next = "Scotland".toList)
          then TrimSpace next else [])) ∧
    (lines[index + 1]? = none →
      (parseAttendee line lines index).Status = [] ∧
        (parseAttendee line lines index).Location = []) ∧
    ((parseAttendee line lines index).Status = [] ∨
      (parseAttendee line lines index).Status = "Declined".toList ∨
      (parseAttendee line lines index).Status = "Optional".toList) ∧
    ¬ ((parseAttendee line lines index).Status ≠ [] ∧
      (parseAttendee line lines index).Location ≠ []) := by
  rw [parseAttendee_accepted line lines index hacc]
  cases hnext : lines[index + 1]? with
  | none => simp
  | some next =>
    simp only [Option.some.injEq, forall_eq', reduceCtorEq, false_implies, true_and]
    have hD : "Declined".toList ≠ ([] : Str) := by decide
    have hO : "Optional".toList ≠ ([] : Str) := by decide
    generalize "Declined".toList = sD at hD ⊢
    generalize "Optional".toList = sO at hO ⊢
    generalize "event_busy".toList = s1
    generalize "Out of office".toList = s2
    generalize "Home".toList = s3
    generalize "Office".toList = s4
    generalize "Scotland".toList = s5
    by_cases c1 : Contains (TrimSpace next) s1 = true
    · simp [c1, hD]
    by_cases c1b : Contains (TrimSpace next) s2 = true
    · simp [c1b, hD]
    by_cases c2 : Contains (TrimSpace next) sO = true
    · simp [c1, c1b, c2, hO]
    by_cases c3 : TrimSpace next = s3
    · simp_all
    by_cases c4 : TrimSpace next = s4
    · simp_all
    by_cases c5 : TrimSpace next = s5
    · simp_all
    simp [c1, c1b, c2, c3, c4, c5]

/-- C6 at a concrete input: "John Smith" followed by "Optional". -/
theorem parseAttendee_lookahead_witness :
    (parseAttendee "John Smith".toList ["John Smith".toList, "Optional".toList] 0).Name ≠ [] ∧
    parseAttendee "John Smith".toList ["John Smith".toList, "Optional".toList] 0 =
      { Name := "John Smith".toList, Status := "Optional".toList, Location := [], Notes := [] } ∧
    (parseAttendee "John Smith".toList ["John Smith".toList, "Optional".toList] 0).Name =
      "John Smith".toList :=
  ⟨by decide, by decide,
    (parseAttendee_lookahead "John Smith".toList ["John Smith".toList, "Optional".toList] 0
      (by decide)).1⟩

/-! ## The guest-count rule -/

theorem scanLine_Attendees (year : Int) (lines : List Str) (i : Nat) (raw : Str)
    (st : ScanState) :
    (scanLine year lines i raw st).2.meeting.Attendees =
      st.meeting.Attendees ++
        (if (scanLine year lines i raw st).1 = .attendee ∧
            (parseAttendee (TrimSpace raw) lines i).Name ≠ [] then
          [parseAttendee (TrimSpace raw) lines i] else []) := by
  rw [scanLine_eq]
  simp only [applyRule_Attendees, (pre_frame _ _ _).2.2.2.2.2.2.2.2.1]

/-- C3 (as amended): a non-title line that matches none of the earlier rules is consumed
by the guest-count rule if and only if it contains "guests", "yes", "no" or "maybe"
anywhere, also inside a longer word; a line consumed by the rule is not appended to
`Attendees`. -/
theorem guest_rule_substring (year : Int) (lines : List Str) (i : Nat) (raw : Str)
    (st : ScanState) (hreach : reaches st (TrimSpace raw) .guests) :
    ((scanLine year lines i raw st).1 = .guests ↔
      (Contains (TrimSpace raw) "guests".toList = true ∨
        Contains (TrimSpace raw) "yes".toList = true ∨
        Contains (TrimSpace raw) "no".toList = true ∨
        Contains (TrimSpace raw) "maybe".toList = true)) ∧
    ((scanLine year lines i raw st).1 = .guests →
      (scanLine year lines i raw st).2.meeting.Attendees = st.meeting.Attendees) := by
  constructor
  · rw [scanLine_fst, ruleOf_eq_iff]
    constructor
    · intro h
      have h2 : isGuestMarker (TrimSpace raw) = true := h.2
      unfold isGuestMarker at h2
      simpa only [Bool.or_eq_true, or_assoc] using h2
    · intro h
      refine ⟨hreach, ?_⟩
      show isGuestMarker (TrimSpace raw) = true
      unfold isGuestMarker
      simpa only [Bool.or_eq_true, or_assoc] using h
  · intro h
    rw [scanLine_Attendees, h]
    simp

/-- C3 (as amended) at a concrete input: the line "Bruno Mars" after the title "Sync". -/
theorem guest_rule_substring_witness :
    reaches { meeting := { Title := "Sync".toList } } (TrimSpace "Bruno Mars".toList) .guests ∧
    (scanLine 2025 ["Sync".toList, "Bruno Mars".toList] 1 "Bruno Mars".toList
      { meeting := { Title := "Sync".toList } }).1 = .guests ∧
    (scanLine 2025 ["Sync".toList, "Bruno Mars".toList] 1 "Bruno Mars".toList
      { meeting := { Title := "Sync".toList } }).2.meeting.Attendees = [] :=
  have hreach : reaches { meeting := { Title := "Sync".toList } }
      (TrimSpace "Bruno Mars".toList) .guests := by
    simp only [reaches]; decide
  have h := guest_rule_substring 2025 ["Sync".toList, "Bruno Mars".toList] 1
    "Bruno Mars".toList { meeting := { Title := "Sync".toList } } hreach
  ⟨hreach, h.1.2 (Or.inr (Or.inr (Or.inl (by decide)))),
    h.2 (h.1.2 (Or.inr (Or.inr (Or.inl (by decide)))))⟩

/-- C3 (as stated) fails: after the title "Sync", the line "Bruno Mars" matches none of
the earlier rules, does not contain "guests" and has no token "yes", "no" or "maybe", yet
the guest-count rule consumes it ("no" occurs inside "Bruno") and `Attendees` stays
empty. -/
theorem guest_rule_tokens_counterexample :
    reaches (scanBefore 2025 (Split "Sync\nBruno Mars".toList '\n') 1)
      (lineAt (Split "Sync\nBruno Mars".toList '\n') 1) .guests ∧
    ¬ (Contains "Bruno Mars".toList "guests".toList = true ∨
        ∃ w ∈ Fields "Bruno Mars".toList,
          w = "yes".toList ∨ w = "no".toList ∨ w = "maybe".toList) ∧
    ruleAt 2025 (Split "Sync\nBruno Mars".toList '\n') 1 = .guests ∧
    (parseMeeting 2025 "Sync\nBruno Mars".toList).1.Attendees = [] := by
  refine ⟨?_, ?_, ?_, ?_⟩
  · simp only [reaches]; decide
  · decide
  · decide
  · decide

/-! ## Strings -/

theorem Contains_iff_sub (s sub : Str) : Contains s sub = true ↔ sub <:+: s := by
  induction s with
  | nil =>
    simp only [Contains, List.isPrefixOf_iff_prefix, List.infix_nil, List.prefix_nil]
  | cons c t ih =>
    simp only [Contains, Bool.or_eq_true, List.isPrefixOf_iff_prefix, ih,
      List.infix_cons_iff]

theorem TrimSpace_sub (s : Str) : TrimSpace s <:+: s := by
  unfold TrimSpace
  exact ( List.rdropWhile_prefix isSpace _).isInfix.trans
    (List.dropWhile_suffix isSpace).isInfix

theorem Contains_of_TrimSpace (s sub : Str) (h : Contains (TrimSpace s) sub = true) :
    Contains s sub = true := by
  rw [Contains_iff_sub] at h ⊢
  exact h.trans (TrimSpace_sub s)

/-! ## The schedule line -/

theorem getD_eq_getElem (lines : List Str) (k : Nat) (h : k < lines.length) :
    lines.getD k [] = lines[k] := by
  rw [List.getD_eq_getElem?_getD, List.getElem?_eq_getElem h]; rfl

theorem scanBefore_of_blank (year : Int) (lines : List Str) (k : Nat)
    (hk : k ≤ lines.length) (h : ∀ j, j < k → lineAt lines j = []) :
    scanBefore year lines k = {} := by
  induction k with
  | zero => rfl
  | succ k ih =>
    rw [scanBefore_succ year lines k hk,
      scanLine_blank year lines k _ _ (h k (Nat.lt_succ_self k))]
    exact ih (Nat.le_of_succ_le hk) (fun j hj => h j (Nat.lt_succ_of_lt hj))

theorem exists_nonblank_before (year : Int) (lines : List Str) (k : Nat)
    (hk : k ≤ lines.length) (h : (scanBefore year lines k).meeting.Title ≠ []) :
    ∃ j, j < k ∧ lineAt lines j ≠ [] := by
  by_contra hcon
  push_neg at hcon
  rw [scanBefore_of_blank year lines k hk hcon] at h
  exact h rfl

theorem getD_mem_tail_dropWhile (p : Str → Bool) (l : List Str) :
    ∀ i j : Nat, i < j → j < l.length → p (l.getD i []) = false →
      l.getD j [] ∈ (l.dropWhile p).tail := by
  induction l with
  | nil => intro i j _ hj; simp at hj
  | cons a t ih =>
    intro i j hij hj hp
    obtain ⟨j', rfl⟩ : ∃ j', j = j' + 1 := ⟨j - 1, by omega⟩
    have hj' : j' < t.length := by simpa using hj
    by_cases ha : p a = true
    · rw [List.dropWhile_cons_of_pos ha]
      obtain ⟨i', rfl⟩ : ∃ i', i = i' + 1 := by
        cases i with
        | zero => simp [ha] at hp
        | succ i' => exact ⟨i', rfl⟩
      simp only [List.getD_cons_succ] at hp ⊢
      exact ih i' j' (by omega) hj' hp
    · rw [List.dropWhile_cons_of_neg ha]
      simp only [List.tail_cons, List.getD_cons_succ]
      rw [List.getD_eq_getElem?_getD, List.getElem?_eq_getElem hj']
      exact List.getElem_mem _

theorem scanBefore_DateTime (year : Int) (lines : List Str) (k : Nat)
    (hk : k ≤ lines.length) :
    ((scanBefore year lines k).meeting.DateTime = [] ∧
      (scanBefore year lines k).meeting.MeetingTime = Time.zero) ∨
    ∃ j, j < k ∧ ruleAt year lines j = .schedule ∧
      (scanBefore year lines k).meeting.DateTime = lineAt lines j := by
  induction k with
  | zero => left; exact ⟨rfl, rfl⟩
  | succ k ih =>
    have hstep := scanBefore_step year lines k hk
    have hD := applyRule_DateTime year lines k (lineAt lines k) (ruleAt year lines k)
      (if (ruleAt year lines k).afterURLBlock then
        addLinks (lineAt lines k) (scanBefore year lines k) else scanBefore year lines k)
    rw [← hstep, (pre_frame _ _ _).2.2.2.2.1, (pre_frame _ _ _).2.2.2.2.2.1] at hD
    by_cases hr : ruleAt year lines k = .schedule
    · right
      refine ⟨k, Nat.lt_succ_self k, hr, ?_⟩
      rw [hD.1, if_pos hr]
    · rw [if_neg hr, if_neg hr] at hD
      rcases ih (Nat.le_of_succ_le hk) with h | ⟨j, hj, hrj, hdt⟩
      · left; rw [hD.1, hD.2]; exact h
      · right; exact ⟨j, Nat.lt_succ_of_lt hj, hrj, by rw [hD.1]; exact hdt⟩

theorem schedule_line_mem (year : Int) (lines : List Str) (j : Nat) (hj : j < lines.length)
    (hr : ruleAt year lines j = .schedule) :
    lines.getD j [] ∈ nonTitleLines lines ∧ isSchedule (lineAt lines j) = true := by
  rw [ruleAt_iff year lines j hj] at hr
  obtain ⟨hreach, hfire⟩ := hr
  have ht : (scanBefore year lines j).meeting.Title ≠ [] := hreach.2
  obtain ⟨i, hij, hi⟩ := exists_nonblank_before year lines j (Nat.le_of_lt hj) ht
  refine ⟨?_, hfire⟩
  unfold nonTitleLines
  apply getD_mem_tail_dropWhile _ lines i j hij hj
  simpa [lineAt] using hi

/-- C7: a `DateTime` that is set is a (trimmed) line after the title line that contains
both the middle dot and the en dash; when no line after the title line contains both,
`DateTime` is empty and `MeetingTime` is the zero time. -/
theorem parseMeeting_schedule (year : Int) (input : Str) :
    ((parseMeeting year input).1.DateTime ≠ [] →
      ∃ l ∈ nonTitleLines (Split input '\n'),
        (parseMeeting year input).1.DateTime = TrimSpace l ∧
        Contains (TrimSpace l) [middleDot] = true ∧
        Contains (TrimSpace l) [enDash] = true) ∧
    ((∀ l ∈ nonTitleLines (Split input '\n'),
        ¬ (Contains l [middleDot] = true ∧ Contains l [enDash] = true)) →
      (parseMeeting year input).1.DateTime = [] ∧
      (parseMeeting year input).1.MeetingTime = Time.zero) := by
  rw [(parseMeeting_fields year input).2.1, (parseMeeting_fields year input).2.2.1,
    ← scanBefore_length]
  generalize Split input '\n' = lines
  have hinv := scanBefore_DateTime year lines lines.length (Nat.le_refl _)
  constructor
  · intro hne
    rcases hinv with h | ⟨j, hj, hrj, hdt⟩
    · exact absurd h.1 hne
    · obtain ⟨hmem, hsched⟩ := schedule_line_mem year lines j hj hrj
      refine ⟨lines.getD j [], hmem, hdt, ?_⟩
      unfold isSchedule at hsched
      simpa only [Bool.and_eq_true, lineAt] using hsched
  · intro hno
    rcases hinv with h | ⟨j, hj, hrj, _⟩
    · exact h
    · obtain ⟨hmem, hsched⟩ := schedule_line_mem year lines j hj hrj
      exfalso
      apply hno _ hmem
      unfold isSchedule lineAt at hsched
      simp only [Bool.and_eq_true] at hsched
      exact ⟨Contains_of_TrimSpace _ _ hsched.1, Contains_of_TrimSpace _ _ hsched.2⟩

/-- C7 at two concrete inputs: one with a schedule line after the title, one where only
the title line has both separators. -/
theorem parseMeeting_schedule_witness :
    (parseMeeting 2025 "Sync\n Monday, 27 October⋅14:30 – 15:00 \nBob".toList).1.DateTime
      = "Monday, 27 October⋅14:30 – 15:00".toList ∧
    (∃ l ∈ nonTitleLines (Split "Sync\n Monday, 27 October⋅14:30 – 15:00 \nBob".toList '\n'),
      (parseMeeting 2025 "Sync\n Monday, 27 October⋅14:30 – 15:00 \nBob".toList).1.DateTime
        = TrimSpace l ∧
      Contains (TrimSpace l) [middleDot] = true ∧ Contains (TrimSpace l) [enDash] = true) ∧
    (parseMeeting 2025 "Sync⋅–\nMonday 27 October 14:30\nBob – x".toList).1.DateTime = [] ∧
    (parseMeeting 2025 "Sync⋅–\nMonday 27 October 14:30\nBob – x".toList).1.MeetingTime
      = Time.zero :=
  ⟨by decide,
    (parseMeeting_schedule 2025 "Sync\n Monday, 27 October⋅14:30 – 15:00 \nBob".toList).1
      (by decide),
    (parseMeeting_schedule 2025 "Sync⋅–\nMonday 27 October 14:30\nBob – x".toList).2
      (by decide)⟩

/-! ## Joining lines -/

theorem Join_cons_cons (x y : Str) (t : List Str) (sep : Str) :
    Join (x :: y :: t) sep = x ++ sep ++ Join (y :: t) sep := by
  simp [Join, List.intercalate, List.intersperse]

theorem Join_append_singleton (xs : List Str) (l sep : Str) (h : xs ≠ []) :
    Join (xs ++ [l]) sep = Join xs sep ++ sep ++ l := by
  induction xs with
  | nil => exact absurd rfl h
  | cons x t ih =>
    cases t with
    | nil => simp [Join, List.intercalate, List.intersperse]
    | cons y t =>
      rw [List.cons_append, List.cons_append, Join_cons_cons, ← List.cons_append,
        ih (List.cons_ne_nil _ _), Join_cons_cons]
      simp [List.append_assoc]

theorem Join_ne_nil (xs : List Str) (sep : Str) (h : xs ≠ []) (hne : ∀ x ∈ xs, x ≠ []) :
    Join xs sep ≠ [] := by
  cases xs with
  | nil => exact absurd rfl h
  | cons x t =>
    have hx : x ≠ [] := hne x (List.mem_cons_self _ _)
    cases t with
    | nil => simpa [Join, List.intercalate, List.intersperse] using hx
    | cons y t =>
      rw [Join_cons_cons]
      simp [hx]

theorem Join_snoc (xs : List Str) (l sep : Str) (hne : ∀ x ∈ xs, x ≠ []) :
    Join (xs ++ [l]) sep = if Join xs sep = [] then l else Join xs sep ++ sep ++ l := by
  cases xs with
  | nil => simp [Join, List.intercalate, List.intersperse]
  | cons x t =>
    rw [if_neg (Join_ne_nil _ sep (List.cons_ne_nil _ _) hne),
      Join_append_singleton _ _ _ (List.cons_ne_nil _ _)]

/-! ## Description mode -/

theorem applyRule_Description (year : Int) (lines : List Str) (i : Nat) (line : Str)
    (r : Rule) (st : ScanState) :
    (applyRule year lines i line r st).meeting.Description = st.meeting.Description := by
  cases r <;> simp [applyRule] <;> split <;> rfl

theorem addLinks_Description (line : Str) (st : ScanState) (b : Bool) :
    (if b then addLinks line st else st).meeting.Description = st.meeting.Description := by
  cases b
  · rfl
  · unfold addLinks; simp only [if_true]; split <;> rfl

theorem scanBefore_Description (year : Int) (lines : List Str) (k : Nat)
    (hk : k ≤ lines.length) : (scanBefore year lines k).meeting.Description = [] := by
  induction k with
  | zero => rfl
  | succ k ih =>
    rw [scanBefore_step year lines k hk, applyRule_Description, addLinks_Description]
    exact ih (Nat.le_of_succ_le hk)

theorem parseMeeting_Description (year : Int) (input : Str) :
    (parseMeeting year input).1.Description =
      Join (scanBefore year (Split input '\n') (Split input '\n').length).descriptionLines
        "\n".toList := by
  unfold parseMeeting
  dsimp only
  rw [← scanBefore_length]
  split
  · rfl
  · rename_i h
    have h0 : (scanBefore year (Split input '\n')
        (Split input '\n').length).descriptionLines = [] := by
      apply List.eq_nil_of_length_eq_zero; omega
    rw [h0, scanBefore_Description year _ _ (Nat.le_refl _)]
    rfl

theorem scanBefore_inDescription_succ (year : Int) (lines : List Str) (k : Nat)
    (hk : k < lines.length) :
    (scanBefore year lines (k + 1)).inDescription =
      ((scanBefore year lines k).inDescription ||
        decide (ruleAt year lines k = .descriptionStart)) := by
  rw [scanBefore_step year lines k hk, applyRule_inDescription, (pre_frame _ _ _).2.1]

theorem scanBefore_descriptionLines_succ (year : Int) (lines : List Str) (k : Nat)
    (hk : k < lines.length) :
    (scanBefore year lines (k + 1)).descriptionLines =
      (scanBefore year lines k).descriptionLines ++
        (if ruleAt year lines k = .descriptionStart ∨ ruleAt year lines k = .descriptionCont
          then [lineAt lines k] else []) := by
  rw [scanBefore_step year lines k hk, applyRule_descriptionLines, (pre_frame _ _ _).2.2.1]

theorem scanBefore_Title_succ (year : Int) (lines : List Str) (k : Nat)
    (hk : k < lines.length) :
    (scanBefore year lines (k + 1)).meeting.Title =
      if (scanBefore year lines k).meeting.Title = [] then lineAt lines k
      else (scanBefore year lines k).meeting.Title := by
  rw [scanBefore_succ year lines k hk, scanLine_Title]; rfl

theorem inDescription_mono (year : Int) (lines : List Str) (j m : Nat) (hjm : j ≤ m)
    (hm : m ≤ lines.length) (h : (scanBefore year lines j).inDescription = true) :
    (scanBefore year lines m).inDescription = true := by
  induction m with
  | zero =>
    have : j = 0 := by omega
    subst this; exact h
  | succ m ih =>
    by_cases hj : j = m + 1
    · subst hj; exact h
    · rw [scanBefore_inDescription_succ year lines m hm,
        ih (by omega) (Nat.le_of_succ_le hm)]
      rfl

theorem Title_mono (year : Int) (lines : List Str) (j m : Nat) (hjm : j ≤ m)
    (hm : m ≤ lines.length) (h : (scanBefore year lines j).meeting.Title ≠ []) :
    (scanBefore year lines m).meeting.Title ≠ [] := by
  induction m with
  | zero =>
    have : j = 0 := by omega
    subst this; exact h
  | succ m ih =>
    by_cases hj : j = m + 1
    · subst hj; exact h
    · have h1 := ih (by omega) (Nat.le_of_succ_le hm)
      rw [scanBefore_Title_succ year lines m hm, if_neg h1]
      exact h1

theorem scanBefore_descriptionLines (year : Int) (lines : List Str) (k : Nat)
    (hk : k ≤ lines.length) :
    (scanBefore year lines k).descriptionLines =
      ((List.range k).filter (fun j => decide (ruleAt year lines j = .descriptionStart ∨
        ruleAt year lines j = .descriptionCont))).map (lineAt lines) := by
  induction k with
  | zero => rfl
  | succ k ih =>
    rw [scanBefore_descriptionLines_succ year lines k hk, ih (Nat.le_of_succ_le hk),
      List.range_succ, List.filter_append, List.map_append]
    congr 1
    by_cases h : ruleAt year lines k = .descriptionStart ∨
        ruleAt year lines k = .descriptionCont
    · simp [h]
    · simp [h]

theorem ruleAt_of_ge (year : Int) (lines : List Str) (k : Nat) (h : lines.length ≤ k) :
    ruleAt year lines k = .blank := by
  unfold ruleAt
  rw [List.getElem?_eq_none h]

theorem ruleAt_blank_iff (year : Int) (lines : List Str) (k : Nat) :
    ruleAt year lines k = .blank ↔ lineAt lines k = [] := by
  by_cases hk : k < lines.length
  · rw [ruleAt_iff year lines k hk]
    simp [reaches, fires]
  · rw [ruleAt_of_ge year lines k (by omega)]
    simp only [true_iff]
    unfold lineAt
    rw [List.getD_eq_getElem?_getD, List.getElem?_eq_none (by omega)]
    decide

/-- The rule of a line scanned after description mode was entered. -/
theorem rule_in_description (year : Int) (lines : List Str) (j : Nat)
    (hj : j < lines.length) (ht : (scanBefore year lines j).meeting.Title ≠ [])
    (hd : (scanBefore year lines j).inDescription = true) :
    (ruleAt year lines j = .descriptionStart ∨ ruleAt year lines j = .descriptionCont) ↔
      (lineAt lines j ≠ [] ∧ (ruleAt year lines j).beforeDescription = false) := by
  constructor
  · intro h
    rcases h with h | h
    · refine ⟨?_, by rw [h]; rfl⟩
      rw [ruleAt_iff year lines j hj] at h
      exact reaches_ne_nil _ _ _ (by decide) h.1
    · refine ⟨?_, by rw [h]; rfl⟩
      rw [ruleAt_iff year lines j hj] at h
      exact reaches_ne_nil _ _ _ (by decide) h.1
  · intro ⟨hne, hb⟩
    generalize hr : ruleAt year lines j = r at hb
    have hr' := (ruleAt_iff year lines j hj r).1 hr
    cases r
    case descriptionStart => left; rfl
    case descriptionCont => right; rfl
    case blank => exact absurd ((ruleAt_blank_iff year lines j).1 hr) hne
    case title => exact absurd hr'.2 ht
    case attendee =>
      have := hr'.1
      simp only [reaches] at this
      exact absurd hd this.2.2.2.2.2.2.2.2.2.2.2.2
    case unmatched =>
      have := hr'.1
      simp only [reaches] at this
      exact absurd hd this.2.2.2.2.2.2.2.2.2.2.2.2.1
    all_goals exact absurd hb (by decide)

/-- C2 (as amended): once a line has switched the scan into description mode, every later
non-blank line that is not consumed by one of the rules before the description rules
(schedule, recurrence, video link, single URL, phone marker, phone entry, guest count,
organizer label, `Created by:`) is appended to the description, whatever else it looks
like: `Description` is the newline-join of the description-start line and those lines, in
order. -/
theorem description_after_start (year : Int) (input : Str) (k : Nat)
    (hstart : ruleAt year (Split input '\n') k = .descriptionStart)
    (hfirst : (scanBefore year (Split input '\n') k).inDescription = false) :
    (parseMeeting year input).1.Description =
      Join (lineAt (Split input '\n') k ::
        ((List.range (Split input '\n').length).filter (fun j =>
          decide (k < j ∧ lineAt (Split input '\n') j ≠ [] ∧
            (ruleAt year (Split input '\n') j).beforeDescription = false))).map
          (lineAt (Split input '\n'))) "\n".toList := by
  rw [parseMeeting_Description]
  generalize Split input '\n' = lines at hstart hfirst ⊢
  have hk : k < lines.length := by
    by_contra hcon
    rw [ruleAt_of_ge year lines k (by omega)] at hstart
    exact Rule.noConfusion hstart
  have hkt : (scanBefore year lines k).meeting.Title ≠ [] :=
    ((ruleAt_iff year lines k hk _).1 hstart).1.2.1
  have hk1 : (scanBefore year lines (k + 1)).inDescription = true := by
    rw [scanBefore_inDescription_succ year lines k hk, hstart]; simp
  rw [scanBefore_descriptionLines year lines _ (Nat.le_refl _)]
  congr 1
  have hsplit : List.range lines.length =
      List.range k ++ k :: (List.range' (k + 1) (lines.length - (k + 1))) := by
    apply List.ext_getElem
    · simp; omega
    · intro n h1 h2
      simp only [List.getElem_range]
      by_cases hn : n < k
      · rw [List.getElem_append_left (by simpa using hn)]; simp
      · rw [List.getElem_append_right (by simpa using hn)]
        simp only [List.length_range]
        by_cases hn2 : n = k
        · subst hn2; simp
        · obtain ⟨d, rfl⟩ : ∃ d, n = k + 1 + d := ⟨n - (k + 1), by omega⟩
          have : k + 1 + d - k = d + 1 := by omega
          simp only [this, List.getElem_cons_succ, List.getElem_range']
          omega
  rw [hsplit]
  simp only [List.filter_append, List.filter_cons, List.map_append]
  have hpre : List.filter (fun j => decide (ruleAt year lines j = .descriptionStart ∨
      ruleAt year lines j = .descriptionCont)) (List.range k) = [] := by
    rw [List.filter_eq_nil_iff]
    intro j hj
    rw [List.mem_range] at hj
    simp only [decide_eq_true_eq]
    intro hr
    have hjl : j < lines.length := by omega
    have : (scanBefore year lines (j + 1)).inDescription = true := by
      rw [scanBefore_inDescription_succ year lines j hjl]
      rcases hr with hr | hr
      · rw [hr]; simp
      · have := ((ruleAt_iff year lines j hjl _).1 hr).2
        rw [show (scanBefore year lines j).inDescription = true from this]; rfl
    have hcon := inDescription_mono year lines (j + 1) k (by omega) (by omega) this
    rw [hfirst] at hcon
    exact Bool.noConfusion hcon
  have hpre2 : List.filter (fun j => decide (k < j ∧ lineAt lines j ≠ [] ∧
      (ruleAt year lines j).beforeDescription = false)) (List.range k) = [] := by
    rw [List.filter_eq_nil_iff]
    intro j hj
    rw [List.mem_range] at hj
    simp only [decide_eq_true_eq]
    omega
  rw [hpre, hpre2]
  simp only [hstart, true_or, decide_True, if_true, lt_irrefl, false_and, decide_False,
    List.map_nil, List.nil_append, List.map_cons, Bool.false_eq_true, if_false]
  congr 2
  apply List.filter_congr
  intro j hj
  rw [List.mem_range'_1] at hj
  have hjl : j < lines.length := by omega
  have hjt := Title_mono year lines k j (by omega) (by omega) hkt
  have hjd := inDescription_mono year lines (k + 1) j (by omega) (by omega) hk1
  have hiff := rule_in_description year lines j hjl hjt hjd
  have hkj : k < j := by omega
  simp only [hkj, true_and]
  exact decide_eq_decide.2 hiff

/-- C2 (as amended) at a concrete input: "See notes" is consumed by the guest-count rule,
"Bob" and "agenda" join the description. -/
theorem description_after_start_witness :
    ruleAt 2025 (Split "Sync\nHi, team\nSee notes\nBob\n\nagenda".toList '\n') 1
      = .descriptionStart ∧
    (parseMeeting 2025 "Sync\nHi, team\nSee notes\nBob\n\nagenda".toList).1.Description
      = "Hi, team\nBob\nagenda".toList :=
  ⟨by decide,
    (description_after_start 2025 "Sync\nHi, team\nSee notes\nBob\n\nagenda".toList 1
      (by decide) (by decide)).trans (by decide)⟩

/-- C2 (as stated) fails: in "Sync / Hi, team / See notes" the second line switches the
scan into description mode and the third line is non-blank, yet `Description` is
"Hi, team" alone: the guest-count rule consumes "See notes" ("no" occurs in "notes")
before the description branch is reached. -/
theorem description_absorbs_counterexample :
    ruleAt 2025 (Split "Sync\nHi, team\nSee notes".toList '\n') 1 = .descriptionStart ∧
    (scanBefore 2025 (Split "Sync\nHi, team\nSee notes".toList '\n') 2).inDescription
      = true ∧
    lineAt (Split "Sync\nHi, team\nSee notes".toList '\n') 2 = "See notes".toList ∧
    (parseMeeting 2025 "Sync\nHi, team\nSee notes".toList).1.Description
      = "Hi, team".toList ∧
    (parseMeeting 2025 "Sync\nHi, team\nSee notes".toList).1.Description
      ≠ Join ["Hi, team".toList, "See notes".toList] "\n".toList := by
  refine ⟨by decide, by decide, by decide, by decide, by decide⟩

/-! ## The phone section -/

theorem scanBefore_currentSection_succ (year : Int) (lines : List Str) (k : Nat)
    (hk : k < lines.length) :
    (scanBefore year lines (k + 1)).currentSection =
      if ruleAt year lines k = .phoneMarker then "phone".toList
      else if ruleAt year lines k = .guests then "guests".toList
      else (scanBefore year lines k).currentSection := by
  rw [scanBefore_step year lines k hk, applyRule_currentSection, (pre_frame _ _ _).1]

theorem scanBefore_PhoneInfo_succ (year : Int) (lines : List Str) (k : Nat)
    (hk : k < lines.length) :
    (scanBefore year lines (k + 1)).meeting.PhoneInfo =
      if ruleAt year lines k = .phoneEntry then
        (if (scanBefore year lines k).meeting.PhoneInfo = [] then lineAt lines k
          else (scanBefore year lines k).meeting.PhoneInfo ++ "\n".toList ++ lineAt lines k)
      else (scanBefore year lines k).meeting.PhoneInfo := by
  rw [scanBefore_step year lines k hk, applyRule_PhoneInfo,
    (pre_frame _ _ _).2.2.2.2.2.2.1]

/-- The current section is "phone" exactly when a line was consumed by the
"Join by phone" rule and no later line was consumed by the guest-count rule. -/
theorem currentSection_phone_iff (year : Int) (lines : List Str) (k : Nat)
    (hk : k ≤ lines.length) :
    (scanBefore year lines k).currentSection = "phone".toList ↔
      ∃ j, j < k ∧ ruleAt year lines j = .phoneMarker ∧
        ∀ m, j < m → m < k → ruleAt year lines m ≠ .guests := by
  induction k with
  | zero =>
    constructor
    · intro h
      have h0 : (scanBefore year lines 0).currentSection = [] := rfl
      rw [h0] at h
      exact absurd h (by decide)
    · rintro ⟨j, hj, _⟩; omega
  | succ k ih =>
    rw [scanBefore_currentSection_succ year lines k hk]
    by_cases h1 : ruleAt year lines k = .phoneMarker
    · rw [if_pos h1]
      simp only [true_iff]
      exact ⟨k, Nat.lt_succ_self k, h1, fun m h2 h3 => by omega⟩
    rw [if_neg h1]
    by_cases h2 : ruleAt year lines k = .guests
    · rw [if_pos h2]
      constructor
      · intro h; exact absurd h (by decide)
      · rintro ⟨j, hj, hrj, hall⟩
        by_cases hjk : j = k
        · subst hjk; exact absurd hrj h1
        · exact absurd h2 (hall k (by omega) (Nat.lt_succ_self k))
    rw [if_neg h2, ih (Nat.le_of_succ_le hk)]
    constructor
    · rintro ⟨j, hj, hrj, hall⟩
      refine ⟨j, Nat.lt_succ_of_lt hj, hrj, fun m hm1 hm2 => ?_⟩
      by_cases hmk : m = k
      · subst hmk; exact h2
      · exact hall m hm1 (by omega)
    · rintro ⟨j, hj, hrj, hall⟩
      by_cases hjk : j = k
      · subst hjk; exact absurd hrj h1
      · exact ⟨j, by omega, hrj, fun m hm1 hm2 => hall m hm1 (by omega)⟩

theorem scanBefore_PhoneInfo (year : Int) (lines : List Str) (k : Nat)
    (hk : k ≤ lines.length) :
    (scanBefore year lines k).meeting.PhoneInfo =
      Join (((List.range k).filter (fun j => decide (ruleAt year lines j = .phoneEntry))).map
        (lineAt lines)) "\n".toList := by
  induction k with
  | zero => rfl
  | succ k ih =>
    rw [scanBefore_PhoneInfo_succ year lines k hk, ih (Nat.le_of_succ_le hk),
      List.range_succ, List.filter_append, List.map_append]
    by_cases h : ruleAt year lines k = .phoneEntry
    · rw [if_pos h]
      simp only [List.filter_cons, h, decide_True, if_true, List.filter_nil, List.map_cons,
        List.map_nil]
      rw [Join_snoc]
      intro x hx
      rw [List.mem_map] at hx
      obtain ⟨j, hj, rfl⟩ := hx
      rw [List.mem_filter, List.mem_range, decide_eq_true_eq] at hj
      exact reaches_ne_nil _ _ _ (by decide)
        ((ruleAt_iff year lines j (by omega) _).1 hj.2).1
    · rw [if_neg h]
      simp [h]

/-- C10 (as amended): `PhoneInfo` is the newline-join, in order, of the lines consumed by
the phone-entry rule, and a line is consumed by that rule exactly when it is non-blank,
is not consumed by an earlier rule (title, schedule, recurrence, video link, single URL,
"Join by phone" marker), contains "+", "PIN:" or "ID:", and the current section is
"phone": some earlier line was consumed by the "Join by phone" rule and no line between
the two was consumed by the guest-count rule. -/
theorem phoneInfo_lines (year : Int) (input : Str) :
    (parseMeeting year input).1.PhoneInfo =
      Join (((List.range (Split input '\n').length).filter (fun k =>
        decide (ruleAt year (Split input '\n') k = .phoneEntry))).map
          (lineAt (Split input '\n'))) "\n".toList ∧
    ∀ k, k < (Split input '\n').length →
      (ruleAt year (Split input '\n') k = .phoneEntry ↔
        reaches (scanBefore year (Split input '\n') k) (lineAt (Split input '\n') k)
          .phoneEntry ∧
        (Contains (lineAt (Split input '\n') k) "+".toList = true ∨
          Contains (lineAt (Split input '\n') k) "PIN:".toList = true ∨
          Contains (lineAt (Split input '\n') k) "ID:".toList = true) ∧
        ∃ j, j < k ∧ ruleAt year (Split input '\n') j = .phoneMarker ∧
          ∀ m, j < m → m < k → ruleAt year (Split input '\n') m ≠ .guests) := by
  rw [(parseMeeting_fields year input).2.2.2.1, ← scanBefore_length]
  generalize Split input '\n' = lines
  refine ⟨scanBefore_PhoneInfo year lines _ (Nat.le_refl _), fun k hk => ?_⟩
  rw [ruleAt_iff year lines k hk, ← currentSection_phone_iff year lines k (Nat.le_of_lt hk)]
  simp only [fires, isPhoneEntry, Bool.or_eq_true, or_assoc]
  tauto

/-- C10 at a concrete input: two entries of the phone section, joined in order. -/
theorem phoneInfo_lines_witness :
    (parseMeeting 2025 "Sync\nJoin by phone\n+44 20 7946 0000\nPIN: 1234".toList).1.PhoneInfo
      = "+44 20 7946 0000\nPIN: 1234".toList ∧
    ruleAt 2025 (Split "Sync\nJoin by phone\n+44 20 7946 0000\nPIN: 1234".toList '\n') 3
      = .phoneEntry :=
  ⟨(phoneInfo_lines 2025 "Sync\nJoin by phone\n+44 20 7946 0000\nPIN: 1234".toList).1.trans
      (by decide),
    ((phoneInfo_lines 2025 "Sync\nJoin by phone\n+44 20 7946 0000\nPIN: 1234".toList).2 3
      (by decide)).2 ⟨by simp only [reaches]; decide, Or.inr (Or.inl (by decide)),
        ⟨1, by decide, by decide, fun m h1 h2 => by
          have : m = 2 := by omega
          subst this; decide⟩⟩⟩

/-- C10 (as stated) fails: in "Sync / Join by phone / 2 guests / +44 20 7946 0000" the
last line is non-blank, comes after a "Join by phone" line, contains "+" and is consumed
by no earlier rule, yet `PhoneInfo` stays empty: the guest-count line in between has
replaced the "phone" section. -/
theorem phoneInfo_after_marker_counterexample :
    ruleAt 2025 (Split "Sync\nJoin by phone\n2 guests\n+44 20 7946 0000".toList '\n') 1
      = .phoneMarker ∧
    reaches (scanBefore 2025
        (Split "Sync\nJoin by phone\n2 guests\n+44 20 7946 0000".toList '\n') 3)
      (lineAt (Split "Sync\nJoin by phone\n2 guests\n+44 20 7946 0000".toList '\n') 3)
      .phoneEntry ∧
    Contains (lineAt (Split "Sync\nJoin by phone\n2 guests\n+44 20 7946 0000".toList '\n') 3)
      "+".toList = true ∧
    (parseMeeting 2025 "Sync\nJoin by phone\n2 guests\n+44 20 7946 0000".toList).1.PhoneInfo
      = [] := by
  refine ⟨by decide, ?_, by decide, by decide⟩
  simp only [reaches]; decide

/-! ## `parseMeetingTime` -/

theorem Split_ne_nil (s : Str) (c : Char) : Split s c ≠ [] := by
  unfold Split List.splitOn
  exact List.splitOnP_ne_nil _ _

/-- The result of `parseMeetingTime` in terms of its local variables. -/
theorem parseMeetingTime_eq (year : Int) (s : Str) :
    parseMeetingTime year s =
      if (Split s middleDot).length ≠ 2 then Time.zero
      else if (dateFields s).length < 3 then Time.zero
      else match monthMap ((dateFields s).getD 2 []) with
        | none => Time.zero
        | some month =>
          if (timeParts s).length ≠ 2 then Time.zero
          else Date year month
            ((parseDay (TrimSuffix ((dateFields s).getD 1 []) ",".toList)).getD 1)
            ((parseHour ((timeParts s).getD 0 [])).getD 0)
            ((parseMinute ((timeParts s).getD 1 [])).getD 0) 0 0 := by
  unfold parseMeetingTime timeParts startTime dateFields datePart
  rcases h : Split s middleDot with _ | ⟨p0, _ | ⟨p1, _ | ⟨p2, r⟩⟩⟩
  · simp
  · simp
  · simp only [List.length_cons, List.length_nil, ne_eq, not_true_eq_false, if_false,
      List.getD_cons_zero, List.getD_cons_succ, Nat.reduceAdd]
    rcases h2 : Split (TrimSpace p1) enDash with _ | ⟨t0, tr⟩
    · exact absurd h2 (Split_ne_nil _ _)
    · simp only [List.getD_cons_zero]
      rcases h3 : Fields (TrimSpace p0) with _ | ⟨w, _ | ⟨d, _ | ⟨m, r⟩⟩⟩
      · simp
      · simp
      · simp
      · simp only [List.length_cons, List.getD_cons_succ, List.getD_cons_zero]
        have : ¬ (r.length + 1 + 1 + 1 < 3) := by omega
        rw [if_neg this]
        cases h4 : monthMap m with
        | none => rfl
        | some month =>
          simp only []
          rcases h5 : Split (TrimSpace t0) ':' with _ | ⟨hh, _ | ⟨mm, _ | ⟨x, r2⟩⟩⟩
          · simp
          · simp
          · simp
          · simp
  · simp

theorem mem_of_lookup (k : Str) (v : Nat) :
    ∀ l : List (Str × Nat), l.lookup k = some v → (k, v) ∈ l := by
  intro l
  induction l with
  | nil => intro h; simp [List.lookup] at h
  | cons a t ih =>
    intro h
    obtain ⟨a1, a2⟩ := a
    simp only [List.lookup] at h
    split at h
    · rename_i heq
      have h1 : k = a1 := by simpa using heq
      have h2 : a2 = v := by simpa using h
      rw [h1, h2]
      exact List.mem_cons_self _ _
    · exact List.mem_cons_of_mem _ (ih h)

theorem monthMap_mem (m : Str) (k : Nat) (h : monthMap m = some k) : (m, k) ∈ monthTable :=
  mem_of_lookup m k monthTable h

theorem monthMap_bounds (m : Str) (k : Nat) (h : monthMap m = some k) : 1 ≤ k ∧ k ≤ 12 := by
  have hm := monthMap_mem m k h
  simp only [monthTable, List.mem_cons, Prod.mk.injEq, List.mem_nil_iff, or_false] at hm
  omega

theorem parseDay_bounds (v : Str) :
    1 ≤ (parseDay v).getD 1 ∧ (parseDay v).getD 1 ≤ 31 := by
  unfold parseDay
  split
  · simp
  · split
    · simp
    · split
      · simp
      · rename_i h
        simp only [Bool.or_eq_true, decide_eq_true_eq, not_or, not_lt] at h
        simp only [Option.getD_some]
        omega

theorem parseHour_bounds (v : Str) : (parseHour v).getD 0 < 24 := by
  unfold parseHour
  split
  · simp
  · split
    · simp
    · split
      · simp
      · rename_i h _
        simp only [Option.getD_some]
        omega

theorem parseMinute_bounds (v : Str) : (parseMinute v).getD 0 < 60 := by
  unfold parseMinute
  split
  · simp
  · split
    · simp
    · split
      · simp
      · rename_i h _
        simp only [Option.getD_some]
        omega

theorem daysBefore_nonneg (m : Nat) : 0 ≤ daysBefore m := by
  unfold daysBefore
  by_cases h : m < 13
  · interval_cases m <;> decide
  · rw [List.getD_eq_default _ _ (by simpa using h)]

/-- The instant built by `time.Date` from in-range month, hour and minute. -/
theorem Date_eq (year mo d h mi : Int) (hmo : 1 ≤ mo ∧ mo ≤ 12) (hh : 0 ≤ h ∧ h < 24)
    (hmi : 0 ≤ mi ∧ mi < 60) :
    Date year mo d h mi 0 0 =
      { sec := (daysSinceEpoch year + daysBefore (mo - 1).toNat +
          (if isLeap year && decide (mo ≥ 3) then 1 else 0) + (d - 1)) * 86400 +
          (h * 3600 + mi * 60),
        nsec := 0 } := by
  have e1 : (mo - 1) / 12 = 0 := by omega
  have e2 : (mo - 1) % 12 = mo - 1 := by omega
  have e3 : mi / 60 = 0 := by omega
  have e4 : mi % 60 = mi := by omega
  have e5 : h / 24 = 0 := by omega
  have e6 : h % 24 = h := by omega
  simp only [Date, norm, e1, e2, e3, e4, e5, e6, Int.zero_ediv, Int.zero_emod, add_zero,
    sub_add_cancel]
  split <;> simp

theorem Date_ne_zero (year mo d h mi : Int) (hy : 1 < year) (hmo : 1 ≤ mo ∧ mo ≤ 12)
    (hd : 1 ≤ d) (hh : 0 ≤ h ∧ h < 24) (hmi : 0 ≤ mi ∧ mi < 60) :
    Date year mo d h mi 0 0 ≠ Time.zero := by
  rw [Date_eq year mo d h mi hmo hh hmi]
  intro hcon
  have hsec := congrArg Time.sec hcon
  simp only [Time.zero] at hsec
  have h1 : 365 ≤ daysSinceEpoch year := by simp only [daysSinceEpoch]; omega
  have h2 := daysBefore_nonneg (mo - 1).toNat
  have h3 : (0 : Int) ≤ (if isLeap year && decide (mo ≥ 3) then 1 else 0) := by
    split <;> decide
  generalize daysSinceEpoch year = a at *
  generalize daysBefore (mo - 1).toNat = b at *
  generalize (if (isLeap year && decide (mo ≥ 3)) = true then (1 : Int) else 0) = c at *
  omega

/-- C9: with the current year greater than 1, `parseMeetingTime` returns the zero time
exactly when the string does not split on the middle dot into two parts, or the date part
has fewer than 3 fields, or the third date field is not a month name, or the start time
does not split on ":" into two components; otherwise the result is the date built from
the month, with the day defaulting to 1 and the hour and minute to 0 when their numeral
does not parse. -/
theorem parseMeetingTime_unset_iff (year : Int) (hy : 1 < year) (s : Str) :
    (parseMeetingTime year s = Time.zero ↔
      ((Split s middleDot).length ≠ 2 ∨ (dateFields s).length < 3 ∨
        monthMap ((dateFields s).getD 2 []) = none ∨ (timeParts s).length ≠ 2)) ∧
    (∀ month : Nat, (Split s middleDot).length = 2 → 3 ≤ (dateFields s).length →
      monthMap ((dateFields s).getD 2 []) = some month → (timeParts s).length = 2 →
      parseMeetingTime year s =
        Date year month
          ((parseDay (TrimSuffix ((dateFields s).getD 1 []) ",".toList)).getD 1)
          ((parseHour ((timeParts s).getD 0 [])).getD 0)
          ((parseMinute ((timeParts s).getD 1 [])).getD 0) 0 0) := by
  rw [parseMeetingTime_eq]
  constructor
  · by_cases h1 : (Split s middleDot).length ≠ 2
    · simp [h1]
    rw [if_neg h1]
    by_cases h2 : (dateFields s).length < 3
    · simp [h2]
    rw [if_neg h2]
    cases h3 : monthMap ((dateFields s).getD 2 []) with
    | none => simp
    | some month =>
      simp only []
      by_cases h4 : (timeParts s).length ≠ 2
      · simp [h4]
      rw [if_neg h4]
      have hb := monthMap_bounds _ _ h3
      have hd := parseDay_bounds (TrimSuffix ((dateFields s).getD 1 []) ",".toList)
      have hh := parseHour_bounds ((timeParts s).getD 0 [])
      have hm := parseMinute_bounds ((timeParts s).getD 1 [])
      have hne := Date_ne_zero year month
        ((parseDay (TrimSuffix ((dateFields s).getD 1 []) ",".toList)).getD 1)
        ((parseHour ((timeParts s).getD 0 [])).getD 0)
        ((parseMinute ((timeParts s).getD 1 [])).getD 0) hy
        (by omega) (by omega) (by omega) (by omega)
      simp only [hne, false_iff]
      simp only [not_or, not_not, not_lt, reduceCtorEq, not_false_eq_true, true_and]
      simp only [ne_eq, not_not] at h1 h4
      exact ⟨h1, by omega, h4⟩
  · intro month h1 h2 h3 h4
    rw [if_neg (by simpa using h1), if_neg (by omega), h3]
    simp only []
    rw [if_neg (by simpa using h4)]

/-- C9 at two concrete inputs: unreadable day, hour and minute fall back to 1, 0 and 0;
an unknown month name gives the zero time. -/
theorem parseMeetingTime_unset_iff_witness :
    parseMeetingTime 2025 "Monday, xx October⋅ab:7 – 15:00".toList = Date 2025 10 1 0 0 0 0 ∧
    parseMeetingTime 2025 "Monday, xx October⋅ab:7 – 15:00".toList ≠ Time.zero ∧
    parseMeetingTime 2025 "Monday, 27 Oct⋅14:30 – 15:00".toList = Time.zero :=
  ⟨(parseMeetingTime_unset_iff 2025 (by decide) "Monday, xx October⋅ab:7 – 15:00".toList).2
      10 (by decide) (by decide) (by decide) (by decide),
    fun h => (((parseMeetingTime_unset_iff 2025 (by decide)
      "Monday, xx October⋅ab:7 – 15:00".toList).1.1 h).elim (by decide)
        (fun h => h.elim (by decide) (fun h => h.elim (by decide) (by decide)))),
    (parseMeetingTime_unset_iff 2025 (by decide) "Monday, 27 Oct⋅14:30 – 15:00".toList).1.2
      (Or.inr (Or.inr (Or.inl (by decide))))⟩

/-! ## Splitting and trimming a schedule line -/

theorem Split_two (xs ys : Str) (c : Char) (hx : c ∉ xs) (hy : c ∉ ys) :
    Split (xs ++ c :: ys) c = [xs, ys] := by
  unfold Split List.splitOn
  rw [List.splitOnP_first (fun x => x == c) xs (fun x hx' h => hx (by
      have : x = c := by simpa using h
      rw [← this]; exact hx')) c (by simp),
    List.splitOnP_eq_single (fun x => x == c) ys (fun x hx' h => hy (by
      have : x = c := by simpa using h
      rw [← this]; exact hx'))]

theorem Split_head (xs ys : Str) (c : Char) (hx : c ∉ xs) :
    ∃ rest, Split (xs ++ c :: ys) c = xs :: rest := by
  unfold Split List.splitOn
  rw [List.splitOnP_first (fun x => x == c) xs (fun x hx' h => hx (by
      have : x = c := by simpa using h
      rw [← this]; exact hx')) c (by simp)]
  exact ⟨_, rfl⟩

theorem Fields_three (t1 t2 t3 : Str) (s1 s2 : Char) (h1 : ∀ c ∈ t1, isSpace c = false)
    (h2 : ∀ c ∈ t2, isSpace c = false) (h3 : ∀ c ∈ t3, isSpace c = false)
    (n1 : t1 ≠ []) (n2 : t2 ≠ []) (n3 : t3 ≠ []) (hs1 : isSpace s1 = true)
    (hs2 : isSpace s2 = true) :
    Fields (t1 ++ s1 :: (t2 ++ s2 :: t3)) = [t1, t2, t3] := by
  unfold Fields
  rw [List.splitOnP_first isSpace t1 (fun x hx => by simp [h1 x hx]) s1 hs1,
    List.splitOnP_first isSpace t2 (fun x hx => by simp [h2 x hx]) s2 hs2,
    List.splitOnP_eq_single isSpace t3 (fun x hx => by simp [h3 x hx])]
  simp [n1, n2, n3]

theorem dropWhile_of_head (s : Str) (h : ∀ c, s.head? = some c → isSpace c = false) :
    s.dropWhile isSpace = s := by
  cases s with
  | nil => rfl
  | cons a t =>
    rw [List.dropWhile_cons_of_neg]
    simp [h a rfl]

theorem rdropWhile_of_last (s : Str) (h : ∀ c, s.getLast? = some c → isSpace c = false) :
    s.rdropWhile isSpace = s := by
  induction s using List.reverseRecOn with
  | nil => rfl
  | append_singleton t a _ =>
    rw [List.rdropWhile_concat_neg]
    simp [h a (by simp)]

theorem TrimSpace_eq_self (s : Str) (h1 : ∀ c, s.head? = some c → isSpace c = false)
    (h2 : ∀ c, s.getLast? = some c → isSpace c = false) : TrimSpace s = s := by
  unfold TrimSpace
  rw [dropWhile_of_head s h1, rdropWhile_of_last s h2]

theorem rdropWhile_append_cons (xs ys : Str) (c : Char) (hc : isSpace c = false) :
    (xs ++ c :: ys).rdropWhile isSpace = xs ++ c :: ys.rdropWhile isSpace := by
  induction ys using List.reverseRecOn with
  | nil =>
    rw [List.rdropWhile_nil, List.rdropWhile_concat_neg]
    simp [hc]
  | append_singleton ys a ih =>
    have e : xs ++ c :: (ys ++ [a]) = (xs ++ c :: ys) ++ [a] := by simp
    rw [e]
    by_cases ha : isSpace a = true
    · rw [List.rdropWhile_concat_pos _ _ _ ha, List.rdropWhile_concat_pos _ _ _ ha, ih]
    · rw [List.rdropWhile_concat_neg _ _ _ ha, List.rdropWhile_concat_neg _ _ _ ha]
      simp

theorem digit_toNat (c : Char) (h : c.isDigit = true) : 48 ≤ c.toNat ∧ c.toNat ≤ 57 := by
  simp only [Char.isDigit, Bool.and_eq_true, decide_eq_true_eq] at h
  obtain ⟨h1, h2⟩ := h
  simp only [ge_iff_le, UInt32.le_def, Fin.le_def] at h1 h2
  exact ⟨h1, h2⟩

theorem digit_plain (c : Char) (h : c.isDigit = true) :
    isSpace c = false ∧ c ≠ middleDot ∧ c ≠ enDash ∧ c ≠ ':' ∧ c ≠ ',' := by
  have hb := digit_toNat c h
  refine ⟨?_, ?_, ?_, ?_, ?_⟩
  · unfold isSpace
    have e : ∀ d : Char, d.toNat < 48 → (decide (c = d)) = false := by
      intro d hd
      simp only [decide_eq_false_iff_not]
      rintro rfl
      omega
    rw [e '\t' (by decide), e '\n' (by decide), e '\x0b' (by decide), e '\x0c' (by decide),
      e '\r' (by decide), e ' ' (by decide)]
    simp only [Bool.or_self, Bool.false_or, Bool.or_eq_false_iff, decide_eq_false_iff_not,
      Bool.and_eq_false_imp, decide_eq_true_eq]
    omega
  · rintro rfl; exact absurd hb.2 (by decide)
  · rintro rfl; exact absurd hb.2 (by decide)
  · rintro rfl; exact absurd hb.2 (by decide)
  · rintro rfl; exact absurd hb.1 (by decide)

theorem month_plain (m : Str) (k : Nat) (h : monthMap m = some k) :
    m ≠ [] ∧ ∀ c ∈ m, isSpace c = false ∧ c ≠ middleDot := by
  have hm := monthMap_mem m k h
  simp only [monthTable, List.mem_cons, Prod.mk.injEq, List.mem_nil_iff, or_false] at hm
  rcases hm with h | h | h | h | h | h | h | h | h | h | h | h <;>
    (rw [h.1]; decide)

theorem parseDay_numeral (s : Str) (hlen : s.length = 1 ∨ s.length = 2)
    (hdig : ∀ c ∈ s, c.isDigit = true) (h1 : 1 ≤ numeralValue s) (h2 : numeralValue s ≤ 31) :
    parseDay s = some (numeralValue s) := by
  rcases s with _ | ⟨a, _ | ⟨b, _ | ⟨c, t⟩⟩⟩
  · simp at hlen
  · have ha := hdig a (by simp)
    simp only [numeralValue, List.foldl, Nat.mul_zero, Nat.zero_add] at h1 h2 ⊢
    simp only [parseDay, getnum, ha, Bool.not_true, Bool.false_eq_true, if_false]
    rw [if_neg (by simp), if_neg (by simp; omega)]
  · have ha := hdig a (by simp)
    have hb := hdig b (by simp)
    simp only [numeralValue, List.foldl, Nat.mul_zero, Nat.zero_add] at h1 h2 ⊢
    simp only [parseDay, getnum, ha, hb, Bool.not_true, Bool.false_eq_true, if_false]
    rw [if_neg (by simp), if_neg (by simp; omega)]
    congr 1; ring
  · simp at hlen

theorem parseHour_numeral (s : Str) (hlen : s.length = 1 ∨ s.length = 2)
    (hdig : ∀ c ∈ s, c.isDigit = true) (h2 : numeralValue s ≤ 23) :
    parseHour s = some (numeralValue s) := by
  rcases s with _ | ⟨a, _ | ⟨b, _ | ⟨c, t⟩⟩⟩
  · simp at hlen
  · have ha := hdig a (by simp)
    simp only [numeralValue, List.foldl, Nat.mul_zero, Nat.zero_add] at h2 ⊢
    simp only [parseHour, getnum, ha, Bool.not_true, Bool.false_eq_true, if_false]
    rw [if_neg (by omega), if_neg (by simp)]
  · have ha := hdig a (by simp)
    have hb := hdig b (by simp)
    simp only [numeralValue, List.foldl, Nat.mul_zero, Nat.zero_add] at h2 ⊢
    simp only [parseHour, getnum, ha, hb, Bool.not_true, Bool.false_eq_true, if_false]
    rw [if_neg (by omega), if_neg (by simp)]
    congr 1; ring
  · simp at hlen

theorem parseMinute_numeral (s : Str) (hlen : s.length = 2)
    (hdig : ∀ c ∈ s, c.isDigit = true) (h2 : numeralValue s ≤ 59) :
    parseMinute s = some (numeralValue s) := by
  rcases s with _ | ⟨a, _ | ⟨b, _ | ⟨c, t⟩⟩⟩
  · simp at hlen
  · simp at hlen
  · have ha := hdig a (by simp)
    have hb := hdig b (by simp)
    simp only [numeralValue, List.foldl, Nat.mul_zero, Nat.zero_add] at h2 ⊢
    simp only [parseMinute, getnum, ha, hb, Bool.not_true, Bool.false_eq_true, if_false]
    rw [if_neg (by omega), if_neg (by simp)]
    congr 1; ring
  · simp at hlen

theorem TrimSuffix_comma_digits (s : Str) (hdig : ∀ c ∈ s, c.isDigit = true) :
    TrimSuffix s ",".toList = s := by
  unfold TrimSuffix
  rw [if_neg]
  intro h
  rw [List.isSuffixOf_iff_suffix] at h
  obtain ⟨t, ht⟩ := h
  have hm : ',' ∈ s := by rw [← ht]; simp
  exact (digit_plain _ (hdig _ hm)).2.2.2.2 rfl

/-! ## `time.Date` and the calendar fields -/

theorem cycle100 (c f r k : Int) (hc0 : 0 ≤ c) (hc3 : c ≤ 3) (hf0 : 0 ≤ f) (hf24 : f ≤ 24)
    (hr0 : 0 ≤ r) (hr3 : r ≤ 3) (hk0 : 0 ≤ k) (hk : k ≤ 365)
    (hleap : k = 365 → r = 3 ∧ (f ≠ 24 ∨ c = 3)) :
    (36524 * c + 1461 * f + 365 * r + k) / 36524 -
      (36524 * c + 1461 * f + 365 * r + k) / 36524 / 4 = c := by
  by_cases h : 1461 * f + 365 * r + k < 36524
  · have : (36524 * c + 1461 * f + 365 * r + k) / 36524 = c := by omega
    rw [this]; omega
  · have hk365 : k = 365 := by omega
    obtain ⟨hr, hfc⟩ := hleap hk365
    have hf : f = 24 := by omega
    have hc : c = 3 := by omega
    subst hk365 hr hf hc
    decide

theorem cycle4 (f r k : Int) (hr0 : 0 ≤ r) (hr3 : r ≤ 3) (hk0 : 0 ≤ k) (hk : k ≤ 365) :
    (1461 * f + 365 * r + k) / 1461 = f := by
  omega

theorem cycle1 (r k : Int) (hr0 : 0 ≤ r) (hr3 : r ≤ 3) (hk0 : 0 ≤ k) (hk : k ≤ 365)
    (hleap : k = 365 → r = 3) :
    (365 * r + k) / 365 - (365 * r + k) / 365 / 4 = r := by
  by_cases h : k = 365
  · have hr := hleap h
    subst h hr
    decide
  · have : (365 * r + k) / 365 = r := by omega
    rw [this]; omega

/-- The year and the day of the year that `absDate` reads off a day number. -/
theorem absYearDay_eq (year k : Int) (hk0 : 0 ≤ k)
    (hk : k ≤ 364 ∨ (k = 365 ∧ isLeap year = true)) :
    absYearDay (daysSinceEpoch year + k) = (year, k) := by
  obtain ⟨q, c, f, r, hy, hc0, hc3, hf0, hf24, hr0, hr3⟩ :
      ∃ q c f r : Int, year - 1 = 400 * q + 100 * c + 4 * f + r ∧ 0 ≤ c ∧ c ≤ 3 ∧ 0 ≤ f ∧
        f ≤ 24 ∧ 0 ≤ r ∧ r ≤ 3 :=
    ⟨(year - 1) / 400, (year - 1) % 400 / 100, (year - 1) % 100 / 4, (year - 1) % 4,
      by omega, by omega, by omega, by omega, by omega, by omega, by omega⟩
  have e4 : (year - 1) / 4 = 100 * q + 25 * c + f := by omega
  have e100 : (year - 1) / 100 = 4 * q + c := by omega
  have e400 : (year - 1) / 400 = q := by omega
  have hk365 : k ≤ 365 := by omega
  have hleap : k = 365 → r = 3 ∧ (f ≠ 24 ∨ c = 3) := by
    intro h
    rcases hk with hk | ⟨_, hl⟩
    · omega
    · simp only [isLeap, Bool.and_eq_true, Bool.or_eq_true, decide_eq_true_eq, ne_eq,
        decide_not, Bool.not_eq_true', decide_eq_false_iff_not] at hl
      obtain ⟨h4, h100⟩ := hl
      refine ⟨by omega, ?_⟩
      rcases h100 with h | h
      · left; omega
      · right; omega
  have eN : daysSinceEpoch year + k =
      146097 * q + (36524 * c + 1461 * f + 365 * r + k) := by
    simp only [daysSinceEpoch]
    rw [e4, e100, e400, hy]; ring
  have s1 : (146097 * q + (36524 * c + 1461 * f + 365 * r + k)) / 146097 = q := by
    clear hleap hy e4 e100 e400 eN hk
    omega
  have s2 := cycle100 c f r k hc0 hc3 hf0 hf24 hr0 hr3 hk0 hk365 hleap
  have s3 := cycle4 f r k hr0 hr3 hk0 hk365
  have s4 := cycle1 r k hr0 hr3 hk0 hk365 (fun h => (hleap h).1)
  have a1 : 146097 * q + (36524 * c + 1461 * f + 365 * r + k) - 146097 * q =
      36524 * c + 1461 * f + 365 * r + k := by ring
  have a2 : 36524 * c + 1461 * f + 365 * r + k - 36524 * c = 1461 * f + 365 * r + k := by
    ring
  have a3 : 1461 * f + 365 * r + k - 1461 * f = 365 * r + k := by ring
  simp only [absYearDay]
  rw [eN, s1, a1, s2, a2, s3, a3, s4]
  have : 400 * q + 100 * c + 4 * f + r + 1 = year := by omega
  rw [this]
  congr 1
  ring


set_option maxRecDepth 100000 in
theorem monthDay_table :
    ∀ (leap : Bool) (mo : Fin 13) (d : Fin 32), 1 ≤ mo.val → 1 ≤ d.val →
      (d.val : Int) ≤ (if mo.val = 2 && leap then 29
        else daysBefore mo.val - daysBefore (mo.val - 1)) →
      monthDay leap (daysBefore (mo.val - 1) +
        (if leap && decide ((mo.val : Int) ≥ 3) then 1 else 0) + ((d.val : Int) - 1)) =
        ((mo.val : Int), (d.val : Int)) ∧
      0 ≤ daysBefore (mo.val - 1) +
        (if leap && decide ((mo.val : Int) ≥ 3) then 1 else 0) + ((d.val : Int) - 1) ∧
      (daysBefore (mo.val - 1) +
        (if leap && decide ((mo.val : Int) ≥ 3) then 1 else 0) + ((d.val : Int) - 1) ≤ 364 ∨
       (daysBefore (mo.val - 1) +
        (if leap && decide ((mo.val : Int) ≥ 3) then 1 else 0) + ((d.val : Int) - 1) = 365 ∧
          leap = true)) := by
  decide

/-- The calendar fields of the instant built by `time.Date` from an existing day of the
month and an in-range hour and minute are the arguments of `time.Date`. -/
theorem Date_fields (year : Int) (mo d h mi : Nat) (hmo : 1 ≤ mo ∧ mo ≤ 12)
    (hd : 1 ≤ d ∧ (d : Int) ≤ daysIn mo year) (hh : h < 24) (hmi : mi < 60) :
    (Date year mo d h mi 0 0).Year = year ∧ (Date year mo d h mi 0 0).Month = mo ∧
    (Date year mo d h mi 0 0).Day = d ∧ (Date year mo d h mi 0 0).Hour = h ∧
    (Date year mo d h mi 0 0).Minute = mi ∧ (Date year mo d h mi 0 0).Second = 0 := by
  rw [Date_eq year mo d h mi (by omega) (by omega) (by omega)]
  have hmo' : ((mo : Int) - 1).toNat = mo - 1 := by omega
  rw [hmo']
  have hd31 : d < 32 := by
    have : daysIn mo year ≤ 31 := by
      unfold daysIn
      obtain ⟨h1, h2⟩ := hmo
      interval_cases mo <;> simp <;> (try split) <;> decide
    omega
  have ht := monthDay_table (isLeap year) ⟨mo, by omega⟩ ⟨d, hd31⟩ hmo.1 hd.1 hd.2
  simp only at ht
  obtain ⟨k, hkdef⟩ : ∃ k : Int, k = daysBefore (mo - 1) +
      (if (isLeap year && decide ((mo : Int) ≥ 3)) = true then 1 else 0) + ((d : Int) - 1) :=
    ⟨_, rfl⟩
  rw [← hkdef] at ht
  obtain ⟨hmd, hk0, hk⟩ := ht
  have hN : daysSinceEpoch year + daysBefore (mo - 1) +
      (if (isLeap year && decide ((mo : Int) ≥ 3)) = true then 1 else 0) + ((d : Int) - 1) =
      daysSinceEpoch year + k := by
    rw [hkdef]; ring
  rw [hN]
  have hday : absDate (daysSinceEpoch year + k) = (year, (mo : Int), (d : Int)) := by
    have hyd := absYearDay_eq year k hk0 (by
      rcases hk with hk | ⟨hk, hl⟩
      · exact Or.inl hk
      · exact Or.inr ⟨hk, hl⟩)
    simp only [absDate, hyd, hmd]
  generalize daysSinceEpoch year + k = N at *
  have e1 : (N * 86400 + ((h : Int) * 3600 + (mi : Int) * 60)) / 86400 = N := by omega
  simp only [Time.Year, Time.Month, Time.Day, Time.Hour, Time.Minute, Time.Second, e1, hday]
  refine ⟨trivial, trivial, trivial, ?_, ?_, ?_⟩ <;> omega

theorem ne_nil_of_length (s : Str) (h : s.length = 1 ∨ s.length = 2) : s ≠ [] := by
  rintro rfl; simp at h

/-- C8 (as amended): for a schedule line "<Weekday>, <d> <Month>⋅<HH>:<MM> – <end>" (the
weekday any word free of white space and middle dots, `d` a one- or two-digit numeral
from 1 to 31, the month one of the twelve names, `HH` a one- or two-digit numeral up to
23, `MM` a two-digit numeral up to 59, the end free of middle dots) `parseMeetingTime`
returns `time.Date(year, month, d, HH, MM, 0, 0, UTC)` for the current year; when the
month has a day `d` in that year, the year, month, day, hour, minute and second of the
result are the current year, the number of the month, `d`, `HH`, `MM` and 0. -/
theorem parseMeetingTime_schedule_line (year : Int) (weekday day month hh mm fin : Str)
    (mo : Nat)
    (hw : weekday ≠ [] ∧ ∀ c ∈ weekday, isSpace c = false ∧ c ≠ middleDot)
    (hd : (day.length = 1 ∨ day.length = 2) ∧ (∀ c ∈ day, c.isDigit = true) ∧
      1 ≤ numeralValue day ∧ numeralValue day ≤ 31)
    (hmo : monthMap month = some mo)
    (hh' : (hh.length = 1 ∨ hh.length = 2) ∧ (∀ c ∈ hh, c.isDigit = true) ∧
      numeralValue hh ≤ 23)
    (hmm : mm.length = 2 ∧ (∀ c ∈ mm, c.isDigit = true) ∧ numeralValue mm ≤ 59)
    (hfin : middleDot ∉ fin) :
    parseMeetingTime year
      (weekday ++ ", ".toList ++ day ++ " ".toList ++ month ++ [middleDot] ++
        hh ++ ":".toList ++ mm ++ " – ".toList ++ fin) =
      Date year mo (numeralValue day) (numeralValue hh) (numeralValue mm) 0 0 ∧
    ((numeralValue day : Int) ≤ daysIn mo year →
      (Date year mo (numeralValue day) (numeralValue hh) (numeralValue mm) 0 0).Year = year ∧
      (Date year mo (numeralValue day) (numeralValue hh) (numeralValue mm) 0 0).Month = mo ∧
      (Date year mo (numeralValue day) (numeralValue hh) (numeralValue mm) 0 0).Day =
        numeralValue day ∧
      (Date year mo (numeralValue day) (numeralValue hh) (numeralValue mm) 0 0).Hour =
        numeralValue hh ∧
      (Date year mo (numeralValue day) (numeralValue hh) (numeralValue mm) 0 0).Minute =
        numeralValue mm ∧
      (Date year mo (numeralValue day) (numeralValue hh) (numeralValue mm) 0 0).Second = 0) := by
  refine ⟨?_, fun hday => Date_fields year mo (numeralValue day) (numeralValue hh)
    (numeralValue mm) (monthMap_bounds month mo hmo) ⟨hd.2.2.1, hday⟩ (by omega) (by omega)⟩
  obtain ⟨hwne, hwc⟩ := hw
  obtain ⟨hdlen, hddig, hd1, hd2⟩ := hd
  obtain ⟨hhlen, hhdig, hh2⟩ := hh'
  obtain ⟨hmlen, hmdig, hm2⟩ := hmm
  obtain ⟨hmone, hmoc⟩ := month_plain month mo hmo
  have hdne := ne_nil_of_length day hdlen
  have hhne := ne_nil_of_length hh hhlen
  have hmne : mm ≠ [] := by rintro rfl; simp at hmlen
  have hsp : isSpace ' ' = true := by decide
  have hcomma : isSpace ',' = false := by decide
  have hdash : isSpace enDash = false := by decide
  -- the two sides of the middle dot
  have hs : weekday ++ ", ".toList ++ day ++ " ".toList ++ month ++ [middleDot] ++
      hh ++ ":".toList ++ mm ++ " – ".toList ++ fin =
      ((weekday ++ [',']) ++ ' ' :: (day ++ ' ' :: month)) ++ middleDot ::
        (hh ++ ':' :: (mm ++ ' ' :: enDash :: ' ' :: fin)) := by
    simp [enDash]
  rw [hs]
  have hA : middleDot ∉ (weekday ++ [',']) ++ ' ' :: (day ++ ' ' :: month) := by
    simp only [List.mem_append, List.mem_cons, List.mem_singleton, List.mem_nil_iff, not_or]
    refine ⟨⟨fun h => (hwc _ h).2 rfl, by decide, ?_⟩, by decide,
      fun h => (digit_plain _ (hddig _ h)).2.1 rfl, by decide, fun h => (hmoc _ h).2 rfl⟩
    simp
  have hB : middleDot ∉ hh ++ ':' :: (mm ++ ' ' :: enDash :: ' ' :: fin) := by
    simp only [List.mem_append, List.mem_cons, not_or]
    exact ⟨fun h => (digit_plain _ (hhdig _ h)).2.1 rfl, by decide,
      fun h => (digit_plain _ (hmdig _ h)).2.1 rfl, by decide, by decide, by decide, hfin⟩
  have h1 := Split_two _ _ middleDot hA hB
  -- the date part
  have h2 : TrimSpace ((weekday ++ [',']) ++ ' ' :: (day ++ ' ' :: month)) =
      (weekday ++ [',']) ++ ' ' :: (day ++ ' ' :: month) := by
    apply TrimSpace_eq_self
    · intro c hc
      obtain ⟨w0, wt, rfl⟩ := List.exists_cons_of_ne_nil hwne
      simp only [List.cons_append, List.head?_cons, Option.some.injEq] at hc
      exact (hwc c (by rw [← hc]; simp)).1
    · intro c hc
      have e : (weekday ++ [',']) ++ ' ' :: (day ++ ' ' :: month) =
          ((weekday ++ [',']) ++ ' ' :: (day ++ [' '])) ++ month := by simp
      rw [e, List.getLast?_append_of_ne_nil _ hmone] at hc
      exact (hmoc c (List.mem_of_getLast?_eq_some hc)).1
  have h3 : Fields ((weekday ++ [',']) ++ ' ' :: (day ++ ' ' :: month)) =
      [weekday ++ [','], day, month] := by
    apply Fields_three _ _ _ _ _ _ _ _ (by simp) hdne hmone hsp hsp
    · intro c hc
      simp only [List.mem_append, List.mem_singleton] at hc
      rcases hc with hc | rfl
      · exact (hwc c hc).1
      · exact hcomma
    · exact fun c hc => (digit_plain c (hddig c hc)).1
    · exact fun c hc => (hmoc c hc).1
  have h4 := TrimSuffix_comma_digits day hddig
  have h5 := parseDay_numeral day hdlen hddig hd1 hd2
  -- the time part
  have hPdash : enDash ∉ hh ++ ':' :: (mm ++ [' ']) := by
    simp only [List.mem_append, List.mem_cons, List.mem_singleton, List.mem_nil_iff, not_or]
    exact ⟨fun h => (digit_plain _ (hhdig _ h)).2.2.1 rfl, by decide,
      fun h => (digit_plain _ (hmdig _ h)).2.2.1 rfl, by decide, by simp⟩
  have h6 : TrimSpace (hh ++ ':' :: (mm ++ ' ' :: enDash :: ' ' :: fin)) =
      (hh ++ ':' :: (mm ++ [' '])) ++ enDash :: (' ' :: fin).rdropWhile isSpace := by
    unfold TrimSpace
    rw [dropWhile_of_head]
    · have e : hh ++ ':' :: (mm ++ ' ' :: enDash :: ' ' :: fin) =
          (hh ++ ':' :: (mm ++ [' '])) ++ enDash :: (' ' :: fin) := by simp
      rw [e, rdropWhile_append_cons _ _ _ hdash]
    · intro c hc
      obtain ⟨a, t, rfl⟩ := List.exists_cons_of_ne_nil hhne
      simp only [List.cons_append, List.head?_cons, Option.some.injEq] at hc
      exact (digit_plain c (hhdig c (by rw [← hc]; simp))).1
  obtain ⟨rest, h7⟩ := Split_head (hh ++ ':' :: (mm ++ [' ']))
    ((' ' :: fin).rdropWhile isSpace) enDash hPdash
  have h8 : TrimSpace (hh ++ ':' :: (mm ++ [' '])) = hh ++ ':' :: mm := by
    unfold TrimSpace
    rw [dropWhile_of_head]
    · have e : hh ++ ':' :: (mm ++ [' ']) = (hh ++ ':' :: mm) ++ [' '] := by simp
      rw [e, List.rdropWhile_concat_pos _ _ _ hsp]
      apply rdropWhile_of_last
      intro c hc
      have e2 : hh ++ ':' :: mm = (hh ++ [':']) ++ mm := by simp
      rw [e2, List.getLast?_append_of_ne_nil _ hmne] at hc
      exact (digit_plain c (hmdig c (List.mem_of_getLast?_eq_some hc))).1
    · intro c hc
      obtain ⟨a, t, rfl⟩ := List.exists_cons_of_ne_nil hhne
      simp only [List.cons_append, List.head?_cons, Option.some.injEq] at hc
      exact (digit_plain c (hhdig c (by rw [← hc]; simp))).1
  have h9 : Split (hh ++ ':' :: mm) ':' = [hh, mm] :=
    Split_two _ _ ':' (fun h => (digit_plain _ (hhdig _ h)).2.2.2.1 rfl)
      (fun h => (digit_plain _ (hmdig _ h)).2.2.2.1 rfl)
  have h10 := parseHour_numeral hh hhlen hhdig hh2
  have h11 := parseMinute_numeral mm hmlen hmdig hm2
  unfold parseMeetingTime
  rw [h1]
  simp only [h2, h3, h4, h5, h6, h7, h8, h9, h10, h11, hmo, Option.getD_some]

/-- C8 (as amended) at the schedule line "Monday, 27 October⋅14:30 – 15:00" in the year
2025. -/
theorem parseMeetingTime_schedule_line_witness :
    parseMeetingTime 2025 "Monday, 27 October⋅14:30 – 15:00".toList
      = Date 2025 10 27 14 30 0 0 ∧
    (Date 2025 10 27 14 30 0 0).Year = 2025 ∧ (Date 2025 10 27 14 30 0 0).Month = 10 ∧
    (Date 2025 10 27 14 30 0 0).Day = 27 ∧ (Date 2025 10 27 14 30 0 0).Hour = 14 ∧
    (Date 2025 10 27 14 30 0 0).Minute = 30 ∧ (Date 2025 10 27 14 30 0 0).Second = 0 :=
  have h := parseMeetingTime_schedule_line 2025 "Monday".toList "27".toList "October".toList
    "14".toList "30".toList "15:00".toList 10
    ⟨by decide, by decide⟩ ⟨by decide, by decide, by decide, by decide⟩ (by decide)
    ⟨by decide, by decide, by decide⟩ ⟨by decide, by decide, by decide⟩ (by decide)
  ⟨h.1, h.2 (by decide)⟩

set_option maxRecDepth 100000 in
/-- C8 (as stated) fails: "Wednesday, 31 February⋅09:05 – 10:00" has the stated form, with
day numeral 31 and the month name "February", number 2, yet in 2025 the result has month
3 and day 3: `time.Date` carries the days beyond the end of February into March. And
with a middle dot in the end part, "Monday, 27 October⋅14:30 – 15:00⋅16:00", the result is
the zero time. -/
theorem parseMeetingTime_day_overflow_counterexample :
    monthMap "February".toList = some 2 ∧
    parseMeetingTime 2025 "Wednesday, 31 February⋅09:05 – 10:00".toList
      = Date 2025 2 31 9 5 0 0 ∧
    (parseMeetingTime 2025 "Wednesday, 31 February⋅09:05 – 10:00".toList).Month = 3 ∧
    (parseMeetingTime 2025 "Wednesday, 31 February⋅09:05 – 10:00".toList).Day = 3 ∧
    (parseMeetingTime 2025 "Wednesday, 31 February⋅09:05 – 10:00".toList).Year = 2025 ∧
    parseMeetingTime 2025 "Monday, 27 October⋅14:30 – 15:00⋅16:00".toList = Time.zero := by
  refine ⟨by decide, by decide, by decide, by decide, by decide, by decide⟩

/-! ## The renderers -/

theorem participants_loop (org : Str) (l : List Attendee) :
    ∀ md : Str,
      l.foldl (fun md attendee =>
        if attendee.Name ≠ [] && attendee.Name ≠ org then
          WriteString md ("  - ".toList ++ attendee.Name ++ "\n".toList)
        else md) md =
      md ++ (((l.filter (fun a => decide (a.Name ≠ [] ∧ a.Name ≠ org))).map
        (fun a => a.Name)).map (fun e => "  - ".toList ++ e ++ "\n".toList)).flatten := by
  induction l with
  | nil => intro md; simp
  | cons x t ih =>
    intro md
    rw [List.foldl_cons, ih]
    by_cases h : x.Name ≠ [] ∧ x.Name ≠ org
    · have h1 : (decide (x.Name ≠ []) && decide (x.Name ≠ org)) = true := by simpa using h
      rw [if_pos h1, List.filter_cons_of_pos (by simpa using h)]
      simp [WriteString]
    · have h1 : ¬ (decide (x.Name ≠ []) && decide (x.Name ≠ org)) = true := by simpa using h
      rw [if_neg h1, List.filter_cons_of_neg (by simpa using h)]

theorem mdParticipants_eq (meeting : Meeting) (md : Str) :
    mdParticipants meeting md =
      md ++ (if meeting.Organizer ≠ [] ∨ meeting.Attendees ≠ [] then
        "participants:\n".toList ++
          ((participantEntries meeting).map
            (fun e => "  - ".toList ++ e ++ "\n".toList)).flatten
      else []) := by
  unfold mdParticipants participantEntries
  by_cases ho : meeting.Organizer = []
  · by_cases ha : meeting.Attendees = []
    · have hc : ¬ (decide (meeting.Attendees.length > 0) ||
          decide (meeting.Organizer ≠ [])) = true := by simp [ho, ha]
      rw [if_neg hc, if_neg (by simp [ho, ha])]
      simp
    · have hc : (decide (meeting.Attendees.length > 0) ||
          decide (meeting.Organizer ≠ [])) = true := by
        simp [List.length_pos.2 ha]
      rw [if_pos hc, if_pos (Or.inr ha)]
      dsimp only
      rw [if_neg (by simp [ho]), if_neg (by simp [ho]), participants_loop]
      simp [WriteString]
  · have hc : (decide (meeting.Attendees.length > 0) || decide (meeting.Organizer ≠ [])) =
        true := by simp [ho]
    rw [if_pos hc, if_pos (Or.inl ho)]
    dsimp only
    rw [if_pos ho, if_pos ho, participants_loop]
    simp [WriteString]

theorem foldl_writer {α : Type} (g : Str → α → Str) (h : α → Str)
    (hg : ∀ md x, g md x = md ++ h x) (l : List α) :
    ∀ md : Str, l.foldl g md = md ++ (l.map h).flatten := by
  induction l with
  | nil => intro md; simp
  | cons x t ih =>
    intro md
    rw [List.foldl_cons, ih, hg]
    simp

theorem mdDetails_append (meeting : Meeting) (md : Str) :
    mdDetails meeting md = md ++ mdDetails meeting [] := by
  unfold mdDetails
  by_cases c1 : meeting.DateTime = [] <;> by_cases c2 : meeting.Frequency = [] <;>
    by_cases c3 : meeting.MeetLink = [] <;> by_cases c4 : meeting.PhoneInfo = [] <;>
    by_cases c5 : meeting.Organizer = [] <;>
    simp [c1, c2, c3, c4, c5, WriteString]

theorem mdAttendees_append (meeting : Meeting) (md : Str) :
    mdAttendees meeting md = md ++ mdAttendees meeting [] := by
  unfold mdAttendees
  have hg : ∀ (md : Str) (attendee : Attendee),
      (let md := WriteString md ("- **".toList ++ attendee.Name ++ "**".toList)
       let md :=
         if attendee.Status ≠ [] then
           WriteString md (" (".toList ++ attendee.Status ++ ")".toList)
         else md
       let md :=
         if attendee.Location ≠ [] then WriteString md (" - ".toList ++ attendee.Location)
         else md
       WriteString md "\n".toList) =
      md ++ (let md := WriteString [] ("- **".toList ++ attendee.Name ++ "**".toList)
       let md :=
         if attendee.Status ≠ [] then
           WriteString md (" (".toList ++ attendee.Status ++ ")".toList)
         else md
       let md :=
         if attendee.Location ≠ [] then WriteString md (" - ".toList ++ attendee.Location)
         else md
       WriteString md "\n".toList) := by
    intro md attendee
    by_cases c1 : attendee.Status = [] <;> by_cases c2 : attendee.Location = [] <;>
      simp [c1, c2, WriteString]
  dsimp only
  rw [foldl_writer _ _ hg, foldl_writer _ _ hg]
  simp [WriteString]

theorem links_loop (pre : Str) (l : List Str) :
    ∀ md : Str, l.foldl (fun md link => WriteString md (pre ++ link ++ "\n".toList)) md =
      md ++ (l.map (fun link => pre ++ link ++ "\n".toList)).flatten :=
  foldl_writer _ _ (fun _ _ => rfl) l

theorem mdBody_append (meeting : Meeting) (d a : Bool) (md : Str) :
    mdBody meeting d a md = md ++ mdBody meeting d a [] := by
  unfold mdBody
  dsimp only
  simp only [links_loop]
  cases d <;> cases a <;>
    by_cases c1 : meeting.Attendees.length > 0 <;>
    by_cases c2 : meeting.Description = [] <;>
    by_cases c3 : meeting.Links.length > 0 <;>
    simp only [c1, c2, c3, if_true, if_false, Bool.true_and, Bool.false_and, decide_True,
      decide_False, Bool.false_eq_true, ne_eq, not_true_eq_false, not_false_eq_true,
      mdDetails_append meeting (WriteString _ _), mdAttendees_append meeting (WriteString _ _),
      mdAttendees_append meeting (_ ++ _)] <;>
    simp only [WriteString, List.append_assoc, List.nil_append]

/-- C14: for a meeting with only `Title` set, `generateMarkdown(m, false, false)` is the
front matter with the `meeting` tag and the date stamp, the title heading, the empty Notes
section and the empty Action Items section, and nothing else. -/
theorem generateMarkdown_title_only (toLower : Char → Char) (today t : Str) :
    generateMarkdown toLower today { Title := t } false false =
      "---\ntags: [meeting]\ndate: ".toList ++ today ++ "\n---\n".toList ++
      "\n# ".toList ++ t ++ "\n".toList ++
      "\n## Notes\n<!-- Add your meeting notes here -->\n".toList ++
      "\n## Action Items\n- [ ] \n".toList := by
  simp [generateMarkdown, mdFrontMatter, mdParticipants, mdBody, WriteString, Time.IsZero]

/-- C14 at the meeting `Meeting{Title: "Sync"}` on the day 2026-11-04. -/
theorem generateMarkdown_title_only_witness :
    generateMarkdown Char.toLower "2026-11-04".toList { Title := "Sync".toList } false false =
      ("---\ntags: [meeting]\ndate: 2026-11-04\n---\n\n# Sync\n\n## Notes\n" ++
        "<!-- Add your meeting notes here -->\n\n## Action Items\n- [ ] \n").toList :=
  (generateMarkdown_title_only Char.toLower "2026-11-04".toList "Sync".toList).trans
    (by decide)

/-- C15: the markdown output is the front matter up to the organiser line, then the
participants block, then the rest; the block is present exactly when the organizer is
set or there are attendees, and lists the organizer (when set) followed by the names of
the attendees whose name is set and differs from the organizer, in the order of
`Attendees`; nothing before the end of the block depends on the two toggles. -/
theorem generateMarkdown_participants (toLower : Char → Char) (today : Str)
    (meeting : Meeting) (includeDetails includeAttendees : Bool) :
    generateMarkdown toLower today meeting includeDetails includeAttendees =
      mdFrontMatter toLower today meeting [] ++
      (if meeting.Organizer ≠ [] ∨ meeting.Attendees ≠ [] then
        "participants:\n".toList ++
          ((participantEntries meeting).map
            (fun e => "  - ".toList ++ e ++ "\n".toList)).flatten
      else []) ++
      mdBody meeting includeDetails includeAttendees [] := by
  unfold generateMarkdown
  dsimp only
  rw [mdBody_append, mdParticipants_eq]

set_option maxRecDepth 100000 in
/-- C15 at a concrete meeting: organizer first, the attendee equal to the organizer left
out, a repeated name kept twice. -/
theorem generateMarkdown_participants_witness :
    participantEntries
      { Organizer := "Jane Doe".toList,
        Attendees := [{ Name := "Bob Ray".toList }, { Name := "Jane Doe".toList },
          { Name := [] }, { Name := "Bob Ray".toList }] } =
      ["Jane Doe".toList, "Bob Ray".toList, "Bob Ray".toList] ∧
    generateMarkdown Char.toLower "2026-11-04".toList
      { Title := "Sync".toList,
        Organizer := "Jane Doe".toList,
        Attendees := [{ Name := "Bob Ray".toList }, { Name := "Jane Doe".toList },
          { Name := [] }, { Name := "Bob Ray".toList }] } false false =
      ("---\ntags: [meeting, jane]\ndate: 2026-11-04\norganiser: Jane Doe\n" ++
        "participants:\n  - Jane Doe\n  - Bob Ray\n  - Bob Ray\n---\n\n# Sync\n\n## Notes\n" ++
        "<!-- Add your meeting notes here -->\n\n## Action Items\n- [ ] \n").toList :=
  ⟨by decide,
    (generateMarkdown_participants Char.toLower "2026-11-04".toList _ false false).trans
      (by decide)⟩

/-- C19: with both toggles off, the plain-text output is the same for two meetings that
agree on `Title`, `Description` and `Links`. -/
theorem generatePlainText_depends (m1 m2 : Meeting) (hT : m1.Title = m2.Title)
    (hD : m1.Description = m2.Description) (hL : m1.Links = m2.Links) :
    generatePlainText m1 false false = generatePlainText m2 false false := by
  unfold generatePlainText
  simp only [hT, hD, hL, Bool.false_eq_true, if_false, Bool.false_and]

/-- C19 at two meetings that differ in every other field. -/
theorem generatePlainText_depends_witness :
    generatePlainText { Title := "Sync".toList, Links := ["https://a.b".toList] } false false =
      generatePlainText
        { Title := "Sync".toList, Links := ["https://a.b".toList],
          DateTime := "Monday".toList, MeetingTime := Date 2025 10 27 14 30 0 0,
          Frequency := "Weekly".toList, Location := "Home".toList,
          MeetLink := "https://zoom.us/j/1".toList, PhoneInfo := "+44".toList,
          Organizer := "Jane Doe".toList, Attendees := [{ Name := "Bob Ray".toList }] }
        false false :=
  generatePlainText_depends _ _ rfl rfl rfl

theorem textDetails_append (meeting : Meeting) (text : Str) :
    textDetails meeting text = text ++ textDetails meeting [] := by
  unfold textDetails
  by_cases c1 : meeting.DateTime = [] <;> by_cases c2 : meeting.Frequency = [] <;>
    by_cases c3 : meeting.MeetLink = [] <;> by_cases c4 : meeting.PhoneInfo = [] <;>
    by_cases c5 : meeting.Organizer = [] <;>
    simp [c1, c2, c3, c4, c5, WriteString]

theorem textAttendees_append (meeting : Meeting) (text : Str) :
    textAttendees meeting text = text ++ textAttendees meeting [] := by
  unfold textAttendees
  have hg : ∀ (text : Str) (attendee : Attendee),
      (let text := WriteString text ("- ".toList ++ attendee.Name)
       let text :=
         if attendee.Status ≠ [] then
           WriteString text (" (".toList ++ attendee.Status ++ ")".toList)
         else text
       let text :=
         if attendee.Location ≠ [] then
           WriteString text (" - ".toList ++ attendee.Location)
         else text
       WriteString text "\n".toList) =
      text ++ (let text := WriteString [] ("- ".toList ++ attendee.Name)
       let text :=
         if attendee.Status ≠ [] then
           WriteString text (" (".toList ++ attendee.Status ++ ")".toList)
         else text
       let text :=
         if attendee.Location ≠ [] then
           WriteString text (" - ".toList ++ attendee.Location)
         else text
       WriteString text "\n".toList) := by
    intro text attendee
    by_cases c1 : attendee.Status = [] <;> by_cases c2 : attendee.Location = [] <;>
      simp [c1, c2, WriteString]
  dsimp only
  rw [foldl_writer _ _ hg, foldl_writer _ _ hg]
  simp [WriteString]

theorem Repeat_single (c : Char) (n : Nat) : Repeat [c] n = List.replicate n c := by
  unfold Repeat
  induction n with
  | zero => rfl
  | succ n ih => simp [List.replicate_succ, ih]

/-- The plain-text output, section by section. -/
theorem generatePlainText_eq (meeting : Meeting) (d a : Bool) :
    generatePlainText meeting d a =
      meeting.Title ++ "\n".toList ++ List.replicate (len meeting.Title) '=' ++ "\n".toList ++
      ((if d then textDetails meeting [] else []) ++
       (if a && meeting.Attendees.length > 0 then textAttendees meeting [] else []) ++
       (if meeting.Description ≠ [] then
          "\nDescription:\n".toList ++ meeting.Description ++ "\n".toList else []) ++
       "\nNotes:\n(Add your meeting notes here)\n".toList ++
       (if meeting.Links.length > 0 then
          "\nLinks:\n".toList ++
            (meeting.Links.map (fun link => "- ".toList ++ link ++ "\n".toList)).flatten
        else []) ++
       "\nAction Items:\n- [ ] \n".toList) := by
  unfold generatePlainText
  dsimp only
  have hr : Repeat "=".toList (len meeting.Title) = List.replicate (len meeting.Title) '=' :=
    Repeat_single '=' _
  have e1 : "\nNotes:\n(Add your meeting notes here)\n".toList =
      "\nNotes:\n".toList ++ "(Add your meeting notes here)\n".toList := by decide
  have e2 : "\nAction Items:\n- [ ] \n".toList =
      "\nAction Items:\n".toList ++ "- [ ] \n".toList := by decide
  rw [hr, e1, e2]
  simp only [links_loop]
  cases d <;> cases a <;>
    by_cases c1 : meeting.Attendees.length > 0 <;>
    by_cases c2 : meeting.Description = [] <;>
    by_cases c3 : meeting.Links.length > 0 <;>
    simp only [c1, c2, c3, if_true, if_false, Bool.true_and, Bool.false_and, decide_True,
      decide_False, Bool.false_eq_true, ne_eq, not_true_eq_false, not_false_eq_true,
      textDetails_append meeting (WriteString _ _),
      textAttendees_append meeting (WriteString _ _),
      textAttendees_append meeting (_ ++ _)] <;>
    simp only [WriteString, List.append_assoc, List.nil_append, List.append_nil]

/-- C16: the second line of the plain-text output is made of "=" only, as many as the
title has UTF-8 bytes (Go `len`), which is not the number of characters of a title with
non-ASCII characters: under the 9 characters of "Café sync" the code writes 10 "=". -/
theorem generatePlainText_underline :
    (∀ (meeting : Meeting) (d a : Bool), ∃ rest : Str,
      generatePlainText meeting d a =
        meeting.Title ++ "\n".toList ++ List.replicate (len meeting.Title) '=' ++
          "\n".toList ++ rest) ∧
    (Split (generatePlainText { Title := "Café sync".toList } false false) '\n').getD 1 [] =
      List.replicate 10 '=' ∧
    "Café sync".toList.length = 9 ∧ len "Café sync".toList = 10 := by
  refine ⟨fun meeting d a => ⟨_, generatePlainText_eq meeting d a⟩, by decide, by decide,
    by decide⟩

/-! ## Links -/

theorem applyRule_Links (year : Int) (lines : List Str) (i : Nat) (line : Str)
    (r : Rule) (st : ScanState) :
    (applyRule year lines i line r st).meeting.Links =
      st.meeting.Links ++ (if r = .meetLink then [line] else []) := by
  cases r <;> simp [applyRule] <;> split <;> simp

theorem applyRule_MeetLink (year : Int) (lines : List Str) (i : Nat) (line : Str)
    (r : Rule) (st : ScanState) :
    (applyRule year lines i line r st).meeting.MeetLink =
      if r = .meetLink then line else st.meeting.MeetLink := by
  cases r <;> simp [applyRule] <;> split <;> rfl

theorem addLinks_Links (line : Str) (st : ScanState) :
    (addLinks line st).meeting.Links =
      st.meeting.Links ++ (if isURLLine line = true then urlWords line else []) := by
  unfold addLinks; split <;> simp

theorem scanBefore_Links_succ (year : Int) (lines : List Str) (k : Nat)
    (h : k < lines.length) :
    (scanBefore year lines (k + 1)).meeting.Links =
      (scanBefore year lines k).meeting.Links ++
        (if ruleAt year lines k = .meetLink then [lineAt lines k]
         else if (ruleAt year lines k).afterURLBlock = true ∧ isURLLine (lineAt lines k) = true
           then urlWords (lineAt lines k) else []) := by
  rw [scanBefore_step year lines k h, applyRule_Links]
  by_cases h1 : ruleAt year lines k = .meetLink
  · rw [h1]; simp [Rule.afterURLBlock]
  · rw [if_neg h1, if_neg h1, List.append_nil]
    by_cases h2 : (ruleAt year lines k).afterURLBlock = true
    · rw [if_pos h2, addLinks_Links]
      by_cases h3 : isURLLine (lineAt lines k) = true
      · rw [if_pos h3, if_pos ⟨h2, h3⟩]
      · rw [if_neg h3, if_neg (fun hc => h3 hc.2)]
    · rw [if_neg h2, if_neg (fun hc => h2 hc.1), List.append_nil]

theorem scanBefore_MeetLink_succ (year : Int) (lines : List Str) (k : Nat)
    (h : k < lines.length) :
    (scanBefore year lines (k + 1)).meeting.MeetLink =
      if ruleAt year lines k = .meetLink then lineAt lines k
      else (scanBefore year lines k).meeting.MeetLink := by
  rw [scanBefore_step year lines k h, applyRule_MeetLink,
    (pre_frame _ _ _).2.2.2.2.2.2.2.2.2.1]

theorem Links_mono (year : Int) (lines : List Str) (j k : Nat) (hjk : j ≤ k)
    (hk : k ≤ lines.length) :
    ∃ rest, (scanBefore year lines k).meeting.Links =
      (scanBefore year lines j).meeting.Links ++ rest := by
  induction k with
  | zero =>
    have : j = 0 := by omega
    subst this; exact ⟨[], by simp⟩
  | succ k ih =>
    by_cases hj : j = k + 1
    · subst hj; exact ⟨[], by simp⟩
    · obtain ⟨rest, hrest⟩ := ih (by omega) (by omega)
      rw [scanBefore_Links_succ year lines k (by omega), hrest]
      exact ⟨_, List.append_assoc _ _ _⟩

theorem MeetLink_mem_Links (year : Int) (lines : List Str) (k : Nat) (hk : k ≤ lines.length) :
    (scanBefore year lines k).meeting.MeetLink = [] ∨
      (scanBefore year lines k).meeting.MeetLink ∈ (scanBefore year lines k).meeting.Links := by
  induction k with
  | zero => left; rfl
  | succ k ih =>
    rw [scanBefore_MeetLink_succ year lines k (by omega),
      scanBefore_Links_succ year lines k (by omega)]
    by_cases h1 : ruleAt year lines k = .meetLink
    · rw [if_pos h1, if_pos h1]; right; simp
    · rw [if_neg h1, if_neg h1]
      rcases ih (by omega) with h | h
      · left; exact h
      · right; exact List.mem_append_left _ h

theorem HasPrefix_Contains (s p : Str) (h : HasPrefix s p = true) : Contains s p = true := by
  rw [Contains_iff_sub]
  unfold HasPrefix at h
  rw [ List.isPrefixOf_iff_prefix] at h
  obtain ⟨t, ht⟩ := h
  exact ⟨[], t, by simpa using ht⟩

/-- C11: a non-title line that matches none of the schedule, recurrence and video-link
rules and contains "http://" or "https://" appends to `Links` exactly its
whitespace-delimited tokens that begin with "http://" or "https://", in order, and they
stay in the `Links` of the result; when the line is one such token, the single-URL rule
ends the iteration: `Attendees` and the description lines are left as they were, also in
description mode. -/
theorem url_rule_links (year : Int) (input : Str) (k : Nat)
    (hk : k < (Split input '\n').length)
    (hreach : reaches (scanBefore year (Split input '\n') k) (lineAt (Split input '\n') k)
      .singleURL)
    (hurl : Contains (lineAt (Split input '\n') k) "http://".toList = true ∨
      Contains (lineAt (Split input '\n') k) "https://".toList = true) :
    (scanBefore year (Split input '\n') (k + 1)).meeting.Links =
      (scanBefore year (Split input '\n') k).meeting.Links ++
        (Fields (lineAt (Split input '\n') k)).filter (fun word =>
          HasPrefix word "http://".toList || HasPrefix word "https://".toList) ∧
    (∃ rest, (parseMeeting year input).1.Links =
      (scanBefore year (Split input '\n') (k + 1)).meeting.Links ++ rest) ∧
    (Fields (lineAt (Split input '\n') k) = [lineAt (Split input '\n') k] →
      (HasPrefix (lineAt (Split input '\n') k) "http://".toList = true ∨
        HasPrefix (lineAt (Split input '\n') k) "https://".toList = true) →
      ruleAt year (Split input '\n') k = .singleURL ∧
      (scanBefore year (Split input '\n') (k + 1)).meeting.Attendees =
        (scanBefore year (Split input '\n') k).meeting.Attendees ∧
      (scanBefore year (Split input '\n') (k + 1)).descriptionLines =
        (scanBefore year (Split input '\n') k).descriptionLines) := by
  rw [(parseMeeting_fields year input).2.2.2.2.2.2.1, ← scanBefore_length]
  generalize Split input '\n' = lines at hk hreach hurl ⊢
  have hU : isURLLine (lineAt lines k) = true := by
    unfold isURLLine
    simpa only [Bool.or_eq_true] using hurl
  have h2 : isSchedule (lineAt lines k) = false := by
    simpa only [Bool.not_eq_true] using hreach.2.2.1
  have h3 : isFrequency (lineAt lines k) = false := by
    simpa only [Bool.not_eq_true] using hreach.2.2.2.1
  have h4 : isMeetLink (lineAt lines k) = false := by
    simpa only [Bool.not_eq_true] using hreach.2.2.2.2
  have hafter : (ruleAt year lines k).afterURLBlock = true := by
    rw [ruleAt_eq year lines k hk]
    exact ruleOf_afterURLBlock _ _ hreach.1 hreach.2.1 h2 h3 h4
  have hnm : ruleAt year lines k ≠ .meetLink := by
    intro hc; rw [hc] at hafter; exact absurd hafter (by decide)
  refine ⟨?_, Links_mono year lines (k + 1) lines.length (by omega) (Nat.le_refl _), ?_⟩
  · rw [scanBefore_Links_succ year lines k hk, if_neg hnm, if_pos ⟨hafter, hU⟩]
    rfl
  · intro hone hpre
    have hrule : ruleAt year lines k = .singleURL := by
      rw [ruleAt_iff year lines k hk]
      refine ⟨hreach, hU, ?_⟩
      unfold isSingleURL
      rw [hone]
      simpa only [List.length_singleton, decide_True, Bool.true_and, Bool.or_eq_true]
        using hpre
    refine ⟨hrule, ?_, ?_⟩
    · rw [scanBefore_Attendees_succ year lines k hk, hrule]; simp
    · rw [scanBefore_descriptionLines_succ year lines k hk, hrule]; simp

/-- C11 at a concrete input: "https://example.com" in description mode. -/
theorem url_rule_links_witness :
    (scanBefore 2025 (Split "Sync\nHi, all\nhttps://example.com".toList '\n') 2).inDescription
      = true ∧
    (scanBefore 2025 (Split "Sync\nHi, all\nhttps://example.com".toList '\n') 3).meeting.Links
      = ["https://example.com".toList] ∧
    ruleAt 2025 (Split "Sync\nHi, all\nhttps://example.com".toList '\n') 2 = .singleURL ∧
    (scanBefore 2025 (Split "Sync\nHi, all\nhttps://example.com".toList '\n') 3).descriptionLines
      = ["Hi, all".toList] :=
  have h := url_rule_links 2025 "Sync\nHi, all\nhttps://example.com".toList 2 (by decide)
    (by simp only [reaches]; decide) (Or.inr (by decide))
  ⟨by decide, h.1.trans (by decide), (h.2.2 (by decide) (Or.inr (by decide))).1,
    (h.2.2 (by decide) (Or.inr (by decide))).2.2.trans (by decide)⟩

/-- C12: in the meeting returned by `parseMeeting`, a non-empty `MeetLink` is an element
of `Links`. -/
theorem parseMeeting_meetLink_mem (year : Int) (input : Str)
    (h : (parseMeeting year input).1.MeetLink ≠ []) :
    (parseMeeting year input).1.MeetLink ∈ (parseMeeting year input).1.Links := by
  rw [(parseMeeting_fields year input).2.2.2.2.2.2.2,
    (parseMeeting_fields year input).2.2.2.2.2.2.1, ← scanBefore_length] at *
  exact (MeetLink_mem_Links year _ _ (Nat.le_refl _)).resolve_left h

/-- C12 at a concrete input: a Zoom line followed by a bare URL line. -/
theorem parseMeeting_meetLink_mem_witness :
    (parseMeeting 2025 "Sync\nhttps://zoom.us/j/1\nhttps://example.com".toList).1.MeetLink
      = "https://zoom.us/j/1".toList ∧
    (parseMeeting 2025 "Sync\nhttps://zoom.us/j/1\nhttps://example.com".toList).1.MeetLink ∈
      (parseMeeting 2025 "Sync\nhttps://zoom.us/j/1\nhttps://example.com".toList).1.Links :=
  ⟨by decide, parseMeeting_meetLink_mem 2025 _ (by decide)⟩

/-! ## The organizer -/

theorem applyRule_Organizer (year : Int) (lines : List Str) (i : Nat) (line : Str)
    (r : Rule) (st : ScanState) :
    (applyRule year lines i line r st).meeting.Organizer =
      if r = .organizerLabel ∧ i + 1 < lines.length then TrimSpace (lines.getD (i + 1) [])
      else if r = .createdBy ∧ TrimSpace (TrimPrefix line "Created by:".toList) ≠ [] then
        TrimSpace (TrimPrefix line "Created by:".toList)
      else st.meeting.Organizer := by
  cases r
  case organizerLabel =>
    by_cases h : i + 1 < lines.length
    · have h1 : lines[i + 1]? = some lines[i + 1] := List.getElem?_eq_getElem h
      rw [if_pos ⟨rfl, h⟩, getD_eq_getElem lines (i + 1) h]
      simp only [applyRule, h1]
    · have h1 : lines[i + 1]? = none := List.getElem?_eq_none (by omega)
      rw [if_neg (fun hc => h hc.2), if_neg (fun hc => Rule.noConfusion hc.1)]
      simp only [applyRule, h1]
  case createdBy =>
    rw [if_neg (fun hc => Rule.noConfusion hc.1)]
    by_cases h : TrimSpace (TrimPrefix line "Created by:".toList) = []
    · rw [if_neg (fun hc => hc.2 h)]
      simp only [applyRule, h, ne_eq, not_true_eq_false, if_false]
    · rw [if_pos ⟨rfl, h⟩]
      simp only [applyRule, h, ne_eq, not_false_eq_true, if_true]
  all_goals
    rw [if_neg (fun hc => Rule.noConfusion hc.1), if_neg (fun hc => Rule.noConfusion hc.1)]
    simp only [applyRule]
    try (split <;> rfl)

theorem scanBefore_Organizer_succ (year : Int) (lines : List Str) (k : Nat)
    (h : k < lines.length) :
    (scanBefore year lines (k + 1)).meeting.Organizer =
      if ruleAt year lines k = .organizerLabel ∧ k + 1 < lines.length then
        lineAt lines (k + 1)
      else if ruleAt year lines k = .createdBy ∧
          TrimSpace (TrimPrefix (lineAt lines k) "Created by:".toList) ≠ [] then
        TrimSpace (TrimPrefix (lineAt lines k) "Created by:".toList)
      else (scanBefore year lines k).meeting.Organizer := by
  rw [scanBefore_step year lines k h, applyRule_Organizer,
    (pre_frame _ _ _).2.2.2.2.2.2.2.1]
  rfl

theorem Organizer_kept (year : Int) (lines : List Str) (k : Nat)
    (hlast : ∀ j, k < j → j < lines.length →
      ¬ (ruleAt year lines j = .organizerLabel ∧ j + 1 < lines.length) ∧
      ¬ (ruleAt year lines j = .createdBy ∧
          TrimSpace (TrimPrefix (lineAt lines j) "Created by:".toList) ≠ [])) :
    ∀ n, k + 1 ≤ n → n ≤ lines.length →
      (scanBefore year lines n).meeting.Organizer =
        (scanBefore year lines (k + 1)).meeting.Organizer := by
  intro n
  induction n with
  | zero => intro h; omega
  | succ n ih =>
    intro h1 h2
    by_cases hn : n = k
    · subst hn; rfl
    · rw [scanBefore_Organizer_succ year lines n (by omega),
        if_neg (hlast n (by omega) (by omega)).1, if_neg (hlast n (by omega) (by omega)).2]
      exact ih (by omega) (by omega)

/-- C13 (as amended): when a line is consumed by the organizer-label rule, is not the
last line of the input, and no later line sets the organizer again (an organizer label
that is not the last line, or a `Created by:` line with a non-empty remainder),
`Organizer` in the result is the line of the input right after the label, blank or not,
with surrounding whitespace trimmed. -/
theorem organizer_label_next_line (year : Int) (input : Str) (k : Nat)
    (hlabel : ruleAt year (Split input '\n') k = .organizerLabel)
    (hnext : k + 1 < (Split input '\n').length)
    (hlast : ∀ j, k < j → j < (Split input '\n').length →
      ¬ (ruleAt year (Split input '\n') j = .organizerLabel ∧
          j + 1 < (Split input '\n').length) ∧
      ¬ (ruleAt year (Split input '\n') j = .createdBy ∧
          TrimSpace (TrimPrefix (lineAt (Split input '\n') j) "Created by:".toList) ≠ [])) :
    (parseMeeting year input).1.Organizer = lineAt (Split input '\n') (k + 1) := by
  rw [(parseMeeting_fields year input).2.2.2.2.2.1, ← scanBefore_length]
  generalize Split input '\n' = lines at hlabel hnext hlast ⊢
  rw [Organizer_kept year lines k hlast lines.length (by omega) (Nat.le_refl _),
    scanBefore_Organizer_succ year lines k (by omega), if_pos ⟨hlabel, hnext⟩]

/-- C13 (as amended) at a concrete input: the label, the organizer, then an attendee. -/
theorem organizer_label_next_line_witness :
    ruleAt 2025 (Split "Sync\nOrganizer\n  Jane Doe \nBob Ray".toList '\n') 1
      = .organizerLabel ∧
    (parseMeeting 2025 "Sync\nOrganizer\n  Jane Doe \nBob Ray".toList).1.Organizer
      = "Jane Doe".toList :=
  ⟨by decide,
    (organizer_label_next_line 2025 "Sync\nOrganizer\n  Jane Doe \nBob Ray".toList 1
      (by decide) (by decide) (fun j h1 h2 => by
        have h3 : j < 4 := h2
        have h4 : j = 2 ∨ j = 3 := by omega
        rcases h4 with h | h <;> subst h <;> decide)).trans (by decide)⟩

/-- C13 (as stated) fails: in "Sync / Organizer / (blank) / Jane Doe" the label line is
consumed by the organizer-label rule, the next non-blank line after it is "Jane Doe" and
no later line sets the organizer, yet `Organizer` is empty: the code takes the line right
after the label, which is blank. -/
theorem organizer_label_blank_counterexample :
    ruleAt 2025 (Split "Sync\nOrganizer\n\nJane Doe".toList '\n') 1 = .organizerLabel ∧
    lineAt (Split "Sync\nOrganizer\n\nJane Doe".toList '\n') 2 = [] ∧
    lineAt (Split "Sync\nOrganizer\n\nJane Doe".toList '\n') 3 = "Jane Doe".toList ∧
    ruleAt 2025 (Split "Sync\nOrganizer\n\nJane Doe".toList '\n') 2 = .blank ∧
    ruleAt 2025 (Split "Sync\nOrganizer\n\nJane Doe".toList '\n') 3 = .attendee ∧
    (parseMeeting 2025 "Sync\nOrganizer\n\nJane Doe".toList).1.Organizer = [] ∧
    (parseMeeting 2025 "Sync\nOrganizer\n\nJane Doe".toList).1.Organizer
      ≠ "Jane Doe".toList := by
  refine ⟨by decide, by decide, by decide, by decide, by decide, by decide, by decide⟩

/-! ## The start of the description -/

theorem scanLine_description (year : Int) (lines : List Str) (i : Nat) (raw : Str)
    (st : ScanState) :
    (scanLine year lines i raw st).2.inDescription =
      (st.inDescription || decide ((scanLine year lines i raw st).1 = .descriptionStart)) ∧
    (scanLine year lines i raw st).2.descriptionLines =
      st.descriptionLines ++
        (if (scanLine year lines i raw st).1 = .descriptionStart ∨
            (scanLine year lines i raw st).1 = .descriptionCont then [TrimSpace raw]
          else []) := by
  rw [scanLine_eq]
  simp only [applyRule_inDescription, applyRule_descriptionLines, (pre_frame _ _ _).2.1,
    (pre_frame _ _ _).2.2.1, and_self]

/-- C17 (as amended): a non-title line that is not consumed by any of rules 2 to 9 of
`parseMeeting` switches the scan into description mode, and becomes the next line of the
description, if and only if it contains "Hi," or it is longer than 50 bytes of UTF-8 and
contains at least one space; otherwise the mode is left as it was. -/
theorem description_start_bytes (year : Int) (lines : List Str) (i : Nat) (raw : Str)
    (st : ScanState) (hreach : reaches st (TrimSpace raw) .descriptionStart) :
    ((scanLine year lines i raw st).1 = .descriptionStart ↔
      (Contains (TrimSpace raw) "Hi,".toList = true ∨
        (len (TrimSpace raw) > 50 ∧ Contains (TrimSpace raw) " ".toList = true))) ∧
    ((scanLine year lines i raw st).1 = .descriptionStart →
      (scanLine year lines i raw st).2.inDescription = true ∧
      (scanLine year lines i raw st).2.descriptionLines =
        st.descriptionLines ++ [TrimSpace raw]) ∧
    (¬ (scanLine year lines i raw st).1 = .descriptionStart →
      (scanLine year lines i raw st).2.inDescription = st.inDescription) := by
  refine ⟨?_, ?_, ?_⟩
  · rw [scanLine_fst, ruleOf_eq_iff]
    have hiff : isDescriptionStart (TrimSpace raw) = true ↔
        (Contains (TrimSpace raw) "Hi,".toList = true ∨
          (len (TrimSpace raw) > 50 ∧ Contains (TrimSpace raw) " ".toList = true)) := by
      unfold isDescriptionStart
      simp only [Bool.or_eq_true, Bool.and_eq_true, decide_eq_true_eq]
    constructor
    · intro h; exact hiff.1 h.2
    · intro h; exact ⟨hreach, hiff.2 h⟩
  · intro h
    rw [(scanLine_description year lines i raw st).1,
      (scanLine_description year lines i raw st).2, h]
    simp
  · intro h
    rw [(scanLine_description year lines i raw st).1]
    simp [h]

/-- C17 (as amended) at a concrete input: a line of 51 ASCII characters with a space,
after the title "Sync". -/
theorem description_start_bytes_witness :
    reaches { meeting := { Title := "Sync".toList } }
      (TrimSpace "Please read the attached agenda before the meeting.".toList)
      .descriptionStart ∧
    (scanLine 2025
      ["Sync".toList, "Please read the attached agenda before the meeting.".toList] 1
      "Please read the attached agenda before the meeting.".toList
      { meeting := { Title := "Sync".toList } }).1 = .descriptionStart :=
  have hreach : reaches { meeting := { Title := "Sync".toList } }
      (TrimSpace "Please read the attached agenda before the meeting.".toList)
      .descriptionStart := by
    simp only [reaches]; decide
  ⟨hreach,
    (description_start_bytes 2025
      ["Sync".toList, "Please read the attached agenda before the meeting.".toList] 1
      "Please read the attached agenda before the meeting.".toList
      { meeting := { Title := "Sync".toList } } hreach).1.2 (Or.inr (by decide))⟩

/-- C17 (as stated) fails: after the title "Sync", the line made of 25 "é", a space and
one more "é" is not consumed by rules 2 to 9, has 27 characters and no "Hi,", yet it
starts description mode and becomes the description: its UTF-8 encoding has 53 bytes. -/
theorem description_start_chars_counterexample :
    reaches (scanBefore 2025 (Split "Sync\nééééééééééééééééééééééééé é".toList '\n') 1)
      (lineAt (Split "Sync\nééééééééééééééééééééééééé é".toList '\n') 1) .descriptionStart ∧
    (lineAt (Split "Sync\nééééééééééééééééééééééééé é".toList '\n') 1).length = 27 ∧
    Contains (lineAt (Split "Sync\nééééééééééééééééééééééééé é".toList '\n') 1) "Hi,".toList
      = false ∧
    len (lineAt (Split "Sync\nééééééééééééééééééééééééé é".toList '\n') 1) = 53 ∧
    ruleAt 2025 (Split "Sync\nééééééééééééééééééééééééé é".toList '\n') 1
      = .descriptionStart ∧
    (scanBefore 2025 (Split "Sync\nééééééééééééééééééééééééé é".toList '\n') 2).inDescription
      = true ∧
    (parseMeeting 2025 "Sync\nééééééééééééééééééééééééé é".toList).1.Description
      = "ééééééééééééééééééééééééé é".toList := by
  refine ⟨by simp only [reaches]; decide, by decide, by decide, by decide, by decide,
    by decide, by decide⟩

/-- C20: in "Sync / John Smith / Optional" the lookahead of `parseAttendee` sets the
status of "John Smith" from the line "Optional", and that line, on its own turn, reaches
the attendee branch and is appended to `Attendees` as well: the result has two
attendees, not one. The lines "Home", "Office", "Scotland" and the lines mentioning
"event_busy" or "Out of office" are rejected by `parseAttendee`; "Optional" is not. -/
theorem optional_marker_becomes_attendee :
    (parseMeeting 2025 "Sync\nJohn Smith\nOptional".toList).1.Attendees =
      [{ Name := "John Smith".toList, Status := "Optional".toList },
       { Name := "Optional".toList }] ∧
    ruleAt 2025 (Split "Sync\nJohn Smith\nOptional".toList '\n') 2 = .attendee ∧
    (parseAttendee "Optional".toList (Split "Sync\nJohn Smith\nOptional".toList '\n') 2).Name
      = "Optional".toList ∧
    (parseAttendee "Home".toList ["Sync".toList, "John Smith".toList, "Home".toList] 2).Name
      = [] ∧
    (parseAttendee "event_busy".toList
      ["Sync".toList, "John Smith".toList, "event_busy".toList] 2).Name = [] := by
  refine ⟨by decide, by decide, by decide, by decide, by decide⟩

/-! ## Index expressions -/

theorem indexAt_of_lt {α : Type} (xs : List α) (i : Nat) (h : i < xs.length) :
    indexAt xs i = some (xs.get ⟨i, h⟩) := by
  unfold indexAt
  exact List.getElem?_eq_getElem h

theorem parseMeetingTimeChecked_eq (year : Int) (s : Str) :
    parseMeetingTimeChecked year s = some (parseMeetingTime year s) := by
  unfold parseMeetingTimeChecked parseMeetingTime indexAt
  rcases h : Split s middleDot with _ | ⟨p0, _ | ⟨p1, _ | ⟨p2, r⟩⟩⟩
  · simp
  · simp
  · simp only [List.length_cons, List.length_nil, ne_eq, not_true_eq_false, if_false,
      List.getElem?_cons_zero, List.getElem?_cons_succ, Option.some_bind, Nat.reduceAdd]
    rcases h2 : Split (TrimSpace p1) enDash with _ | ⟨t0, tr⟩
    · simp
    · simp only [List.length_cons, Nat.add_one_ne_zero, if_false, List.getElem?_cons_zero,
        Option.some_bind]
      rcases h3 : Fields (TrimSpace p0) with _ | ⟨w, _ | ⟨d, _ | ⟨m, r⟩⟩⟩
      · simp
      · simp
      · simp
      · have : ¬ (r.length + 1 + 1 + 1 < 3) := by omega
        simp only [List.length_cons, this, if_false, List.getElem?_cons_zero,
          List.getElem?_cons_succ, Option.some_bind]
        cases h4 : monthMap m with
        | none => rfl
        | some month =>
          simp only []
          rcases h5 : Split (TrimSpace t0) ':' with _ | ⟨hh, _ | ⟨mm, _ | ⟨x, r2⟩⟩⟩
          · simp
          · simp
          · simp
          · simp
  · simp

theorem parseAttendeeChecked_eq (line : Str) (lines : List Str) (index : Nat) :
    parseAttendeeChecked line lines index = some (parseAttendee line lines index) := by
  unfold parseAttendeeChecked parseAttendee indexAt
  dsimp only
  split
  · rfl
  split
  · split
    · split
      · by_cases h : index + 1 < lines.length
        · rw [if_pos h, List.getElem?_eq_getElem h]
          simp only [Option.some_bind]
          split_ifs <;> rfl
        · rw [if_neg h, List.getElem?_eq_none (by omega)]
      · rfl
    · rfl
  · rfl

theorem scanTailChecked_eq (lines : List Str) (i : Nat) (line : Str) (st : ScanState) :
    scanTailChecked lines i line st = some (scanTail lines i line st) := by
  unfold scanTailChecked scanTail
  by_cases c1 : (isURLLine line && isSingleURL line) = true
  · rw [if_pos c1, if_pos c1]
  rw [if_neg c1, if_neg c1]
  by_cases c2 : isPhoneMarker line = true
  · rw [if_pos c2, if_pos c2]
  rw [if_neg c2, if_neg c2]
  by_cases c3 : (decide (st.currentSection = "phone".toList) && isPhoneEntry line) = true
  · rw [if_pos c3, if_pos c3]
  rw [if_neg c3, if_neg c3]
  by_cases c4 : isGuestMarker line = true
  · rw [if_pos c4, if_pos c4]
  rw [if_neg c4, if_neg c4]
  by_cases c5 : isOrganizerLabel line = true
  · rw [if_pos c5, if_pos c5]
    unfold indexAt
    by_cases h : i + 1 < lines.length
    · rw [if_pos h, List.getElem?_eq_getElem h]; rfl
    · rw [if_neg h, List.getElem?_eq_none (by omega)]
  rw [if_neg c5, if_neg c5]
  by_cases c6 : isCreatedBy line = true
  · rw [if_pos c6, if_pos c6]; dsimp only; split <;> rfl
  rw [if_neg c6, if_neg c6]
  by_cases c7 : isDescriptionStart line = true
  · rw [if_pos c7, if_pos c7]
  rw [if_neg c7, if_neg c7]
  by_cases c8 : st.inDescription = true
  · rw [if_pos c8, if_pos c8]
  rw [if_neg c8, if_neg c8]
  by_cases c9 : isAttendeeCandidate st.meeting.Title line = true
  · rw [if_pos c9, if_pos c9, parseAttendeeChecked_eq]
    simp only [Option.some_bind]
    split <;> rfl
  rw [if_neg c9, if_neg c9]

theorem scanLineChecked_eq (year : Int) (lines : List Str) (i : Nat) (raw : Str)
    (st : ScanState) :
    scanLineChecked year lines i raw st = some (scanLine year lines i raw st) := by
  unfold scanLineChecked scanLine
  dsimp only
  by_cases c0 : TrimSpace raw = []
  · rw [if_pos c0, if_pos c0]
  rw [if_neg c0, if_neg c0]
  by_cases c1 : (decide (st.meeting.Title = []) && decide (TrimSpace raw ≠ [])) = true
  · rw [if_pos c1, if_pos c1]
  rw [if_neg c1, if_neg c1]
  by_cases c2 : isSchedule (TrimSpace raw) = true
  · rw [if_pos c2, if_pos c2, parseMeetingTimeChecked_eq]; rfl
  rw [if_neg c2, if_neg c2]
  by_cases c3 : isFrequency (TrimSpace raw) = true
  · rw [if_pos c3, if_pos c3]
  rw [if_neg c3, if_neg c3]
  by_cases c4 : isMeetLink (TrimSpace raw) = true
  · rw [if_pos c4, if_pos c4]
  rw [if_neg c4, if_neg c4]
  exact scanTailChecked_eq _ _ _ _

theorem scanLoopChecked_eq (year : Int) (lines : List Str) (rest : List Str) :
    ∀ (i : Nat) (st : ScanState),
      scanLoopChecked year lines i rest st = some (scanLoop year lines i rest st) := by
  induction rest with
  | nil => intro i st; rfl
  | cons x xs ih =>
    intro i st
    simp only [scanLoopChecked, scanLoop, scanLineChecked_eq, Option.some_bind, ih]

theorem parseMeetingChecked_eq (year : Int) (input : Str) :
    parseMeetingChecked year input = some (parseMeeting year input) := by
  unfold parseMeetingChecked parseMeeting
  simp only [scanLoopChecked_eq, Option.some_bind]

theorem mdFrontMatterChecked_eq (toLower : Char → Char) (today : Str) (meeting : Meeting)
    (md : Str) :
    mdFrontMatterChecked toLower today meeting md =
      some (mdFrontMatter toLower today meeting md) := by
  unfold mdFrontMatterChecked mdFrontMatter indexAt
  dsimp only
  rcases h : Split meeting.Organizer ' ' with _ | ⟨first, rest⟩
  · exact absurd h (Split_ne_nil _ _)
  · by_cases c : meeting.Organizer = []
    · simp only [c, ne_eq, not_true_eq_false, if_false, Option.some_bind]
    · simp only [c, ne_eq, not_false_eq_true, if_true, List.getElem?_cons_zero,
        Option.some_bind, List.getD_cons_zero]

theorem generateMarkdownChecked_eq (toLower : Char → Char) (today : Str) (meeting : Meeting)
    (includeDetails includeAttendees : Bool) :
    generateMarkdownChecked toLower today meeting includeDetails includeAttendees =
      some (generateMarkdown toLower today meeting includeDetails includeAttendees) := by
  unfold generateMarkdownChecked generateMarkdown
  simp only [mdFrontMatterChecked_eq, Option.some_bind]

/-- C18: the extractor and the Markdown renderer never fail on content. With every index
expression of the source checked (`lines[i+1]` in `parseMeeting`, `lines[index+1]` in
`parseAttendee`, `parts[0]`, `parts[1]`, `timeRange[0]`, `dateFields[1]`, `dateFields[2]`,
`timeParts[0]` and `timeParts[1]` in `parseMeetingTime`, `strings.Split(Organizer, " ")[0]`
in `generateMarkdown`), no evaluation runs out of range: for every input `parseMeeting`
returns a meeting, with a nil error, and for every meeting and toggle values
`generateMarkdown` returns a string; the results are those of the definitions used in the
other theorems. -/
theorem never_fails_on_content :
    (∀ (year : Int) (input : Str),
      parseMeetingChecked year input = some (parseMeeting year input) ∧
      (parseMeeting year input).2 = none) ∧
    (∀ (line : Str) (lines : List Str) (index : Nat),
      parseAttendeeChecked line lines index = some (parseAttendee line lines index)) ∧
    (∀ (year : Int) (dateTimeStr : Str),
      parseMeetingTimeChecked year dateTimeStr = some (parseMeetingTime year dateTimeStr)) ∧
    (∀ (organizer : Str), ∃ first, indexAt (Split organizer ' ') 0 = some first) ∧
    (∀ (toLower : Char → Char) (today : Str) (meeting : Meeting)
        (includeDetails includeAttendees : Bool),
      generateMarkdownChecked toLower today meeting includeDetails includeAttendees =
        some (generateMarkdown toLower today meeting includeDetails includeAttendees)) := by
  refine ⟨fun year input => ⟨parseMeetingChecked_eq year input, rfl⟩,
    parseAttendeeChecked_eq, parseMeetingTimeChecked_eq, fun organizer => ?_,
    generateMarkdownChecked_eq⟩
  rcases h : Split organizer ' ' with _ | ⟨first, rest⟩
  · exact absurd h (Split_ne_nil _ _)
  · exact ⟨first, by unfold indexAt; exact List.getElem?_cons_zero⟩

end MeetingMate
